import Mathlib

/-!
# RTE: the submission execution pipeline

A shallow embedding of the pure cores of the Go sources of the remote test
executor (`utils.go`, `tester.go`, `analyser.go`, `analyser_pmd.go`,
`analyser_checkstyle.go`, `compiler.go`, `metrics.go`, `metric_cloc.go`,
`docker_utils.go`, `rte.go` and the drivers and runners of the `lang_*.go`
files) together with the properties its specification states about them.

Conventions of the embedding

* A Go `string` and a Go `[]byte` are both a list of bytes (`Bytes`).
* Go `int` is 64 bits wide (the deployment target), so `int(x)` of an `int64`
  and `int64(n)` of a length are the identity; `int64` arithmetic that is
  stored back wraps explicitly (`wrapInt64`).
* A Go `error` result is an `Option`: `none` is `nil`.
* Logging (`Debug.Print`, `fmt.Printf`, `LogError`) has no effect on any value
  the program computes and is left out.
* Library functions whose behaviour the program only passes through
  (`filepath.Join`, `filepath.Rel`, the external processes) are parameters of
  the model.
* What a goroutine does that another one, or the client, can see is a list of
  events in the order of the source; a receive from a channel is a value the
  environment hands over, or none when no value ever arrives.
* The directories that `copyResources` reads and writes are trees of regular
  files and directories; a panic is a result of its own (`Run`), and a panic
  in a goroutine that has no deferred `recover` ends the program (`Outcome`).
-/

namespace RTE

/-! ## Byte strings -/

/-- A Go `[]byte` or `string`: a finite sequence of bytes. -/
abbrev Bytes := List UInt8

/-- The bytes of an ASCII string literal of the source. -/
def str (s : String) : Bytes := s.toList.map (fun c => UInt8.ofNat c.toNat)

/-! ## utils.go: the bounded-output writer -/

/-- What one call of `Write` on an `io.Writer` returns, together with the state
the receiver is left in. -/
structure WriteResult (σ : Type) where
  state : σ
  written : Int
  err : Option Bytes

/-- An `io.Writer` whose mutable state has type `σ`. -/
structure Writer (σ : Type) where
  Write : σ → Bytes → WriteResult σ

/-- The struct `LimitedWriter` of `utils.go`; `W` is the state of the wrapped sink. -/
structure LimitedWriter (σ : Type) where
  W : σ
  N : Int

/-- Two's-complement wrap-around of an `int64` result. -/
def wrapInt64 (x : Int) : Int :=
  (x + 9223372036854775808) % 18446744073709551616 - 9223372036854775808

/-- Method `(*LimitedWriter).Write` of `utils.go`, over the sink `w`. -/
def LimitedWriter.Write {σ : Type} (w : Writer σ) (state : LimitedWriter σ) (bytes : Bytes) :
    WriteResult (LimitedWriter σ) :=
  let sizeToWrite : Int := if state.N < (bytes.length : Int) then state.N else (bytes.length : Int)
  if 0 < sizeToWrite then
    let r := w.Write state.W (bytes.take sizeToWrite.toNat)
    let written : Int := if 0 < r.written then (bytes.length : Int) else r.written
    { state := { W := r.state, N := wrapInt64 (state.N - written) }, written := written, err := r.err }
  else
    { state := state, written := (bytes.length : Int), err := none }

/-- Function `LimitWriter` of `utils.go`. -/
def LimitWriter {σ : Type} (w : σ) (n : Int) : LimitedWriter σ := { W := w, N := n }

/-- A producer that performs the `Write` calls of `chunks` one after the other. -/
def writeAll {σ : Type} (w : Writer σ) (state : LimitedWriter σ) : List Bytes → LimitedWriter σ
  | [] => state
  | b :: bs => writeAll w (LimitedWriter.Write w state b).state bs

/-- The sink `w` instrumented with a log of every slice handed to it. -/
def Writer.logged {σ : Type} (w : Writer σ) : Writer (σ × List Bytes) where
  Write s p :=
    let r := w.Write s.1 p
    { state := (r.state, s.2 ++ [p]), written := r.written, err := r.err }

/-- The sink accepts every byte handed to it: it reports the whole slice written, without error. -/
def Accepting {σ : Type} (w : Writer σ) : Prop :=
  ∀ s p, (w.Write s p).written = (p.length : Int) ∧ (w.Write s p).err = none

/-- The sink makes progress: a non-empty slice is never reported as zero (or fewer) bytes written. -/
def Progressing {σ : Type} (w : Writer σ) : Prop :=
  ∀ s p, p ≠ [] → 0 < (w.Write s p).written

/-- The number of bytes in a log of slices. -/
def totalLength (log : List Bytes) : Nat := (log.map List.length).sum

/-- An open file: every write appends the whole slice. -/
def fileSink : Writer Bytes where
  Write s p := { state := s ++ p, written := (p.length : Int), err := none }

/-- A closed file: every write fails without consuming a byte. -/
def closedSink : Writer Unit where
  Write _ _ := { state := (), written := 0, err := some (str "file already closed") }

/-! ## tester.go: reading files and the in-process comparison -/

/-- The files a reader can see: `ioutil.ReadFile` of a path gives the content of a
readable regular file, or the error of the failed read. -/
abbrev FileSystem := Bytes → Except Bytes Bytes

/-- Constant `maxFileSize` of `tester.go`. -/
def maxFileSize : Nat := 1024 * 1024

/-- Function `allEndLines` of `tester.go` (`'\n'` is byte 10, `'\r'` is byte 13). -/
def allEndLines : Bytes → Bool
  | [] => true
  | c :: rest => if c != 10 && c != 13 then false else allEndLines rest

/-- Library function `strconv.Itoa`: the decimal rendering of an `int`. -/
def Itoa (n : Int) : Bytes :=
  match n with
  | Int.ofNat m => (Nat.toDigits 10 m).map (fun c => UInt8.ofNat c.toNat)
  | Int.negSucc m => 45 :: (Nat.toDigits 10 (m + 1)).map (fun c => UInt8.ofNat c.toNat)

/-- Function `readFile` of `tester.go`. -/
def readFile (fs : FileSystem) (filename : Bytes) : Except Bytes Bytes :=
  match fs filename with
  | .error err => .error err
  | .ok res =>
    if res.length > maxFileSize then
      .ok (res.take (maxFileSize / 4) ++
        ((str "\n... [Output too long, skipping " ++
            Itoa ((res.length : Int) - ((maxFileSize / 2 : Nat) : Int)) ++
            str " bytes] ... \n") ++
          res.drop (res.length - maxFileSize / 4)))
    else .ok res

/-- The three results `(expectedResult, testOk, err)` of a comparison. -/
structure CompareResult where
  expectedResult : Bytes
  testOk : Bool
  err : Option Bytes
deriving DecidableEq

/-- Function `compareFileContentExactMatch` of `tester.go`.  `outputLen?` is the
value of `outputLen` after the length check, `none` when that check returns
early; every index the final loop reads is below both lengths. -/
def compareFileContentExactMatch (fs : FileSystem) (expectedFile outFile : Bytes) :
    CompareResult :=
  match readFile fs expectedFile with
  | .error err => { expectedResult := [], testOk := false, err := some err }
  | .ok expected =>
    match readFile fs outFile with
    | .error err => { expectedResult := [], testOk := false, err := some err }
    | .ok output =>
      let outputLen := output.length
      let expectedLen := expected.length
      let outputLen? : Option Nat :=
        if outputLen != expectedLen then
          if outputLen > expectedLen && allEndLines (output.drop expectedLen) then
            some expectedLen
          else if expectedLen > outputLen && allEndLines (expected.drop outputLen) then
            some outputLen
          else
            none
        else some outputLen
      match outputLen? with
      | none => { expectedResult := expected, testOk := false, err := none }
      | some outputLen =>
        if (List.range outputLen).all (fun i => output[i]? == expected[i]?) then
          { expectedResult := [], testOk := true, err := none }
        else
          { expectedResult := expected, testOk := false, err := none }

/-- The words of the specification: a byte string with every trailing `'\n'`
and `'\r'` byte removed. -/
def stripTrailingEOL (b : Bytes) : Bytes :=
  (b.reverse.dropWhile (fun c => c == 10 || c == 13)).reverse

/-- A file system that holds an expected-output file `"t1.exp"` and a captured
output file `"t1.out"`. -/
def twoFiles (expected output : Bytes) : FileSystem := fun path =>
  if path = str "t1.exp" then .ok expected
  else if path = str "t1.out" then .ok output
  else .error (str "no such file or directory")

/-! ## rte.go: the records carried through the pipeline -/

/-- Type `Compiler` of `compiler.go`, a Go `int`. -/
abbrev Compiler := Int

/-- Type `TestType` of `tester.go`, a Go `int`. -/
abbrev TestType := Int

/-- Struct `TestConfig` of `rte.go`. -/
structure TestConfig where
  Compiler : Compiler
  TestType : TestType
  MainIs : Bytes
  Timeout : Int
  MaxMem : Int
  AnalysisTimeout : Int
  AnalysisMaxMem : Int
  CompareTool : Bytes
  CompareToolArgs : List Bytes
  RequiredFiles : List Bytes
  AllowedFiles : List Bytes
  UploadsDirectory : Bytes

/-- Struct `Execution` of `rte.go`, without its three reply channels. -/
structure Execution where
  ID : Bytes
  RunDir : Bytes
  TestDir : Bytes
  Test : Bytes
  Config : TestConfig

/-- Struct `Warning` of `rte.go` (the `XMLName` tag field is left out). -/
structure Warning where
  Rule : Bytes
  RuleSet : Bytes
  BeginLine : Int
  InfoUrl : Bytes
  Priority : Int
  Message : Bytes
deriving DecidableEq

/-- Struct `FileWarnings` of `rte.go` (the `XMLName` tag field is left out). -/
structure FileWarnings where
  File : Bytes
  Warnings : List Warning
deriving DecidableEq

/-! ## Library functions on strings and paths -/

/-- The functions of package `path/filepath` that the program calls; the model
holds for whatever they compute. -/
structure Filepath where
  Join : List Bytes → Bytes
  Abs : Bytes → Except Bytes Bytes
  Rel : Bytes → Bytes → Bytes × Option Bytes
  IsAbs : Bytes → Bool

/-- Library function `strings.Split` for a separator of one byte. -/
def strings.Split (s : Bytes) (sep : UInt8) : List Bytes :=
  match s with
  | [] => [[]]
  | c :: rest =>
    if c == sep then [] :: strings.Split rest sep
    else
      match strings.Split rest sep with
      | [] => [[c]]
      | hd :: tl => (c :: hd) :: tl

/-- Library function `strings.ReplaceAll` for an old string of one byte. -/
def strings.ReplaceAll (s : Bytes) (old : UInt8) (new : Bytes) : Bytes :=
  s.flatMap (fun c => if c == old then new else [c])

/-- Library function `strings.HasPrefix`. -/
def strings.HasPrefix (s pre : Bytes) : Bool := pre.isPrefixOf s

/-! ## analyser_checkstyle.go and analyser_pmd.go -/

/-- Struct `CheckstyleWarning` of `analyser_checkstyle.go`. -/
structure CheckstyleWarning where
  Rule : Bytes
  Line : Int
  Severity : Bytes
  Message : Bytes

/-- Struct `CheckstyleFileWarnings` of `analyser_checkstyle.go`. -/
structure CheckstyleFileWarnings where
  File : Bytes
  Warnings : List CheckstyleWarning

/-- The body of the inner loop of `convertWarnings`: the `Warning` built from one
Checkstyle finding. -/
def convertWarning (checkstyleWarning : CheckstyleWarning) : Warning :=
  let warning : Warning :=
    { Rule := [], RuleSet := str "checkstyle", BeginLine := checkstyleWarning.Line,
      InfoUrl := [], Priority := 0, Message := checkstyleWarning.Message }
  let split := strings.Split checkstyleWarning.Rule 46
  let warning := { warning with Rule := split.getLastD [] }
  if checkstyleWarning.Severity = str "ignore" then { warning with Priority := 5 }
  else if checkstyleWarning.Severity = str "info" then { warning with Priority := 4 }
  else if checkstyleWarning.Severity = str "warning" then { warning with Priority := 3 }
  else if checkstyleWarning.Severity = str "error" then { warning with Priority := 1 }
  else { warning with Priority := 3 }

/-- Function `convertWarnings` of `analyser_checkstyle.go`: both loops append to
a slice that starts empty. -/
def convertWarnings (checkstyleFileWarnings : List CheckstyleFileWarnings) : List FileWarnings :=
  checkstyleFileWarnings.foldl (fun fileWarnings checkstyleFileWarning =>
    let fileWarning : FileWarnings :=
      checkstyleFileWarning.Warnings.foldl (fun fileWarning checkstyleWarning =>
        { fileWarning with
          Warnings := fileWarning.Warnings ++ [convertWarning checkstyleWarning] })
        { File := checkstyleFileWarning.File, Warnings := [] }
    fileWarnings ++ [fileWarning]) []

/-- What the analysis stage takes from outside the program: the package
`path/filepath`, the two sandboxed tools (each leaves a file system with its
report and may fail), the XML decoder at the two report types, and the order in
which the two workers hand over their results. -/
structure AnalysisEnv extends Filepath where
  fileExists : Bytes → Bool
  runPmd : Bytes → Int → Bytes → Bytes → Int → Bytes → FileSystem × Option Bytes
  runCheckstyle : Bytes → Int → Bytes → Bytes → Int → Bytes → FileSystem × Option Bytes
  xmlUnmarshalPmd : Bytes → Except Bytes (List FileWarnings)
  xmlUnmarshalCheckstyle : Bytes → Except Bytes (List CheckstyleFileWarnings)
  pmdFirst : Bool

/-- Function `parsePmdResult` of `analyser_pmd.go`. -/
def parsePmdResult (env : AnalysisEnv) (fs : FileSystem) (absRunDir : Bytes) :
    Except Bytes (List FileWarnings) :=
  let xmlFilePath := env.Join [absRunDir, str "analysis_pmd.xml"]
  match fs xmlFilePath with
  | .error err => .error err
  | .ok byteValue =>
    match env.xmlUnmarshalPmd byteValue with
    | .error err => .error err
    | .ok warnings =>
      .ok (warnings.map (fun fileWarning =>
        { fileWarning with
          Warnings := fileWarning.Warnings.map (fun warning =>
            { warning with Message := strings.ReplaceAll warning.Message 10 [] }) }))

/-- Function `pmdAnalysis` of `analyser_pmd.go`. -/
def pmdAnalysis (env : AnalysisEnv) (pmdFile : Bytes) (timeout : Int) (runid : Bytes)
    (absRunDir : Bytes) (maxMem : Int) (runDir : Bytes) : List FileWarnings :=
  let ran := env.runPmd pmdFile timeout runid absRunDir maxMem runDir
  match parsePmdResult env ran.1 absRunDir with
  | .error _ => []
  | .ok fileWarnings => fileWarnings

/-- Function `parseCheckstyleResult` of `analyser_checkstyle.go`. -/
def parseCheckstyleResult (env : AnalysisEnv) (fs : FileSystem) (absRunDir : Bytes) :
    Except Bytes (List FileWarnings) :=
  let xmlFilePath := env.Join [absRunDir, str "analysis_checkstyle.xml"]
  match fs xmlFilePath with
  | .error err => .error err
  | .ok byteValue =>
    match env.xmlUnmarshalCheckstyle byteValue with
    | .error err => .error err
    | .ok warnings => .ok (convertWarnings warnings)

/-- Function `checkstyleAnalysis` of `analyser_checkstyle.go`. -/
def checkstyleAnalysis (env : AnalysisEnv) (checkstyleFile : Bytes) (timeout : Int)
    (runid : Bytes) (absRunDir : Bytes) (maxMem : Int) (runDir : Bytes) : List FileWarnings :=
  let ran := env.runCheckstyle checkstyleFile timeout runid absRunDir maxMem runDir
  match ran.2 with
  | some _ => []
  | none =>
    match parseCheckstyleResult env ran.1 absRunDir with
    | .error _ => []
    | .ok fileWarnings => fileWarnings

/-! ## analyser.go -/

/-- The first part of function `analyse` of `analyser.go`: the warnings received
from the workers, in the order of arrival; `none` when the run directory has no
absolute path and `analyse` returns at once. -/
def analyseCollect (env : AnalysisEnv) (execution : Execution) : Option (List FileWarnings) :=
  let runid := execution.ID ++ str "-analysis"
  let runDir := execution.RunDir
  let testDir := execution.TestDir
  let timeout := if execution.Config.AnalysisTimeout = 0 then 20
    else execution.Config.AnalysisTimeout
  let maxMem := if execution.Config.AnalysisMaxMem = 0 then 100
    else execution.Config.AnalysisMaxMem
  match env.Abs runDir with
  | .error _ => none
  | .ok absRunDir =>
    let pmdFile := env.Join [testDir, str "pmd.xml"]
    let fromPmd :=
      if env.fileExists pmdFile then
        pmdAnalysis env pmdFile timeout (runid ++ str "-pmd") absRunDir maxMem runDir
      else []
    let checkstyleFile := env.Join [testDir, str "checkstyle.xml"]
    let fromCheckstyle :=
      if env.fileExists checkstyleFile then
        checkstyleAnalysis env checkstyleFile timeout (runid ++ str "-checkstyle") absRunDir
          maxMem runDir
      else []
    some (if env.pmdFirst then fromPmd ++ fromCheckstyle else fromCheckstyle ++ fromPmd)

/-- The loop "fix filenames of moved files" of `analyse`: entry `i` is read,
changed when its path begins with the uploads directory, and stored back at
index `i`. -/
def fixFilenames (env : AnalysisEnv) (execution : Execution) (fileWarnings : List FileWarnings) :
    List FileWarnings :=
  (List.range fileWarnings.length).foldl (fun acc i =>
    match fileWarnings[i]? with
    | none => acc
    | some fw =>
      let fw :=
        if strings.HasPrefix fw.File execution.Config.UploadsDirectory then
          { fw with File := (env.Rel execution.Config.UploadsDirectory fw.File).1 }
        else fw
      acc.set i fw) fileWarnings

/-- Function `analyse` of `analyser.go`. -/
def analyse (env : AnalysisEnv) (execution : Execution) : List FileWarnings :=
  match analyseCollect env execution with
  | none => []
  | some fileWarnings => fixFilenames env execution fileWarnings

/-! ## tester.go: the I/O-diff runner -/

/-- Struct `Test` of `rte.go`. -/
structure Test where
  Name : Bytes
  Success : Bool
  Error : Bytes
  Expected : Bytes
  Output : Bytes
deriving DecidableEq

/-- Struct `TestResult` of `rte.go`. -/
structure TestResult where
  ID : Bytes
  Compiled : Bool
  CompileError : Bytes
  InternalError : Bytes
  Tests : List Test
  TestsExecuted : Int
  TestsFailed : Int
  MissingFiles : List Bytes
  IllegalFiles : List Bytes
deriving DecidableEq

/-- Constants `JavaCompiler` … `MatlabCompiler` of `compiler.go`. -/
def JavaCompiler : Compiler := 0

def CCompiler : Compiler := 1

def FsharpCompiler : Compiler := 2

def PythonCompiler : Compiler := 3

def MatlabCompiler : Compiler := 4

/-- An entry of a directory listing (`os.FileInfo`), as far as the runner reads it. -/
structure DirEntry where
  Name : Bytes
  IsDir : Bool

/-- The error of `exec.Cmd.Output`: the command ran and exited with a non-zero
status (`*exec.ExitError`), or it failed in another way. -/
inductive CmdError where
  | ExitError (msg : Bytes)
  | other (msg : Bytes)

/-- What the I/O-diff runner takes from outside the program: the package
`path/filepath`, the globals `testdataDir` and `*tools_folder`, the test
directory of a job, directory listings, the three sandboxed program runs (each
leaves a file system with the captured streams and may fail), the generated
table `_CompilerValueToName`, and the external compare tool. -/
structure IOTestEnv extends Filepath where
  testdataDir : Bytes
  tools_folder : Bytes
  getTestDir : Execution → Bytes
  ReadDir : Bytes → Except Bytes (List DirEntry)
  executeJava : Execution → Bytes → Bytes → Bytes → Bytes → FileSystem → FileSystem × Option Bytes
  executeC : Execution → Bytes → Bytes → Bytes → Bytes → FileSystem → FileSystem × Option Bytes
  executePython :
    Execution → Bytes → Bytes → Bytes → Bytes → FileSystem → FileSystem × Option Bytes
  CompilerValueToName : Compiler → Bytes
  runCompareTool : Bytes → List Bytes → FileSystem → Bytes × Option CmdError

/-- Library function `strings.HasSuffix`. -/
def strings.HasSuffix (s suffix : Bytes) : Bool := suffix.reverse.isPrefixOf s.reverse

/-- Function `compareFileContent` of `tester.go`. -/
def compareFileContent (env : IOTestEnv) (fs : FileSystem) (expectedFile outFile : Bytes)
    (execution : Execution) : CompareResult :=
  let config := execution.Config
  if config.CompareTool = [] then
    compareFileContentExactMatch fs expectedFile outFile
  else
    let tool :=
      if env.IsAbs env.tools_folder then env.Join [env.tools_folder, config.CompareTool]
      else env.Join [env.testdataDir, env.tools_folder, config.CompareTool]
    let args := config.CompareToolArgs ++ [expectedFile, outFile]
    match env.runCompareTool tool args fs with
    | (output, some (.ExitError _)) => { expectedResult := output, testOk := false, err := none }
    | (_, some (.other msg)) => { expectedResult := [], testOk := false, err := some msg }
    | (_, none) => { expectedResult := [], testOk := true, err := none }

/-- The `switch execution.Config.Compiler` of `IOTestRunner.executeTest`: the run
of the compiled program on one case, giving the file system it leaves and
`execErr`. -/
def IOTestRunner.execute (env : IOTestEnv) (execution : Execution)
    (inFileName paramFileName outFileName errFileName : Bytes) (fs : FileSystem) :
    FileSystem × Option Bytes :=
  if execution.Config.Compiler = JavaCompiler then
    env.executeJava execution inFileName paramFileName outFileName errFileName fs
  else if execution.Config.Compiler = CCompiler then
    env.executeC execution inFileName paramFileName outFileName errFileName fs
  else if execution.Config.Compiler = PythonCompiler then
    env.executePython execution inFileName paramFileName outFileName errFileName fs
  else
    (fs, some (str "execution not supported for compiler " ++
      env.CompilerValueToName execution.Config.Compiler))

/-- What one turn of the loop of `IOTestRunner.executeTest` leaves: the file
system, the `Test` appended to `tests`, and whether `numFailed` was incremented. -/
structure CaseResult where
  fs : FileSystem
  test : Test
  failed : Bool

/-- The body of the loop of `IOTestRunner.executeTest` for the directory entry
named `fName`, a regular file whose name ends in `.out.txt`. -/
def IOTestRunner.executeCase (env : IOTestEnv) (execution : Execution) (testDir : Bytes)
    (fs : FileSystem) (fName : Bytes) : CaseResult :=
  let fileBaseName := fName.take (fName.length - 8)
  let test : Test :=
    { Name := fileBaseName, Success := false, Error := [], Expected := [], Output := [] }
  let inFileName := fileBaseName ++ str ".in.txt"
  let inFile := env.Join [testDir, inFileName]
  let paramFileName := fileBaseName ++ str ".param.txt"
  let paramFile := env.Join [testDir, paramFileName]
  let outFileName := fileBaseName ++ str ".out.txt"
  let outFile := env.Join [execution.RunDir, outFileName]
  let errFileName := fileBaseName ++ str ".err.txt"
  let errFile := env.Join [execution.RunDir, errFileName]
  let expectedFile := env.Join [testDir, outFileName]
  let ran := IOTestRunner.execute env execution inFileName paramFileName outFileName errFileName fs
  let fs := ran.1
  let execErr := ran.2
  let inFileContent :=
    match readFile fs inFile with
    | .error _ => str "No input"
    | .ok content => content
  let parameters :=
    match fs paramFile with
    | .ok paramBytes => str " with parameters '" ++ paramBytes ++ str "'"
    | .error _ => []
  let test :=
    { test with
      Error := str "Error for the following input" ++ parameters ++ str ":\n" ++ inFileContent }
  let outFileContent :=
    match readFile fs outFile with
    | .error _ => []
    | .ok content => content
  let test := { test with Output := test.Output ++ outFileContent }
  let expectedFileContent :=
    match readFile fs expectedFile with
    | .error _ => []
    | .ok content => content
  let test := { test with Expected := test.Expected ++ expectedFileContent }
  match execErr with
  | some execErr =>
    let errFileContent :=
      match readFile fs errFile with
      | .error _ => []
      | .ok content => content
    { fs := fs,
      test := { test with
        Success := false,
        Output := test.Output ++
          (str "\n\n\n" ++ execErr ++ str "\n" ++ errFileContent ++ str "\n") },
      failed := true }
  | none =>
    let compared := compareFileContent env fs expectedFile outFile execution
    match compared.err with
    | some execErr =>
      { fs := fs,
        test := { test with
          Success := false,
          Output := test.Output ++
            (str "\n\n\nError comparing results:\n" ++ execErr ++ str "\n") },
        failed := true }
    | none =>
      if !compared.testOk then
        { fs := fs,
          test := { test with Success := false, Expected := compared.expectedResult },
          failed := true }
      else
        let test :=
          match readFile fs errFile with
          | .ok errContent => { test with Output := test.Output ++ errContent }
          | .error _ => test
        { fs := fs, test := { test with Success := true, Error := [] }, failed := false }

/-- Function `internalErrorResult` of `tester.go`. -/
def internalErrorResult (execution : Execution) (msg : Bytes) : TestResult :=
  { ID := execution.ID, Compiled := true, CompileError := [], InternalError := msg, Tests := [],
    TestsExecuted := 0, TestsFailed := 0, MissingFiles := [], IllegalFiles := [] }

/-- The loop state of `IOTestRunner.executeTest`. -/
structure IOLoopState where
  fs : FileSystem
  numTests : Int
  numFailed : Int
  tests : List Test

/-- Method `IOTestRunner.executeTest` of `tester.go`, started on the file system `fs`. -/
def IOTestRunner.executeTest (env : IOTestEnv) (execution : Execution) (fs : FileSystem) :
    TestResult :=
  let testDir := env.getTestDir execution
  match env.ReadDir testDir with
  | .error _ => internalErrorResult execution (str "Could not read test folder")
  | .ok files =>
    let final := files.foldl (fun (st : IOLoopState) f =>
      if !f.IsDir && strings.HasSuffix f.Name (str ".out.txt") then
        let done := IOTestRunner.executeCase env execution testDir st.fs f.Name
        { fs := done.fs, numTests := st.numTests + 1,
          numFailed := if done.failed then st.numFailed + 1 else st.numFailed,
          tests := st.tests ++ [done.test] }
      else st) { fs := fs, numTests := 0, numFailed := 0, tests := [] }
    { ID := execution.ID, Compiled := true, CompileError := [], InternalError := [],
      Tests := final.tests, TestsExecuted := final.numTests, TestsFailed := final.numFailed,
      MissingFiles := [], IllegalFiles := [] }

/-! ## Sample inputs -/

/-- A stand-in for `filepath.Rel` that is right for a target directly below the
base: the target without the base and the separator. -/
def sampleRel (base targ : Bytes) : Bytes × Option Bytes := (targ.drop (base.length + 1), none)

/-- A sample environment, over any `filepath.Rel`: the test has a Checkstyle rule
file only, and the report names one file by its absolute path inside the sandbox
and one by a path below the uploads directory. -/
def sampleEnv (rel : Bytes → Bytes → Bytes × Option Bytes) : AnalysisEnv where
  Join elems := (elems.intersperse (str "/")).flatten
  Abs path := .ok (str "/srv/rte/" ++ path)
  Rel := rel
  IsAbs path := path.head? == some 47
  fileExists path := path == str "tests/t/checkstyle.xml"
  runPmd _ _ _ _ _ _ := (fun _ => .error (str "no such file or directory"), none)
  runCheckstyle _ _ _ _ _ _ := (fun _ => .ok (str "<checkstyle/>"), none)
  xmlUnmarshalPmd _ := .ok []
  xmlUnmarshalCheckstyle _ :=
    .ok [{ File := str "/code/uploads/Main.java",
           Warnings := [{ Rule := str "com.puppycrawl.tools.checkstyle.checks.MagicNumber",
                          Line := 3, Severity := str "error", Message := str "magic\nnumber" }] },
         { File := str "uploads/Util.java",
           Warnings := [{ Rule := str "TodoComment", Line := 7, Severity := str "info",
                          Message := str "todo" }] }]
  pmdFirst := true

/-- A sample job whose uploads go to the sub-directory `uploads`. -/
def sampleExecution : Execution where
  ID := str "42"
  RunDir := str "runs/42"
  TestDir := str "tests/t"
  Test := str "t"
  Config :=
    { Compiler := 0, TestType := 0, MainIs := str "Main", Timeout := 0, MaxMem := 0,
      AnalysisTimeout := 0, AnalysisMaxMem := 0, CompareTool := [], CompareToolArgs := [],
      RequiredFiles := [], AllowedFiles := [], UploadsDirectory := str "uploads" }

/-- A sample environment of the I/O-diff runner: a C test whose only case is
`t1`, and a program run that leaves the file system as it finds it. -/
def sampleIOEnv : IOTestEnv where
  Join elems := (elems.intersperse (str "/")).flatten
  Abs path := .ok (str "/srv/rte/" ++ path)
  Rel := sampleRel
  IsAbs path := path.head? == some 47
  testdataDir := str "tests"
  tools_folder := str "tools"
  getTestDir execution := str "tests/" ++ execution.Test
  ReadDir _ := .ok [{ Name := str "t1.out.txt", IsDir := false }]
  executeJava _ _ _ _ _ fs := (fs, none)
  executeC _ _ _ _ _ fs := (fs, none)
  executePython _ _ _ _ _ fs := (fs, none)
  CompilerValueToName _ := []
  runCompareTool _ _ _ := ([], none)

/-- The files after a run of case `t1`: the expected output of the test and the
captured standard output and standard error of the program. -/
def caseFiles (expected output : Bytes) : FileSystem := fun path =>
  if path = str "tests/t/t1.out.txt" then .ok expected
  else if path = str "runs/42/t1.out.txt" then .ok output
  else if path = str "runs/42/t1.err.txt" then .ok []
  else .error (str "no such file or directory")

/-- An expected output of one byte more than `maxFileSize`. -/
def longExpected : Bytes := List.replicate 1048577 97

/-! ## compiler.go: the language drivers and the compile stage -/

/-- Struct `ClocResult` of `metric_cloc.go` (the `XMLName` tag field is left out). -/
structure ClocResult where
  Name : Bytes
  Comments : Bytes
  LOC : Bytes
deriving DecidableEq

/-- The identity of a Go channel. -/
abbrev Chan := Nat

/-- Struct `Execution` of `rte.go` with its three reply channels; `none` is a
`nil` channel. -/
structure Job extends Execution where
  ResChan : Option Chan
  AnalysisChan : Option Chan
  ClocChan : Option Chan

/-- How a call ends: it returns a value, or it panics with a value. -/
inductive Run (α : Type) where
  | done (value : α)
  | panic (value : Bytes)

/-- The implementations of interface `CompilerProvider` of `compiler.go`. -/
inductive CompilerProvider where
  | CompilerProviderJava
  | CompilerProviderC
  | CompilerProviderFsharp
  | CompilerProviderPython
  | CompilerProviderMatlab
  | CompilerProviderErr (compiler : Compiler)
deriving DecidableEq

/-- Function `compilerProvider` of `compiler.go`. -/
def compilerProvider (compiler : Compiler) : CompilerProvider :=
  if compiler = JavaCompiler then .CompilerProviderJava
  else if compiler = CCompiler then .CompilerProviderC
  else if compiler = FsharpCompiler then .CompilerProviderFsharp
  else if compiler = PythonCompiler then .CompilerProviderPython
  else if compiler = MatlabCompiler then .CompilerProviderMatlab
  else .CompilerProviderErr compiler

/-- Constants `IOTest` … `Matlab` of `tester.go`. -/
def IOTest : TestType := 0

def JUnitTest : TestType := 1

def xUnitTest : TestType := 2

def PyTest : TestType := 3

def Matlab : TestType := 4

/-- What the stages take from outside the program: the environments of the
I/O-diff runner and of the analysis stage, the copy of resources and templates,
the four sandboxed compilers, file copies and removals, `filepath.Base`, the
four sandboxed test frameworks, the metric computation, and the flag
`*clean_testruns` with `os.RemoveAll`.  A sandboxed step leaves a file system
and returns its result. -/
structure PipelineEnv where
  io : IOTestEnv
  analysis : AnalysisEnv
  copyResources : Execution → FileSystem → FileSystem
  compileJava : Execution → FileSystem → FileSystem × Option Bytes
  compileC : Execution → FileSystem → FileSystem × Option Bytes
  compileFsharp : Execution → FileSystem → FileSystem × Option Bytes
  compilePython : Execution → FileSystem → FileSystem × Option Bytes
  copyFile : Bytes → Bytes → FileSystem → FileSystem × Option Bytes
  Remove : Bytes → FileSystem → FileSystem
  Base : Bytes → Bytes
  executeJUnit : Execution → FileSystem → FileSystem × Run TestResult
  executeXUnit : Execution → FileSystem → FileSystem × Run TestResult
  executePytest : Execution → FileSystem → FileSystem × Run TestResult
  executeMatlabTest : Execution → FileSystem → FileSystem × Run TestResult
  metric : Execution → FileSystem → Run (List ClocResult)
  clean_testruns : Bool
  RemoveAll : Bytes → FileSystem → FileSystem

/-- Method `compile` of the six implementations of `CompilerProvider`
(`lang_java.go`, `lang_c.go`, `lang_fsharp.go`, `lang_python.go`,
`lang_matlab.go`, `compiler.go`). -/
def CompilerProvider.compile (env : PipelineEnv) (c : CompilerProvider) (execution : Execution)
    (fs : FileSystem) : FileSystem × Option Bytes :=
  match c with
  | .CompilerProviderJava => env.compileJava execution fs
  | .CompilerProviderC => env.compileC execution fs
  | .CompilerProviderFsharp => env.compileFsharp execution fs
  | .CompilerProviderPython => env.compilePython execution fs
  | .CompilerProviderMatlab => (fs, none)
  | .CompilerProviderErr compiler => (fs, some (str "Compiler not supported: " ++ Itoa compiler))

/-- What a stage worker does that another goroutine can see, and each call of a
driver's `compile`. -/
inductive PipelineEvent where
  | publishAnalysis (execution : Job)
  | publishMetric (execution : Job)
  | publishTest (execution : Job)
  | compile (provider : CompilerProvider) (execution : Execution)
  | sendRes (chan : Option Chan) (result : TestResult)
  | sendAnalysis (chan : Option Chan) (warnings : List FileWarnings)
  | sendCloc (chan : Option Chan) (results : List ClocResult)

/-- A `TestResult` literal that sets `ID`, `Compiled` and `CompileError` only. -/
def notCompiled (ID : Bytes) (CompileError : Bytes) : TestResult :=
  { ID := ID, Compiled := false, CompileError := CompileError, InternalError := [], Tests := [],
    TestsExecuted := 0, TestsFailed := 0, MissingFiles := [], IllegalFiles := [] }

/-- One turn of the loop of function `compileService` of `compiler.go`, for the
job `execution` received from `compileChannel`. -/
def compileService (env : PipelineEnv) (execution : Job) (fs : FileSystem) :
    FileSystem × List PipelineEvent :=
  let fs := env.copyResources execution.toExecution fs
  let toAnalysis : List PipelineEvent :=
    if execution.AnalysisChan ≠ none then [.publishAnalysis execution] else []
  let toMetric : List PipelineEvent :=
    if execution.ClocChan ≠ none then [.publishMetric execution] else []
  let provider := compilerProvider execution.Config.Compiler
  let compiled := provider.compile env execution.toExecution fs
  let events := toAnalysis ++ toMetric ++ [.compile provider execution.toExecution]
  match compiled.2 with
  | some err =>
    (compiled.1, events ++ [.sendRes execution.ResChan (notCompiled execution.ID err)])
  | none =>
    (compiled.1, events ++ [.publishMetric execution, .publishTest execution])

/-! ## The test stage -/

/-- What a runner leaves: the file system, the calls of `compile` it made, and
the `TestResult` it returns unless it panics. -/
structure TestRun where
  fs : FileSystem
  events : List PipelineEvent
  result : Run TestResult

/-- Method `JUnitTestRunner.executeTest` of `lang_java.go`. -/
def JUnitTestRunner.executeTest (env : PipelineEnv) (execution : Execution) (fs : FileSystem) :
    TestRun :=
  let testDir := env.io.getTestDir execution
  match env.io.ReadDir testDir with
  | .error _ => { fs := fs, events := [],
                  result := .done (internalErrorResult execution (str "Could not read test dir")) }
  | .ok files =>
    let fs := files.foldl (fun fs f =>
      (env.copyFile (env.io.Join [testDir, f.Name]) (env.io.Join [execution.RunDir, f.Name])
        fs).1) fs
    let compiled := CompilerProvider.CompilerProviderJava.compile env execution fs
    let events := [PipelineEvent.compile .CompilerProviderJava execution]
    match compiled.2 with
    | some compileError =>
      { fs := compiled.1, events := events,
        result := .done (notCompiled execution.ID
          (str "Error compiling test cases  (maybe wrong name of submitted class)\n" ++
            compileError)) }
    | none =>
      let files :=
        match env.io.ReadDir execution.RunDir with
        | .error _ => []
        | .ok files => files
      let fs := files.foldl (fun fs f =>
        if strings.HasSuffix f.Name (str ".java") then env.Remove f.Name fs else fs) compiled.1
      let ran := env.executeJUnit execution fs
      { fs := ran.1, events := events, result := ran.2 }

/-- The loop "copy f# files" of `XUnitTestRunner.executeTest`: the file system
after the copies, or the result returned when a copy fails. -/
def XUnitTestRunner.copyTests (env : PipelineEnv) (execution : Execution) (testDir : Bytes) :
    List DirEntry → FileSystem → FileSystem × Option TestResult
  | [], fs => (fs, none)
  | f :: files, fs =>
    let name := f.Name
    if strings.HasSuffix name (str ".fs") then
      let source := env.io.Join [testDir, f.Name]
      let target := env.io.Join [execution.RunDir, env.Base f.Name]
      let copied := env.copyFile source target fs
      match copied.2 with
      | some err =>
        (copied.1, some (notCompiled execution.ID
          (str "Could not copy file " ++ name ++ str "\n" ++ err)))
      | none => XUnitTestRunner.copyTests env execution testDir files copied.1
    else XUnitTestRunner.copyTests env execution testDir files fs

/-- Method `XUnitTestRunner.executeTest` of `lang_fsharp.go`. -/
def XUnitTestRunner.executeTest (env : PipelineEnv) (execution : Execution) (fs : FileSystem) :
    TestRun :=
  let testDir := env.io.getTestDir execution
  match env.io.ReadDir testDir with
  | .error err =>
    { fs := fs, events := [],
      result := .done (notCompiled execution.ID (str "Could not read test dir\n" ++ err)) }
  | .ok files =>
    match XUnitTestRunner.copyTests env execution testDir files fs with
    | (fs, some result) => { fs := fs, events := [], result := .done result }
    | (fs, none) =>
      let compiled := CompilerProvider.CompilerProviderFsharp.compile env execution fs
      let events := [PipelineEvent.compile .CompilerProviderFsharp execution]
      match compiled.2 with
      | some compileError =>
        { fs := compiled.1, events := events,
          result := .done (notCompiled execution.ID
            (str "Error compiling test cases  (maybe wrong name of submitted class)\n" ++
              compileError)) }
      | none =>
        let ran := env.executeXUnit execution compiled.1
        { fs := ran.1, events := events, result := ran.2 }

/-- The implementations of interface `TestRunner` of `tester.go`. -/
inductive TestRunner where
  | IOTestRunner
  | JUnitTestRunner
  | XUnitTestRunner
  | PyTestRunner
  | MatlabTestRunner
  | TestRunnerNotFound (message : Bytes)
deriving DecidableEq

/-- Function `getRunner` of `tester.go`. -/
def getRunner (testType : TestType) : TestRunner :=
  if testType = IOTest then .IOTestRunner
  else if testType = JUnitTest then .JUnitTestRunner
  else if testType = xUnitTest then .XUnitTestRunner
  else if testType = PyTest then .PyTestRunner
  else if testType = Matlab then .MatlabTestRunner
  else .TestRunnerNotFound (str "Test type not supported: " ++ Itoa testType)

/-- Method `executeTest` of the six implementations of `TestRunner`. -/
def TestRunner.executeTest (env : PipelineEnv) (t : TestRunner) (execution : Execution)
    (fs : FileSystem) : TestRun :=
  match t with
  | .IOTestRunner =>
    { fs := fs, events := [], result := .done (IOTestRunner.executeTest env.io execution fs) }
  | .JUnitTestRunner => JUnitTestRunner.executeTest env execution fs
  | .XUnitTestRunner => XUnitTestRunner.executeTest env execution fs
  | .PyTestRunner =>
    let ran := env.executePytest execution fs
    { fs := ran.1, events := [], result := ran.2 }
  | .MatlabTestRunner =>
    let ran := env.executeMatlabTest execution fs
    { fs := ran.1, events := [], result := ran.2 }
  | .TestRunnerNotFound message =>
    { fs := fs, events := [], result := .done (internalErrorResult execution message) }

/-- Function `handleTestRequest` of `tester.go`, for the job `execution` received
from `testChannel`: a panic of the runner is recovered and nothing is sent. -/
def handleTestRequest (env : PipelineEnv) (execution : Job) (fs : FileSystem) :
    FileSystem × List PipelineEvent :=
  let ran := (getRunner execution.Config.TestType).executeTest env execution.toExecution fs
  match ran.result with
  | .panic _ => (ran.fs, ran.events)
  | .done testResult =>
    let fs := if env.clean_testruns then env.RemoveAll execution.RunDir ran.fs else ran.fs
    (fs, ran.events ++ [.sendRes execution.ResChan testResult])

/-! ## The analysis and metric stages -/

/-- Function `handleAnalysisRequest` of `analyser.go`, for the job `execution`
received from `analysisChannel`. -/
def handleAnalysisRequest (env : PipelineEnv) (execution : Job) : List PipelineEvent :=
  [.sendAnalysis execution.AnalysisChan (analyse env.analysis execution.toExecution)]

/-- Function `handleMetricRequest` of `metrics.go`, for the job `execution`
received from `metricChannel`: when `metric` panics nothing is sent. -/
def handleMetricRequest (env : PipelineEnv) (execution : Job) (fs : FileSystem) :
    List PipelineEvent :=
  match env.metric execution.toExecution fs with
  | .panic _ => []
  | .done v => [.sendCloc execution.ClocChan v]

/-! ## One job through the four stages -/

/-- The events of one job: the turn of the compile stage, followed for each
publication on a stage queue by what the worker that takes the job does.  The
workers run side by side, so this is one of the possible orders; the number of
events of each kind is the same in all of them. -/
def jobTrace (env : PipelineEnv) (execution : Job) (fs : FileSystem) : List PipelineEvent :=
  let compiled := compileService env execution fs
  compiled.2 ++ compiled.2.flatMap (fun ev =>
    match ev with
    | .publishAnalysis job => handleAnalysisRequest env job
    | .publishMetric job => handleMetricRequest env job compiled.1
    | .publishTest job => (handleTestRequest env job compiled.1).2
    | _ => [])

/-- Calls of a driver's `compile`. -/
def PipelineEvent.isCompile : PipelineEvent → Bool
  | .compile _ _ => true
  | _ => false

/-- Publications on `testChannel`. -/
def PipelineEvent.isPublishTest : PipelineEvent → Bool
  | .publishTest _ => true
  | _ => false

/-- Publications on `metricChannel`. -/
def PipelineEvent.isPublishMetric : PipelineEvent → Bool
  | .publishMetric _ => true
  | _ => false

/-- Sends on a job's `ResChan`. -/
def PipelineEvent.isSendRes : PipelineEvent → Bool
  | .sendRes _ _ => true
  | _ => false

/-- Sends on a job's `ClocChan`. -/
def PipelineEvent.isSendCloc : PipelineEvent → Bool
  | .sendCloc _ _ => true
  | _ => false

/-- A sample environment of the stages: every compiler and framework succeeds
and leaves the file system as it finds it, the metric is one record. -/
def samplePipelineEnv : PipelineEnv where
  io := sampleIOEnv
  analysis := sampleEnv sampleRel
  copyResources _ fs := fs
  compileJava _ fs := (fs, none)
  compileC _ fs := (fs, none)
  compileFsharp _ fs := (fs, none)
  compilePython _ fs := (fs, none)
  copyFile _ _ fs := (fs, none)
  Remove _ fs := fs
  Base path := path
  executeJUnit execution fs := (fs, .done (internalErrorResult execution []))
  executeXUnit execution fs := (fs, .done (internalErrorResult execution []))
  executePytest execution fs := (fs, .done (internalErrorResult execution []))
  executeMatlabTest execution fs := (fs, .done (internalErrorResult execution []))
  metric _ _ := .done [{ Name := str "Main.java", Comments := str "1", LOC := str "10" }]
  clean_testruns := false
  RemoveAll _ fs := fs

/-- The sample job as the coordinator creates it when the test has no rule
file; `testType` is the configured test type. -/
def sampleJob (testType : TestType) : Job :=
  { sampleExecution with
    Config := { sampleExecution.Config with TestType := testType }
    ResChan := some 0, AnalysisChan := none, ClocChan := some 2 }

/-! ## rte.go: the coordinator -/

/-- Library function `filepath.Clean` on a Unix path: separators are merged,
`.` elements dropped, an inner `..` removes the element before it, `..` at the
start of a rooted path is dropped, and the empty result is `.`. -/
def filepath.Clean (path : Bytes) : Bytes :=
  let rooted := path.head? == some 47
  let elems := (strings.Split path 47).filter (fun e => e != [] && e != str ".")
  let out := elems.foldl (fun (stack : List Bytes) e =>
    if e = str ".." then
      match stack.getLast? with
      | some top => if top = str ".." then stack ++ [e] else stack.dropLast
      | none => if rooted then stack else stack ++ [e]
    else stack ++ [e]) []
  let body := (out.intersperse (str "/")).flatten
  if rooted then 47 :: body else if body = [] then str "." else body

/-- Library function `filepath.Join` on Unix paths: the non-empty elements,
joined by the separator and cleaned; the empty string when there is none. -/
def filepath.Join (elems : List Bytes) : Bytes :=
  match elems.filter (fun e => e != []) with
  | [] => []
  | nonEmpty => filepath.Clean (nonEmpty.intersperse (str "/")).flatten

/-- Struct `RteResult` of `rte.go`. -/
structure RteResult where
  TestResult : TestResult
  FileWarnings : List FileWarnings
  ClocResults : List ClocResult
deriving DecidableEq

/-- A file part of a multipart form (`multipart.FileHeader`): its name and
what opening and reading it gives. -/
structure FileHeader where
  Filename : Bytes
  content : Except Bytes Bytes

/-- An HTTP request as `handleTest` reads it: the method, the `ApiKey` header,
the values of `r.Form` after parsing, and the file parts of `r.MultipartForm`,
which is `nil` (`none`) when the body is not a multipart form. -/
structure Request where
  Method : Bytes
  ApiKey : Bytes
  Form : Bytes → List Bytes
  MultipartForm : Option (Bytes → List FileHeader)

/-- Function `FormValueFlexible` of `rte.go`. -/
def FormValueFlexible (r : Request) (key : Bytes) : Run Bytes :=
  match r.Form key with
  | v :: _ => .done v
  | [] =>
    match r.MultipartForm with
    | none => .panic (str "invalid memory address or nil pointer dereference")
    | some File =>
      match File key with
      | [] => .done []
      | header :: _ =>
        match header.content with
        | .error _ => .done []
        | .ok byteContainer => .done byteContainer

/-- Library method `(*http.Request).FormFile`: the first file part for the key. -/
def Request.FormFile (r : Request) (key : Bytes) : Except Bytes FileHeader :=
  match r.MultipartForm with
  | none => .error (str "request Content-Type isn't multipart/form-data")
  | some File =>
    match File key with
    | [] => .error (str "http: no such file")
    | header :: _ =>
      match header.content with
      | .error err => .error err
      | .ok _ => .ok header

/-- A compiled regular expression, as far as the coordinator uses it: its
method `MatchString`. -/
abbrev Regexp := Bytes → Bool

/-- What the coordinator receives from the three reply channels of a job;
`none` when no value ever arrives. -/
structure Replies where
  FileWarnings : Option (List FileWarnings)
  TestResult : Option TestResult
  ClocResults : Option (List ClocResult)

/-- What the coordinator takes from outside the program: the package
`path/filepath`, the globals `apiKey`, `testdataDir` and `testrunDir`, the
fresh identifier, whether a path is a directory, the opening and decoding of a
`config.json`, the creation of directories and files, `strconv.Atoi`,
`regexp.Compile`, `fileExists`, and what the stages send back for a job. -/
structure CoordinatorEnv extends Filepath where
  apiKey : Bytes
  testdataDir : Bytes
  testrunDir : Bytes
  NewV4 : Bytes
  isDir : Bytes → Bool
  openConfig : Bytes → Except Bytes (Except Bytes TestConfig)
  MkdirAll : Bytes → Option Bytes
  OpenFile : Bytes → Option Bytes
  Atoi : Bytes → Except Bytes Int
  regexpCompile : Bytes → Except Bytes Regexp
  fileExists : Bytes → Bool
  replies : Job → Replies

/-- What `handleTest` does that is visible outside it, in order: calls of
`w.WriteHeader`, writes of a body, JSON documents encoded to the response,
calls of `os.MkdirAll`, files written, the publication on `compileChannel`,
and a panic, which ends the handler. -/
inductive ServerEvent where
  | WriteHeader (code : Nat)
  | Write (body : Bytes)
  | Encode (res : RteResult)
  | MkdirAll (path : Bytes)
  | WriteFile (path : Bytes) (content : Bytes)
  | publishCompile (execution : Job)
  | panic (value : Bytes)

/-- Function `returnTestResult` of `rte.go`. -/
def returnTestResult (res : TestResult) : List ServerEvent :=
  [.Encode { TestResult := res, FileWarnings := [], ClocResults := [] }]

/-- The loop "create list of file names" of `handleTest`. -/
def handleTest.fileNames (r : Request) : List Nat → Except Bytes (List Bytes)
  | [] => .ok []
  | i :: rest =>
    match r.FormFile (str "file" ++ Itoa (i : Int)) with
    | .error err => .error err
    | .ok header =>
      match handleTest.fileNames r rest with
      | .error err => .error err
      | .ok files => .ok (header.Filename :: files)

/-- The loop "check if all required files are uploaded" of `handleTest`. -/
def handleTest.missingFiles (RequiredFiles files : List Bytes) : List Bytes :=
  RequiredFiles.foldl (fun missingFiles required =>
    let missing := !(files.any (fun file => required == file))
    if missing then missingFiles ++ [required] else missingFiles) []

/-- The loop of `handleTest` that compiles the `AllowedFiles`. -/
def handleTest.compileAllowed (env : CoordinatorEnv) : List Bytes → Except Bytes (List Regexp)
  | [] => .ok []
  | allowed :: rest =>
    match env.regexpCompile allowed with
    | .error err => .error err
    | .ok re =>
      match handleTest.compileAllowed env rest with
      | .error err => .error err
      | .ok regex => .ok (re :: regex)

/-- The loop of `handleTest` that collects the files no expression matches. -/
def handleTest.illegalFiles (regex : List Regexp) (files : List Bytes) : List Bytes :=
  files.foldl (fun illegalFiles file =>
    let matched := regex.any (fun re => re file)
    if !matched then illegalFiles ++ [file] else illegalFiles) []

/-- The block "check if all required files are uploaded" of `handleTest`: the
early reply, or `none` when the handler goes on. -/
def handleTest.checkRequired (testid : Bytes) (testConfig : TestConfig) (files : List Bytes) :
    Option (List ServerEvent) :=
  if testConfig.RequiredFiles.length > 0 then
    let missingFiles := handleTest.missingFiles testConfig.RequiredFiles files
    if missingFiles.length > 0 then
      some (returnTestResult
        { ID := testid, Compiled := false, CompileError := [], InternalError := [], Tests := [],
          TestsExecuted := 0, TestsFailed := 0, MissingFiles := missingFiles,
          IllegalFiles := [] })
    else none
  else none

/-- The block "check if all files match a regexp" of `handleTest`: the early
reply, or `none` when the handler goes on. -/
def handleTest.checkAllowed (env : CoordinatorEnv) (testid : Bytes) (testConfig : TestConfig)
    (files : List Bytes) : Option (List ServerEvent) :=
  if testConfig.AllowedFiles.length > 0 then
    match handleTest.compileAllowed env testConfig.AllowedFiles with
    | .error err => some [.WriteHeader 500, .Write err]
    | .ok regex =>
      let illegalFiles := handleTest.illegalFiles regex files
      if illegalFiles.length > 0 then
        some (returnTestResult
          { ID := testid, Compiled := false, CompileError := [], InternalError := [],
            Tests := [], TestsExecuted := 0, TestsFailed := 0, MissingFiles := [],
            IllegalFiles := illegalFiles })
      else none
  else none

/-- The block "check for required and allowed files" of `handleTest`, entered
when one of the two lists is not empty: the early reply, or `none`.  The
expression `make([]string, numfiles)` panics for a negative length; a length
that no memory can hold, for which it fails as well, is left out. -/
def handleTest.checkFiles (env : CoordinatorEnv) (r : Request) (testid : Bytes)
    (testConfig : TestConfig) (numfiles : Int) : Option (List ServerEvent) :=
  if numfiles < 0 then some [.panic (str "runtime error: makeslice: len out of range")]
  else
    match handleTest.fileNames r (List.range numfiles.toNat) with
    | .error err => some [.WriteHeader 500, .Write err]
    | .ok files =>
      match handleTest.checkRequired testid testConfig files with
      | some reply => some reply
      | none => handleTest.checkAllowed env testid testConfig files

/-- The loop "copy files into run directory" of `handleTest`: the files written
and, when a step fails, the reply. -/
def handleTest.copyUploads (env : CoordinatorEnv) (r : Request) (uploadFolder : Bytes) :
    List Nat → List ServerEvent × Option (List ServerEvent)
  | [] => ([], none)
  | i :: rest =>
    match r.FormFile (str "file" ++ Itoa (i : Int)) with
    | .error err => ([], some [.WriteHeader 500, .Write err])
    | .ok header =>
      let filename := header.Filename
      let relfilename := env.Join [uploadFolder, filename]
      match env.OpenFile relfilename with
      | some err => ([], some [.WriteHeader 500, .Write err])
      | none =>
        let content :=
          match header.content with
          | .ok bytes => bytes
          | .error _ => []
        let copied := handleTest.copyUploads env r uploadFolder rest
        (ServerEvent.WriteFile relfilename content :: copied.1, copied.2)

/-- The end of `handleTest`, from "send test execution into the pipeline": the
job is published, the three replies are read, and the result is encoded by the
call of `returnRteResult` and again by the deferred function. -/
def handleTest.schedule (env : CoordinatorEnv) (testid testref testdir rundir : Bytes)
    (testConfig : TestConfig) : List ServerEvent :=
  let hasRules := env.fileExists (env.Join [testdir, str "pmd.xml"]) ||
    env.fileExists (env.Join [testdir, str "checkstyle.xml"])
  let execution : Job :=
    { ID := testid, RunDir := rundir, TestDir := testdir, Test := testref, Config := testConfig,
      ResChan := some 0, ClocChan := some 1,
      AnalysisChan := if hasRules then some 2 else none }
  let replies := env.replies execution
  let published := [ServerEvent.publishCompile execution]
  match (if hasRules then replies.FileWarnings else some []) with
  | none => published
  | some fileWarnings =>
    match replies.TestResult with
    | none => published
    | some testResult =>
      let rteResult : RteResult :=
        { TestResult := testResult, FileWarnings := fileWarnings, ClocResults := [] }
      let returned := published ++ [.Encode rteResult]
      match replies.ClocResults with
      | none => returned
      | some clocResults => returned ++ [.Encode { rteResult with ClocResults := clocResults }]

/-- The middle of `handleTest`, from the read of `numfiles` to the upload of the
sources; `events` are the events so far. -/
def handleTest.upload (env : CoordinatorEnv) (r : Request)
    (testid testref testdir rundir uploadFolder : Bytes) (testConfig : TestConfig)
    (events : List ServerEvent) : List ServerEvent :=
  match FormValueFlexible r (str "numfiles") with
  | .panic p => events ++ [.panic p]
  | .done numfilesStr =>
    if numfilesStr.length > 0 then
      match env.Atoi numfilesStr with
      | .error err => events ++ [.WriteHeader 400, .Write err]
      | .ok numfiles =>
        let early :=
          if testConfig.AllowedFiles.length > 0 || testConfig.RequiredFiles.length > 0 then
            handleTest.checkFiles env r testid testConfig numfiles
          else none
        match early with
        | some reply => events ++ reply
        | none =>
          match handleTest.copyUploads env r uploadFolder (List.range numfiles.toNat) with
          | (written, some reply) => events ++ written ++ reply
          | (written, none) =>
            events ++ written ++ handleTest.schedule env testid testref testdir rundir testConfig
    else
      match FormValueFlexible r (str "code") with
      | .panic p => events ++ [.panic p]
      | .done code =>
        match FormValueFlexible r (str "filename") with
        | .panic p => events ++ [.panic p]
        | .done filename =>
          let relfilename := env.Join [uploadFolder, filename]
          match env.OpenFile relfilename with
          | some err => events ++ [.WriteHeader 500, .Write err]
          | none =>
            events ++ [.WriteFile relfilename code] ++
              handleTest.schedule env testid testref testdir rundir testConfig

/-- Function `handleTest` of `rte.go`.  The error of the second `os.MkdirAll` is
stored in a variable that the branch for `numfiles` shadows, so it is never
looked at. -/
def handleTest (env : CoordinatorEnv) (r : Request) : List ServerEvent :=
  if r.Method = str "OPTIONS" then [.WriteHeader 200]
  else if r.Method ≠ str "POST" then [.WriteHeader 404]
  else
    let testid := env.NewV4
    if env.apiKey ≠ [] ∧ r.ApiKey ≠ env.apiKey then [.WriteHeader 403]
    else
      match FormValueFlexible r (str "test") with
      | .panic p => [.panic p]
      | .done test =>
        let testref := filepath.Clean test
        if testref = [] then [.WriteHeader 400, .Write (str "Parameter 'test' required!")]
        else
          let testdir := env.Join [env.testdataDir, testref]
          if !env.isDir testdir then [.WriteHeader 404, .Write (str "Test not found!\n")]
          else
            match env.openConfig (env.Join [testdir, str "config.json"]) with
            | .error _ =>
              [.WriteHeader 404, .Write (str "Config for test not found: " ++ testdir ++ str "\n")]
            | .ok (.error err) =>
              [.WriteHeader 500,
                .Write (str "Error reading test configuration: " ++ testdir ++ str " (" ++ err ++
                  str ")\n")]
            | .ok (.ok testConfig) =>
              let rundir := env.Join [env.testrunDir, testid]
              match env.MkdirAll rundir with
              | some err => [.MkdirAll rundir, .WriteHeader 500, .Write err]
              | none =>
                let uploadFolder := env.Join [rundir, testConfig.UploadsDirectory]
                handleTest.upload env r testid testref testdir rundir uploadFolder testConfig
                  [.MkdirAll rundir, .MkdirAll uploadFolder]

/-- JSON documents encoded to the response. -/
def ServerEvent.isEncode : ServerEvent → Bool
  | .Encode _ => true
  | _ => false

/-- Publications on `compileChannel`. -/
def ServerEvent.isPublishCompile : ServerEvent → Bool
  | .publishCompile _ => true
  | _ => false

/-- The first value sent on each reply channel in a trace of the stages. -/
def repliesOf (trace : List PipelineEvent) : Replies where
  FileWarnings := trace.findSome? (fun ev =>
    match ev with
    | .sendAnalysis _ warnings => some warnings
    | _ => none)
  TestResult := trace.findSome? (fun ev =>
    match ev with
    | .sendRes _ result => some result
    | _ => none)
  ClocResults := trace.findSome? (fun ev =>
    match ev with
    | .sendCloc _ results => some results
    | _ => none)

/-- A stand-in for `strconv.Atoi` that is right for a string of decimal digits. -/
def sampleAtoi (s : Bytes) : Except Bytes Int :=
  if s ≠ [] ∧ s.all (fun c => decide (48 ≤ c.toNat) && decide (c.toNat ≤ 57)) = true then
    .ok (s.foldl (fun n c => 10 * n + ((c.toNat : Int) - 48)) 0)
  else .error (str "strconv.Atoi: parsing: invalid syntax")

/-- The configuration of the sample test `t`: `Main.java` is required and is the
only file allowed. -/
def samplePolicy : TestConfig :=
  { sampleExecution.Config with
    RequiredFiles := [str "Main.java"], AllowedFiles := [str "^Main\\.java$"] }

/-- A sample environment of the coordinator: the key is `secret`, the only test
is `t`, every directory and file can be created, the one expression of the
sample policy compiles to the test for the name `Main.java`, the test has no
rule file, and the stages are those of `samplePipelineEnv`. -/
def sampleCoordinatorEnv : CoordinatorEnv where
  Join := filepath.Join
  Abs path := .ok (str "/srv/rte/" ++ path)
  Rel := sampleRel
  IsAbs path := path.head? == some 47
  apiKey := str "secret"
  testdataDir := str "tests"
  testrunDir := str "runs"
  NewV4 := str "42"
  isDir path := path == str "tests" || path == str "tests/t"
  openConfig path :=
    if path = str "tests/t/config.json" then .ok (.ok samplePolicy)
    else .error (str "no such file or directory")
  MkdirAll _ := none
  OpenFile _ := none
  Atoi := sampleAtoi
  regexpCompile allowed :=
    if allowed = str "^Main\\.java$" then .ok (fun name => name == str "Main.java")
    else .error (str "error parsing regexp")
  fileExists _ := false
  replies job := repliesOf (jobTrace samplePipelineEnv job (caseFiles [] []))

/-- A multipart request for test `t` with the right key that uploads the files
named `names` as `file0`, `file1`, … with `numfiles`. -/
def sampleUpload (names : List Bytes) : Request where
  Method := str "POST"
  ApiKey := str "secret"
  Form key :=
    if key = str "test" then [str "t"]
    else if key = str "numfiles" then [Itoa (names.length : Int)]
    else []
  MultipartForm := some (fun key =>
    ((List.range names.length).filter
      (fun (i : Nat) => key == str "file" ++ Itoa (Int.ofNat i))).map
      (fun (i : Nat) => { Filename := names.getD i [], content := .ok (str "class A {}") }))

/-- A multipart request for test `t` with the right key that sends one source as
`code` and `filename`, without `numfiles`. -/
def sampleCodeUpload (filename : Bytes) : Request where
  Method := str "POST"
  ApiKey := str "secret"
  Form key :=
    if key = str "test" then [str "t"]
    else if key = str "code" then [str "class A {}"]
    else if key = str "filename" then [filename]
    else []
  MultipartForm := some (fun _ => [])

/-- A multipart request with the right key and no field `test`. -/
def sampleNoTest : Request where
  Method := str "POST"
  ApiKey := str "secret"
  Form _ := []
  MultipartForm := some (fun _ => [])

/-- The request is accepted: it is a `POST` with the right key (or no key is
configured), its field `test` reads `test`, the test directory exists, its
`config.json` decodes to `testConfig`, and the run directory is created. -/
def Accepted (env : CoordinatorEnv) (r : Request) (test : Bytes) (testConfig : TestConfig) :
    Prop :=
  r.Method = str "POST" ∧ (env.apiKey = [] ∨ r.ApiKey = env.apiKey) ∧
    FormValueFlexible r (str "test") = .done test ∧
    env.isDir (env.Join [env.testdataDir, filepath.Clean test]) = true ∧
    env.openConfig (env.Join [env.Join [env.testdataDir, filepath.Clean test],
      str "config.json"]) = .ok (.ok testConfig) ∧
    env.MkdirAll (env.Join [env.testrunDir, env.NewV4]) = none

/-- The request is a multi-file submission of the files named `files`: its
field `numfiles` is a number that is not negative, and `file0`, `file1`, … are
file parts with these names, as many as `numfiles` says. -/
def MultiFile (env : CoordinatorEnv) (r : Request) (files : List Bytes) : Prop :=
  ∃ (numfilesStr : Bytes) (numfiles : Int),
    FormValueFlexible r (str "numfiles") = .done numfilesStr ∧ numfilesStr ≠ [] ∧
    env.Atoi numfilesStr = .ok numfiles ∧ 0 ≤ numfiles ∧
    List.Forall₂ (fun (i : Nat) name =>
      ∃ header, r.FormFile (str "file" ++ Itoa (Int.ofNat i)) = .ok header ∧
        header.Filename = name) (List.range numfiles.toNat) files

/-- The reply to a submission that breaks the file policy: a result that is not
compiled and names the missing and the illegal files. -/
def policyReply (testid : Bytes) (MissingFiles IllegalFiles : List Bytes) : ServerEvent :=
  .Encode
    { TestResult :=
        { ID := testid, Compiled := false, CompileError := [], InternalError := [], Tests := [],
          TestsExecuted := 0, TestsFailed := 0, MissingFiles := MissingFiles,
          IllegalFiles := IllegalFiles },
      FileWarnings := [], ClocResults := [] }

/-! ## tester.go, docker_utils.go: the sandboxed run of a program -/

/-- Library function `strings.Trim` for a cutset of ASCII bytes. -/
def strings.Trim (s cutset : Bytes) : Bytes :=
  ((s.dropWhile (fun c => cutset.contains c)).reverse.dropWhile
    (fun c => cutset.contains c)).reverse

/-- Library function `strings.Join`. -/
def strings.Join (elems : List Bytes) (sep : Bytes) : Bytes := (elems.intersperse sep).flatten

/-- A command as the program prepares it for `cmd.Run`: `Args`, `Dir`, the
content of the file opened as `Stdin` (`none` when there is none), the files
behind `Stdout` and `Stderr`, and the duration handed to `context.WithTimeout`,
a `time.Duration` in nanoseconds. -/
structure Cmd where
  Args : List Bytes
  Dir : Bytes
  Stdin : Option Bytes
  Stdout : Bytes
  Stderr : Bytes
  Timeout : Int

/-- The error of `cmd.Run`: an `*exec.ExitError` with the `ExitStatus()` of its
wait status, which is `-1` for a process that was killed, and its text; or
another error. -/
inductive RunError where
  | ExitError (ExitStatus : Int) (msg : Bytes)
  | other (msg : Bytes)

/-- What the sandboxed runs take from outside the program: the package
`path/filepath` with `filepath.Base`, the global `baseDir` and the image flags,
`os.Stat` (giving `IsDir()`), `os.Create`, the `Close` of a created file,
`ioutil.ReadDir`, and `cmd.Run`, which leaves a file system with the captured
streams. -/
structure SandboxEnv extends Filepath where
  Base : Bytes → Bytes
  baseDir : Bytes
  docker_image_java : Bytes
  docker_image_c : Bytes
  docker_image_python : Bytes
  docker_image_fsharp : Bytes
  docker_image_matlab : Bytes
  Stat : Bytes → FileSystem → Except Bytes Bool
  Create : Bytes → FileSystem → Except Bytes FileSystem
  Close : Bytes → FileSystem → Option Bytes
  ReadDir : Bytes → FileSystem → Except Bytes (List DirEntry)
  Run : Cmd → FileSystem → FileSystem × Option RunError

/-- Global `libDir` of `rte.go`. -/
def libDir : Bytes := str "lib"

/-- Constant `junitStandaloneJar` of `lang_java.go`. -/
def junitStandaloneJar : Bytes := str "junit-platform-console-standalone-1.5.0-M1.jar"

/-- The expression `time.Duration(timeout)*time.Second`: a product of `int64`. -/
def timeoutDuration (timeout : Int) : Int := wrapInt64 (timeout * 1000000000)

/-- Function `dockerArguments` of `docker_utils.go`. -/
def dockerArguments (env : SandboxEnv) (runDir executionId : Bytes) : Except Bytes (List Bytes) :=
  match env.Abs runDir with
  | .error _ => .error (str "Internal Error: Could not create absolute path of test folder")
  | .ok absExecPath =>
    .ok [str "docker", str "run", str "--name", executionId, str "--rm", str "-v",
      absExecPath ++ str ":/code", str "--workdir", str "/code"]

/-- What a call of `executeProgram` leaves: the file system, the error it
returns, and, when it came to `cmd.Run`, the command and how the run ended. -/
structure ProgramRun where
  fs : FileSystem
  err : Option Bytes
  started : Option (Cmd × Option RunError)

/-- The value of `arguments` that `executeProgram` of `tester.go` assigns to
`cmd.Args`, or the error it returns before. -/
def executeProgram.arguments (env : SandboxEnv) (execution : Execution)
    (inFile paramFile : Bytes) (dockerArgs : List Bytes) (dockerImage : Bytes)
    (command : List Bytes) (fs : FileSystem) : Except Bytes (List Bytes) :=
  let testid := execution.ID ++ str "-" ++ env.Base inFile
  let testDir := execution.TestDir
  let maxMem := if execution.Config.MaxMem = 0 then 100 else execution.Config.MaxMem
  match dockerArguments env execution.RunDir testid with
  | .error err => .error (str "Could not get docker arguments: " ++ err)
  | .ok arguments =>
    let arguments := arguments ++ [str "-i"]
    let arguments := arguments ++ [str "-m", Itoa maxMem ++ str "M"]
    let arguments := arguments ++ dockerArgs
    let arguments := arguments ++ [dockerImage]
    let arguments := arguments ++ command
    let paramFilePath := env.Join [testDir, paramFile]
    match env.Stat paramFilePath fs with
    | .ok false =>
      match fs paramFilePath with
      | .ok paramBytes =>
        .ok (arguments ++ strings.Split (strings.Trim paramBytes (str "\r\n")) 32)
      | .error _ => .ok arguments
    | _ => .ok arguments

/-- Function `executeProgram` of `tester.go`, started on the file system `fs`.
The deferred `docker stop` is left out. -/
def executeProgram (env : SandboxEnv) (execution : Execution)
    (inFile paramFile outFile errFile : Bytes) (dockerArgs : List Bytes) (dockerImage : Bytes)
    (command : List Bytes) (fs : FileSystem) : ProgramRun :=
  let runDir := execution.RunDir
  let testDir := execution.TestDir
  let timeout := if execution.Config.Timeout = 0 then 10 else execution.Config.Timeout
  match executeProgram.arguments env execution inFile paramFile dockerArgs dockerImage command
      fs with
  | .error err => { fs := fs, err := some err, started := none }
  | .ok arguments =>
    let inFilePath := env.Join [testDir, inFile]
    let opened : Except Bytes (Option Bytes) :=
      match env.Stat inFilePath fs with
      | .ok false =>
        match fs inFilePath with
        | .ok content => .ok (some content)
        | .error err => .error err
      | _ => .ok none
    match opened with
    | .error err => { fs := fs, err := some err, started := none }
    | .ok stdin =>
      let outFilePath := env.Join [runDir, outFile]
      match env.Create outFilePath fs with
      | .error err => { fs := fs, err := some err, started := none }
      | .ok fs =>
        let errFilePath := env.Join [runDir, errFile]
        match env.Create errFilePath fs with
        | .error err => { fs := fs, err := some err, started := none }
        | .ok fs =>
          let cmd : Cmd :=
            { Args := arguments, Dir := runDir, Stdin := stdin, Stdout := outFilePath,
              Stderr := errFilePath, Timeout := timeoutDuration timeout }
          let ran := env.Run cmd fs
          let err : Option Bytes :=
            match ran.2 with
            | none => none
            | some (.ExitError ExitStatus msg) =>
              if ExitStatus = -1 then some (str "Timeout") else some msg
            | some (.other msg) => some msg
          let err :=
            match err with
            | some err => some err
            | none => env.Close errFilePath ran.1
          let err :=
            match err with
            | some err => some err
            | none => env.Close outFilePath ran.1
          { fs := ran.1, err := err, started := some (cmd, ran.2) }

/-- Function `executeC` of `lang_c.go`. -/
def executeC (env : SandboxEnv) (execution : Execution)
    (inFile paramFile outFile errFile : Bytes) (fs : FileSystem) : ProgramRun :=
  let dockerArgs := [str "-e", str "ASAN_OPTIONS=detect_leaks=1"]
  executeProgram env execution inFile paramFile outFile errFile dockerArgs env.docker_image_c
    [str "stdbuf", str "-o0", str "./a.out"] fs

/-- Function `executeJava` of `lang_java.go`. -/
def executeJava (env : SandboxEnv) (execution : Execution)
    (inFile paramFile outFile errFile : Bytes) (fs : FileSystem) : ProgramRun :=
  match env.Abs (env.Join [execution.TestDir, libDir]) with
  | .error _ =>
    { fs := fs, err := some (str "Internal Error: Could not create absolute path of lib folder"),
      started := none }
  | .ok absLibPath =>
    match env.Abs (env.Join [execution.RunDir, execution.Config.MainIs ++ str ".class"]) with
    | .error _ =>
      { fs := fs,
        err := some (str "Internal Error: Could not create absolute path of main file"),
        started := none }
    | .ok absMainFile =>
      match env.Stat absMainFile fs with
      | .ok false =>
        let maxMem := if execution.Config.MaxMem = 0 then 100 else execution.Config.MaxMem
        let libraries := [str "."]
        let arguments :=
          [str "-v", env.Join [env.baseDir, junitStandaloneJar] ++ str ":/jars/" ++
            junitStandaloneJar ++ str ":ro"]
        let withLib : List Bytes × List Bytes :=
          match env.Stat absLibPath fs with
          | .ok true =>
            (arguments ++ [str "-v", absLibPath ++ str ":/libs:ro"], libraries ++ [str "/libs/*"])
          | _ => (arguments, libraries)
        executeProgram env execution inFile paramFile outFile errFile withLib.1
          env.docker_image_java
          [str "java", str "-cp", strings.Join withLib.2 (str ":"),
            str "-Xmx" ++ Itoa maxMem ++ str "m", execution.Config.MainIs] fs
      | _ =>
        { fs := fs,
          err := some (str "Could not find " ++ (execution.Config.MainIs ++ str ".java") ++
            str " (rename your program accordingly and try again)"),
          started := none }

/-- Function `executePython` of `lang_python.go`. -/
def executePython (env : SandboxEnv) (execution : Execution)
    (inFile paramFile outFile errFile : Bytes) (fs : FileSystem) : ProgramRun :=
  match env.ReadDir execution.RunDir fs with
  | .error _ =>
    { fs := fs, err := some (str "Internal Error: Could not read Test files"), started := none }
  | .ok files =>
    let mainFile :=
      if execution.Config.MainIs.length > 0 then execution.Config.MainIs
      else files.foldl (fun mainFile f =>
        if strings.HasSuffix f.Name (str ".py") then f.Name else mainFile) []
    if execution.Config.MainIs.length = 0 ∧ mainFile.length = 0 then
      { fs := fs, err := some (str "Keine Python Datei gefunden!"), started := none }
    else
      match env.Abs (env.Join [execution.RunDir, mainFile]) with
      | .error _ =>
        { fs := fs,
          err := some (str "Internal Error: Could not create absolute path of main file"),
          started := none }
      | .ok absMainFile =>
        match env.Stat absMainFile fs with
        | .ok false =>
          executeProgram env execution inFile paramFile outFile errFile [] env.docker_image_python
            [str "python3", mainFile] fs
        | _ =>
          { fs := fs,
            err := some (str "Could not find " ++ mainFile ++
              str " (rename your program accordingly and try again)"),
            started := none }

/-- The environment of the I/O-diff runner whose three program runs are the
functions `executeJava`, `executeC` and `executePython` over `env`. -/
def sandboxedRunnerEnv (io : IOTestEnv) (env : SandboxEnv) : IOTestEnv :=
  { io with
    executeJava := fun execution inFile paramFile outFile errFile fs =>
      ((executeJava env execution inFile paramFile outFile errFile fs).fs,
        (executeJava env execution inFile paramFile outFile errFile fs).err)
    executeC := fun execution inFile paramFile outFile errFile fs =>
      ((executeC env execution inFile paramFile outFile errFile fs).fs,
        (executeC env execution inFile paramFile outFile errFile fs).err)
    executePython := fun execution inFile paramFile outFile errFile fs =>
      ((executePython env execution inFile paramFile outFile errFile fs).fs,
        (executePython env execution inFile paramFile outFile errFile fs).err) }

/-- The run of the compiled program on the case of the entry `fName`, as the
`switch` of `IOTestRunner.executeTest` starts it; `none` for a compiler that
has no program run. -/
def IOTestRunner.programRun (env : SandboxEnv) (execution : Execution) (fs : FileSystem)
    (fName : Bytes) : Option ProgramRun :=
  let fileBaseName := fName.take (fName.length - 8)
  let inFileName := fileBaseName ++ str ".in.txt"
  let paramFileName := fileBaseName ++ str ".param.txt"
  let outFileName := fileBaseName ++ str ".out.txt"
  let errFileName := fileBaseName ++ str ".err.txt"
  if execution.Config.Compiler = JavaCompiler then
    some (executeJava env execution inFileName paramFileName outFileName errFileName fs)
  else if execution.Config.Compiler = CCompiler then
    some (executeC env execution inFileName paramFileName outFileName errFileName fs)
  else if execution.Config.Compiler = PythonCompiler then
    some (executePython env execution inFileName paramFileName outFileName errFileName fs)
  else none
/-! ## lang_java.go, lang_fsharp.go, lang_python.go, lang_matlab.go: the framework runs -/

/-- Function `appendOutput` of `tester.go`, on the file system after the two
files are closed. -/
def appendOutput (fs : FileSystem) (outLogFile errLogFile message : Bytes) : Bytes :=
  let stdout :=
    match readFile fs outLogFile with
    | .ok content => content
    | .error _ => []
  let stderr :=
    match readFile fs errLogFile with
    | .ok content => content
    | .error _ => []
  let message := if stdout.length > 0 then message ++ (str "\n\nOutput:\n" ++ stdout) else message
  let message :=
    if stderr.length > 0 then message ++ (str "\n\nError Output:\n" ++ stderr) else message
  message

/-- The start of `executeJUnit` of `lang_java.go`, up to `cmd.Run`: the file
system with the two log files created and the command, or the result returned
before the run. -/
def executeJUnit.start (env : SandboxEnv) (execution : Execution) (fs : FileSystem) :
    FileSystem × Except TestResult Cmd :=
  let testid := execution.ID
  match env.Abs execution.RunDir with
  | .error _ =>
    (fs, .error (internalErrorResult execution (str "Could not make path of run dir absolute")))
  | .ok absRunDir =>
    match env.Abs (env.Join [execution.TestDir, libDir]) with
    | .error _ =>
      (fs, .error (internalErrorResult execution
        (str "Internal Error: Could not create absolute path of lib folder")))
    | .ok absLibPath =>
      let timeout := if execution.Config.Timeout = 0 then 10 else execution.Config.Timeout
      match dockerArguments env execution.RunDir testid with
      | .error err =>
        (fs, .error (internalErrorResult execution
          (str "Could not get docker arguments: " ++ err)))
      | .ok arguments =>
        let arguments := arguments ++
          [str "-v", env.Join [env.baseDir, junitStandaloneJar] ++ str ":/jars/" ++
            junitStandaloneJar ++ str ":ro"]
        let arguments :=
          match env.Stat absLibPath fs with
          | .ok true => arguments ++ [str "-v", absLibPath ++ str ":/libs:ro"]
          | _ => arguments
        let arguments := arguments ++ [env.docker_image_java]
        let arguments := arguments ++
          [str "java", str "-jar", str "/jars/" ++ junitStandaloneJar, str "-cp", str ".",
            str "--scan-classpath=.", str "--reports-dir=reports",
            str "--config=junit.platform.output.capture.stderr=true",
            str "--config=junit.platform.output.capture.stdout=true"]
        let outLogFile := env.Join [absRunDir, str "junit.out.log"]
        match env.Create outLogFile fs with
        | .error _ =>
          (fs, .error (internalErrorResult execution
            (str "Could not create JUnit log file in run directory")))
        | .ok fs =>
          let errLogFile := env.Join [absRunDir, str "junit.err.log"]
          match env.Create errLogFile fs with
          | .error _ =>
            (fs, .error (internalErrorResult execution
              (str "Could not create JUnit error log file in run directory")))
          | .ok fs =>
            (fs, .ok { Args := arguments, Dir := absRunDir, Stdin := none, Stdout := outLogFile,
                       Stderr := errLogFile, Timeout := timeoutDuration timeout })

/-- The start of `executeXUnit` of `lang_fsharp.go`, up to `cmd.Run`. -/
def executeXUnit.start (env : SandboxEnv) (execution : Execution) (fs : FileSystem) :
    FileSystem × Except TestResult Cmd :=
  let testid := execution.ID
  match env.Abs execution.RunDir with
  | .error _ =>
    (fs, .error (internalErrorResult execution (str "Could not make path of run dir absolute")))
  | .ok absRunDir =>
    let timeout := if execution.Config.Timeout = 0 then 30 else execution.Config.Timeout
    match dockerArguments env execution.RunDir testid with
    | .error err =>
      (fs, .error (internalErrorResult execution (str "Could not get docker arguments: " ++ err)))
    | .ok arguments =>
      let arguments := arguments ++ [env.docker_image_fsharp]
      let arguments := arguments ++
        [str "dotnet", str "test", str "--blame", str "-p:ParallelizeTestCollections=false",
          str "--logger", str "trx;LogFileName=Results.trx"]
      let outLogFile := env.Join [absRunDir, str "xunit.out.log"]
      match env.Create outLogFile fs with
      | .error _ =>
        (fs, .error (internalErrorResult execution
          (str "Could not create XUnit log file in run directory")))
      | .ok fs =>
        let errLogFile := env.Join [absRunDir, str "xunit.err.log"]
        match env.Create errLogFile fs with
        | .error _ =>
          (fs, .error (internalErrorResult execution
            (str "Could not create XUnit error log file in run directory")))
        | .ok fs =>
          (fs, .ok { Args := arguments, Dir := absRunDir, Stdin := none, Stdout := outLogFile,
                     Stderr := errLogFile, Timeout := timeoutDuration timeout })

/-- The start of `executePytest` of `lang_python.go`, up to `cmd.Run`. -/
def executePytest.start (env : SandboxEnv) (execution : Execution) (fs : FileSystem) :
    FileSystem × Except TestResult Cmd :=
  let testid := execution.ID
  match env.Abs execution.RunDir with
  | .error _ =>
    (fs, .error (internalErrorResult execution (str "Could not make path of run dir absolute")))
  | .ok absRunDir =>
    let timeout := if execution.Config.Timeout = 0 then 10 else execution.Config.Timeout
    match dockerArguments env execution.RunDir testid with
    | .error err =>
      (fs, .error (internalErrorResult execution (str "Could not get docker arguments: " ++ err)))
    | .ok arguments =>
      let arguments := arguments ++ [env.docker_image_python]
      let arguments := arguments ++
        [str "python3", str "-m", str "pytest", str "-o", str "junit_family=xunit1", str "-v",
          str "--junitxml=./test-result.xml", str "--doctest-glob='*.md'",
          str "--doctest-modules"]
      let outLogFile := env.Join [absRunDir, str "junit.out.log"]
      match env.Create outLogFile fs with
      | .error _ =>
        (fs, .error (internalErrorResult execution
          (str "Could not create JUnit log file in run directory")))
      | .ok fs =>
        let errLogFile := env.Join [absRunDir, str "junit.err.log"]
        match env.Create errLogFile fs with
        | .error _ =>
          (fs, .error (internalErrorResult execution
            (str "Could not create JUnit error log file in run directory")))
        | .ok fs =>
          (fs, .ok { Args := arguments, Dir := absRunDir, Stdin := none, Stdout := outLogFile,
                     Stderr := errLogFile, Timeout := timeoutDuration timeout })

/-- The start of `executeMatlabTest` of `lang_matlab.go`, up to `cmd.Run`. -/
def executeMatlabTest.start (env : SandboxEnv) (execution : Execution) (fs : FileSystem) :
    FileSystem × Except TestResult Cmd :=
  let testid := execution.ID
  match env.Abs execution.RunDir with
  | .error _ =>
    (fs, .error (internalErrorResult execution (str "Could not make path of run dir absolute")))
  | .ok absRunDir =>
    let timeout := if execution.Config.Timeout = 0 then 10 else execution.Config.Timeout
    match dockerArguments env execution.RunDir testid with
    | .error err =>
      (fs, .error (internalErrorResult execution (str "Could not get docker arguments: " ++ err)))
    | .ok arguments =>
      let arguments := arguments ++ [env.docker_image_matlab]
      let arguments := arguments ++
        [str "/usr/local/MATLAB/R2018b/bin/matlab", str "-nodisplay", str "-sd", str "/code",
          str "-r", str "disp(" ++ execution.Config.MainIs ++ str ");exit"]
      let outLogFile := env.Join [absRunDir, str "matlab.out.log"]
      match env.Create outLogFile fs with
      | .error _ =>
        (fs, .error (internalErrorResult execution
          (str "Could not create JUnit log file in run directory")))
      | .ok fs =>
        let errLogFile := env.Join [absRunDir, str "matlab.err.log"]
        match env.Create errLogFile fs with
        | .error _ =>
          (fs, .error (internalErrorResult execution
            (str "Could not create JUnit error log file in run directory")))
        | .ok fs =>
          (fs, .ok { Args := arguments, Dir := absRunDir, Stdin := none, Stdout := outLogFile,
                     Stderr := errLogFile, Timeout := timeoutDuration timeout })

/-- Library function `strings.Index`. -/
def strings.Index (s substr : Bytes) : Int :=
  match (List.range (s.length + 1)).find? (fun i => substr.isPrefixOf (s.drop i)) with
  | some i => i
  | none => -1

/-- Library function `strings.LastIndex`. -/
def strings.LastIndex (s substr : Bytes) : Int :=
  match (List.range (s.length + 1)).reverse.find? (fun i => substr.isPrefixOf (s.drop i)) with
  | some i => i
  | none => -1

/-- Library function `strings.Contains`. -/
def strings.Contains (s substr : Bytes) : Bool := decide (strings.Index s substr ≥ 0)

/-- Function `extractMessage` of `lang_matlab.go`; the slice expression
`s[first+len(sep) : last]` panics when its low bound is above its high bound. -/
def extractMessage (s : Bytes) : Run Bytes :=
  let sep := str "###############"
  let first := strings.Index s sep
  let last := strings.LastIndex s sep
  if first ≥ 0 ∧ last > first then
    if first + sep.length > last then
      .panic (str "runtime error: slice bounds out of range [" ++ Itoa (first + sep.length) ++
        str ":" ++ Itoa last ++ str "]")
    else .done ((s.take last.toNat).drop (first + sep.length).toNat)
  else .done s

/-- The conversion `string(i)` of an integer `i`: the UTF-8 encoding of the code
point `i`, and of U+FFFD when `i` is not a code point. -/
def runeToString (i : Int) : Bytes :=
  let r := i.toNat
  if 0 ≤ i ∧ i < 128 then [UInt8.ofNat r]
  else if 128 ≤ i ∧ i < 2048 then [UInt8.ofNat (192 + r / 64), UInt8.ofNat (128 + r % 64)]
  else if (2048 ≤ i ∧ i < 55296) ∨ (57344 ≤ i ∧ i < 65536) then
    [UInt8.ofNat (224 + r / 4096), UInt8.ofNat (128 + r / 64 % 64), UInt8.ofNat (128 + r % 64)]
  else if 65536 ≤ i ∧ i < 1114112 then
    [UInt8.ofNat (240 + r / 262144), UInt8.ofNat (128 + r / 4096 % 64),
      UInt8.ofNat (128 + r / 64 % 64), UInt8.ofNat (128 + r % 64)]
  else [239, 191, 189]

/-- Function `executeMatlabTest` of `lang_matlab.go`, started on the file system
`fs`; the index expression `lines[len(lines)-3]` panics when there are fewer
than three lines. -/
def executeMatlabTest (env : SandboxEnv) (execution : Execution) (fs : FileSystem) :
    FileSystem × Run TestResult :=
  match executeMatlabTest.start env execution fs with
  | (fs, .error result) => (fs, .done result)
  | (fs, .ok cmd) =>
    let ran := env.Run cmd fs
    let fs := ran.1
    let outLogFile := cmd.Stdout
    let errLogFile := cmd.Stderr
    match ran.2 with
    | some (.ExitError ExitStatus _) =>
      let errorMsg :=
        if ExitStatus = -1 then str "Timeout"
        else str "Failed with exit code " ++ runeToString ExitStatus
      let message := appendOutput fs outLogFile errLogFile errorMsg
      (fs, .done
        { ID := execution.ID, Compiled := true, CompileError := [], InternalError := [],
          Tests := [{ Name := str "Testf" ++ [195, 164] ++ str "lle", Success := false,
                      Error := message, Expected := [], Output := [] }],
          TestsExecuted := 1, TestsFailed := 1, MissingFiles := [], IllegalFiles := [] })
    | _ =>
      let stderr :=
        match readFile fs errLogFile with
        | .ok content => content
        | .error _ => []
      let message := appendOutput fs outLogFile errLogFile []
      let testsExecuted := 1
      let lines := strings.Split message 10
      if lines.length < 3 then
        (fs, .panic (str "runtime error: index out of range [" ++
          Itoa ((lines.length : Int) - 3) ++ str "]"))
      else
        let testsFailed : Int :=
          if strings.Contains (lines.getD (lines.length - 3) []) (str "1") then 0 else 1
        let testsFailed := if stderr.length > 0 then 1 else testsFailed
        match extractMessage message with
        | .panic value => (fs, .panic value)
        | .done extracted =>
          (fs, .done
            { ID := execution.ID, Compiled := true, CompileError := [], InternalError := [],
              Tests := [{ Name := execution.Config.MainIs, Success := decide (testsFailed = 0),
                          Error := extracted, Expected := [], Output := [] }],
              TestsExecuted := testsExecuted, TestsFailed := testsFailed, MissingFiles := [],
              IllegalFiles := [] })

/-- A node of an XML document as the program reads it through `xmlquery`: the
name of the element, its attributes, the value of `InnerText()`, and its child
elements. -/
inductive Node where
  | mk (Data : Bytes) (Attr : List (Bytes × Bytes)) (InnerText : Bytes) (children : List Node)

/-- Field `Data` of an element: its name. -/
def Node.Data : Node → Bytes
  | .mk Data _ _ _ => Data

/-- Library method `(*Node).SelectAttr`: the value of the first attribute of the
name, or the empty string. -/
def Node.SelectAttr : Node → Bytes → Bytes
  | .mk _ Attr _ _, name =>
    match Attr.find? (fun attr => attr.1 == name) with
    | some attr => attr.2
    | none => []

/-- Library method `(*Node).InnerText`. -/
def Node.InnerText : Node → Bytes
  | .mk _ _ InnerText _ => InnerText

/-- The child elements of a node. -/
def Node.children : Node → List Node
  | .mk _ _ _ children => children

mutual
/-- The elements below a node, in document order. -/
def Node.descendants : Node → List Node
  | .mk _ _ _ children => Node.descendantsOf children
/-- The elements of a list of siblings and below them, in document order. -/
def Node.descendantsOf : List Node → List Node
  | [] => []
  | n :: rest => n :: (n.descendants ++ Node.descendantsOf rest)
end

/-- Library function `xmlquery.Find` for the two shapes of expression the
program evaluates at a node: `//name` selects the elements of that name below
the node, in document order, and `/name` its child elements of that name. -/
def xmlquery.Find (top : Node) (expr : Bytes) : List Node :=
  if strings.HasPrefix expr (str "//") then
    top.descendants.filter (fun n => n.Data == expr.drop 2)
  else if strings.HasPrefix expr (str "/") then
    top.children.filter (fun n => n.Data == expr.drop 1)
  else []

/-- Function `parseTestResults` of `lang_java.go`: the values of `*failureCount`
and `*tests` after the call. -/
def parseTestResults (doc : Node) (failureCount : Int) (tests : List Test) : Int × List Test :=
  (xmlquery.Find doc (str "//testcase")).foldl (fun (state : Int × List Test) n =>
    let failures := xmlquery.Find n (str "/failure")
    let errors := xmlquery.Find n (str "/error")
    let test : Test :=
      { Name := n.SelectAttr (str "classname") ++ str "." ++ n.SelectAttr (str "name"),
        Success := failures.length == 0 && errors.length == 0,
        Error := [], Expected := [], Output := [] }
    if !test.Success then
      let failureCount := state.1 + 1
      let test := { test with Error := [] }
      let test := errors.foldl (fun (test : Test) o =>
        { test with Error := test.Error ++ o.InnerText }) test
      let test := failures.foldl (fun (test : Test) o =>
        { test with Error := test.Error ++ o.InnerText }) test
      let first := true
      let looped := (xmlquery.Find n (str "/system-out")).foldl
        (fun (st : Test × Bool) o =>
          (if !st.2 then { st.1 with Error := st.1.Error ++ o.InnerText } else st.1, false))
        (test, first)
      let test := looped.1
      let test := (xmlquery.Find n (str "/system-err")).foldl (fun (test : Test) o =>
        { test with Error := test.Error ++ o.InnerText }) test
      (failureCount, state.2 ++ [test])
    else (state.1, state.2 ++ [test])) (failureCount, tests)
/-- A sample environment of the sandboxed runs: every path is resolved below
`/srv/rte`, a path that can be read is a regular file, every file can be
created and closed, and the run ends as `outcome` says after leaving
`captured` in the file behind `Stdout`. -/
def sampleSandboxEnv (outcome : Option RunError) (captured : Bytes) : SandboxEnv where
  Join elems := (elems.intersperse (str "/")).flatten
  Abs path := .ok (str "/srv/rte/" ++ path)
  Rel := sampleRel
  IsAbs path := path.head? == some 47
  Base path := path
  baseDir := str "/srv/rte"
  docker_image_java := str "rte-java"
  docker_image_c := str "rte-c"
  docker_image_python := str "rte-python"
  docker_image_fsharp := str "rte-fsharp"
  docker_image_matlab := str "rte-matlab"
  Stat path fs :=
    match fs path with
    | .ok _ => .ok false
    | .error err => .error err
  Create path fs := .ok (fun p => if p = path then .ok [] else fs p)
  Close _ _ := none
  ReadDir _ _ := .ok []
  Run cmd fs := (fun p => if p = cmd.Stdout then .ok captured else fs p, outcome)

/-- The sample job with the C compiler. -/
def sampleCExecution : Execution :=
  { sampleExecution with Config := { sampleExecution.Config with Compiler := CCompiler } }

/-- The files of the sample test before a run of case `t1` whose parameter file
holds `parameters`. -/
def paramFiles (parameters : Bytes) : FileSystem := fun path =>
  if path = str "tests/t/t1.out.txt" then .ok (str "a")
  else if path = str "tests/t/t1.param.txt" then .ok parameters
  else .error (str "no such file or directory")

/-- The sample environment in which every run is killed at the deadline and
leaves no output. -/
def killedSandboxEnv : SandboxEnv :=
  sampleSandboxEnv (some (.ExitError (-1) (str "signal: killed"))) []

/-- The deadline of a command for a configuration, where `unset` is the number
of seconds of a runner for the `Timeout` 0: the duration is `unset` seconds
when `Timeout` is 0, and `Timeout` seconds when it is positive and at most
9223372036, the largest number of seconds whose nanoseconds fit an `int64`. -/
def DeadlineIs (cmd : Cmd) (config : TestConfig) (unset : Int) : Prop :=
  (config.Timeout = 0 → cmd.Timeout = unset * 1000000000) ∧
    (0 < config.Timeout → config.Timeout ≤ 9223372036 →
      cmd.Timeout = config.Timeout * 1000000000)

/-- The sample job with a `Timeout` of 9223372037 seconds. -/
def sampleLongTimeout : Execution :=
  { sampleExecution with Config := { sampleExecution.Config with Timeout := 9223372037 } }

/-! ## compiler.go: the copy of resources and templates -/

/-- What is at a path of the disk: a regular file with its content, or a
directory with its entries by name. -/
inductive Tree where
  | file (content : Bytes)
  | dir (entries : List (Bytes × Tree))

/-- The entry `name` of what is at a path; there is none when nothing is at the
path, when a regular file is there, and when the directory has no such entry. -/
def Tree.child : Option Tree → Bytes → Option Tree
  | some (.dir entries), name => entries.lookup name
  | _, _ => none

/-- What is at a relative path, given by its elements. -/
def Tree.get : Option Tree → List Bytes → Option Tree
  | t, [] => t
  | t, name :: path => Tree.get (Tree.child t name) path

/-- The directory after its entry `name` is written.  Below a regular file
nothing can be written (`ENOTDIR`); the program ignores or only logs the
failure. -/
def Tree.put : Tree → Bytes → Tree → Tree
  | .dir entries, name, t => .dir ((name, t) :: entries.filter (fun e => e.1 != name))
  | .file content, _, _ => .file content

mutual
/-- Function `copyFiles` of `compiler.go` for a `source` that exists: what is at
`destination` after the call.  A directory is created where nothing is, a
regular file is created or truncated and written by `copyFile`, and
`os.Create` fails on a directory (`EISDIR`), which is logged.  Reads and writes
that the shape of the two trees allows are taken to succeed. -/
def copyFiles.tree (destination : Option Tree) (source : Tree) (overwriteUserFiles : Bool) :
    Tree :=
  match source with
  | .dir files =>
    let destination :=
      match destination with
      | none => Tree.dir []
      | some existing => existing
    copyFiles.each destination files overwriteUserFiles
  | .file content =>
    match destination with
    | none => .file content
    | some (.file old) => if !overwriteUserFiles then .file old else .file content
    | some (.dir entries) => .dir entries
/-- The loop `for _, f := range files` of `copyFiles`. -/
def copyFiles.each (destination : Tree) (files : List (Bytes × Tree))
    (overwriteUserFiles : Bool) : Tree :=
  match files with
  | [] => destination
  | (name, f) :: files =>
    copyFiles.each
      (destination.put name
        (copyFiles.tree (Tree.child (some destination) name) f overwriteUserFiles))
      files overwriteUserFiles
end

/-- Function `copyFiles` of `compiler.go`: what is at `destination` after the
call; nothing is done when `os.Stat(source)` fails. -/
def copyFiles (destination source : Option Tree) (overwriteUserFiles : Bool) : Option Tree :=
  match source with
  | none => destination
  | some source => some (copyFiles.tree destination source overwriteUserFiles)

/-- The disk as `copyResources` reads and writes it: what is at the absolute
path of the run directory and what is at the test directory, two places of
which neither lies in the other. -/
structure Disk where
  run : Option Tree
  test : Option Tree

/-- Global `resourcedir` of `rte.go`. -/
def resourcedir : Bytes := str "resources"

/-- Global `templateDir` of `rte.go`. -/
def templateDir : Bytes := str "template"

/-- Function `copyFilesFromFolder` of `compiler.go`: the disk after the call and
the error returned. -/
def copyFilesFromFolder (env : Filepath) (execution : Execution) (folderName : Bytes)
    (overwriteUserFiles : Bool) (disk : Disk) : Disk × Option Bytes :=
  match env.Abs execution.RunDir with
  | .error err => (disk, some err)
  | .ok _ =>
    match env.Abs (env.Join [execution.TestDir, folderName]) with
    | .error err => (disk, some err)
    | .ok _ =>
      ({ disk with
          run := copyFiles disk.run (Tree.child disk.test folderName) overwriteUserFiles },
        none)

/-- Function `copyResources` of `compiler.go`. -/
def copyResources (env : Filepath) (execution : Execution) (disk : Disk) : Disk × Option Bytes :=
  match copyFilesFromFolder env execution resourcedir true disk with
  | (disk, some err) => (disk, some err)
  | (disk, none) =>
    match copyFilesFromFolder env execution templateDir false disk with
    | (disk, some err) => (disk, some err)
    | (disk, none) => (disk, none)

mutual
/-- In every directory of the tree no two entries have the same name. -/
def Tree.wellFormed : Tree → Bool
  | .file _ => true
  | .dir entries => decide (entries.map Prod.fst).Nodup && Tree.wellFormedAll entries
/-- Every tree of the entries is well formed. -/
def Tree.wellFormedAll : List (Bytes × Tree) → Bool
  | [] => true
  | (_, t) :: entries => t.wellFormed && Tree.wellFormedAll entries
end

/-- A regular file can be created or overwritten at the path: none of the
directories of the path is a regular file, and no directory is at the path. -/
def Tree.writable : Option Tree → List Bytes → Bool
  | none, _ => true
  | some (.file _), [] => true
  | some (.file _), _ :: _ => false
  | some (.dir _), [] => false
  | some (.dir entries), name :: path => Tree.writable (entries.lookup name) path

/-- A sample disk: the user uploaded a regular file `lib` and a file
`Main.java`, and the test has the resources `lib/helper.txt` and `Main.java`
and the template `Main.java` and `Util.java`. -/
def sampleDisk : Disk where
  run := some (.dir [(str "lib", .file (str "user")), (str "Main.java", .file (str "user"))])
  test := some (.dir
    [(str "resources", .dir [(str "lib", .dir [(str "helper.txt", .file (str "resource"))]),
      (str "Main.java", .file (str "resource"))]),
     (str "template", .dir [(str "Main.java", .file (str "template")),
      (str "Util.java", .file (str "template"))])])
/-- The package `path/filepath` of the sample environment with a working
directory that cannot be read, so that `filepath.Abs` fails. -/
def noWorkingDirectory : Filepath :=
  { sampleIOEnv.toFilepath with Abs := fun _ => .error (str "getwd: no such file or directory") }

/-! ## metrics.go, metric_cloc.go: the metric stage -/

/-- What the metric stage takes from outside the program: the package
`path/filepath`, the sandboxed run of cloc (function `runCloc` of
`metric_cloc.go`, which leaves a file system and returns its error), and the
value that `parseClocResult` returns. -/
structure MetricEnv extends Filepath where
  runCloc : Int → Bytes → Bytes → Int → Bytes → Bytes → FileSystem → FileSystem × Option Bytes
  parseClocResult : Bytes → TestConfig → FileSystem → List ClocResult

/-- Function `clocMetric` of `metric_cloc.go`; the index expression
`testConfig.AllowedFiles[0]` panics on an empty list. -/
def clocMetric (env : MetricEnv) (timeout : Int) (runid absRunDir : Bytes) (maxMem : Int)
    (runDir _test : Bytes) (testConfig : TestConfig) (fs : FileSystem) : Run (List ClocResult) :=
  match testConfig.AllowedFiles with
  | [] => .panic (str "runtime error: index out of range [0] with length 0")
  | testFile :: _ =>
    match env.runCloc timeout runid absRunDir maxMem runDir testFile fs with
    | (_, some _) => .done []
    | (fs, none) => .done (env.parseClocResult absRunDir testConfig fs)

/-- How a call ends for the program: it returns a value; it panics in the
goroutine of its caller, where a deferred `recover` of the caller takes effect;
or a goroutine that it started panics, which no `recover` of another goroutine
stops, so that the program exits. -/
inductive Outcome (α : Type) where
  | done (value : α)
  | panic (value : Bytes)
  | exit (value : Bytes)

/-- Function `metric` of `metrics.go`: `clocMetric` runs in a goroutine of its
own, without a deferred `recover`, and its result is received from a channel. -/
def metric (env : MetricEnv) (execution : Execution) (fs : FileSystem) :
    Outcome (List ClocResult) :=
  let runid := execution.ID ++ str "-analysis"
  let runDir := execution.RunDir
  let timeout :=
    if execution.Config.AnalysisTimeout = 0 then 20 else execution.Config.AnalysisTimeout
  let maxMem :=
    if execution.Config.AnalysisMaxMem = 0 then 100 else execution.Config.AnalysisMaxMem
  match env.Abs runDir with
  | .error _ => .done []
  | .ok absRunDir =>
    match clocMetric env timeout (runid ++ str "-cloc") absRunDir maxMem runDir execution.Test
        execution.Config fs with
    | .panic value => .exit value
    | .done v => .done v

/-- What a stage worker has done when its queue is empty or the program has
exited: the values it sent, and whether the program exited. -/
structure Worker where
  events : List PipelineEvent
  exited : Bool

/-- Function `metricService` of `metrics.go` on the jobs that `metricChannel`
delivers, each turn being `handleMetricRequest` with its deferred `recover`. -/
def metricService (env : MetricEnv) (fs : FileSystem) : List Job → Worker
  | [] => { events := [], exited := false }
  | execution :: queue =>
    match metric env execution.toExecution fs with
    | .exit _ => { events := [], exited := true }
    | .panic _ => metricService env fs queue
    | .done v =>
      let later := metricService env fs queue
      { later with events := .sendCloc execution.ClocChan v :: later.events }

/-- Function `testService` of `tester.go` on the jobs that `testChannel`
delivers, each turn being `handleTestRequest`. -/
def testService (env : PipelineEnv) (fs : FileSystem) : List Job → List PipelineEvent
  | [] => []
  | execution :: queue =>
    let turn := handleTestRequest env execution fs
    turn.2 ++ testService env turn.1 queue

/-- A sample environment of the metric stage: cloc runs without error and one
record is parsed. -/
def sampleMetricEnv : MetricEnv where
  Join elems := (elems.intersperse (str "/")).flatten
  Abs path := .ok (str "/srv/rte/" ++ path)
  Rel := sampleRel
  IsAbs path := path.head? == some 47
  runCloc _ _ _ _ _ _ fs := (fs, none)
  parseClocResult _ _ _ := [{ Name := str "Main.java", Comments := str "1", LOC := str "10" }]

/-- The job that the coordinator creates for the sample test when its
configuration has no `AllowedFiles` and no `RequiredFiles`. -/
def openPolicyJob : Job :=
  { sampleExecution with ResChan := some 0, AnalysisChan := none, ClocChan := some 1 }

/-- The job that the coordinator creates for the sample test with the sample
policy, whose `AllowedFiles` has one entry. -/
def samplePolicyJob : Job :=
  { sampleExecution with
    ID := str "43", RunDir := str "runs/43", Config := samplePolicy,
    ResChan := some 0, AnalysisChan := none, ClocChan := some 1 }

/-- The sample environment of the coordinator for a test whose configuration
has no `AllowedFiles` and no `RequiredFiles`, with stages that never reply. -/
def openPolicyEnv : CoordinatorEnv :=
  { sampleCoordinatorEnv with
    openConfig := fun path =>
      if path = str "tests/t/config.json" then .ok (.ok sampleExecution.Config)
      else .error (str "no such file or directory")
    replies := fun _ => { FileWarnings := none, TestResult := none, ClocResults := none } }

/-- The sample stages with the Matlab run of `lang_matlab.go` over a sandbox
whose run exits normally and leaves no output. -/
def silentMatlabEnv : PipelineEnv :=
  { samplePipelineEnv with
    executeMatlabTest := fun execution fs =>
      executeMatlabTest (sampleSandboxEnv none []) execution fs }

/-- A content of exactly `maxFileSize` bytes, the most that the bounded writer
leaves of an output. -/
def fullOutput : Bytes := List.replicate 1048576 97

/-- What `readFile` returns for a content of more than `maxFileSize` bytes: its
first quarter MiB, the marker and its last quarter MiB. -/
def elided (res : Bytes) : Bytes :=
  res.take (maxFileSize / 4) ++
    ((str "\n... [Output too long, skipping " ++
        Itoa ((res.length : Int) - ((maxFileSize / 2 : Nat) : Int)) ++
        str " bytes] ... \n") ++
      res.drop (res.length - maxFileSize / 4))

/-! # Properties -/

/-! ## The bounded-output writer -/

theorem wrapInt64_of_range (x : Int) (h₁ : -9223372036854775808 ≤ x)
    (h₂ : x < 9223372036854775808) : wrapInt64 x = x := by
  unfold wrapInt64
  omega

theorem totalLength_append (l₁ l₂ : List Bytes) :
    totalLength (l₁ ++ l₂) = totalLength l₁ + totalLength l₂ := by
  simp [totalLength]

/-- C1: whatever budget is left (positive, zero or negative), a write through a
`LimitedWriter` over a sink that accepts every byte handed to it returns
`(len(bytes), nil)`. -/
theorem LimitedWriter_Write_reports_full {σ : Type} (w : Writer σ) (hw : Accepting w)
    (state : LimitedWriter σ) (bytes : Bytes) :
    (LimitedWriter.Write w state bytes).written = (bytes.length : Int) ∧
      (LimitedWriter.Write w state bytes).err = none := by
  unfold LimitedWriter.Write
  by_cases hs : 0 < (if state.N < (bytes.length : Int) then state.N else (bytes.length : Int))
  · obtain ⟨hwr, herr⟩ := hw state.W
      (bytes.take (if state.N < (bytes.length : Int) then state.N else (bytes.length : Int)).toNat)
    have hpos : 0 < (w.Write state.W
        (bytes.take (if state.N < (bytes.length : Int) then state.N
          else (bytes.length : Int)).toNat)).written := by
      rw [hwr]
      split_ifs at hs ⊢ with hlt
      · simp only [List.length_take]
        omega
      · simp only [List.length_take]
        omega
    simp only [hs, if_true, hpos, herr, and_self]
  · simp only [hs, if_false, and_self]

theorem LimitedWriter_Write_reports_full_witness :
    Accepting fileSink ∧
      (LimitedWriter.Write fileSink { W := [], N := -3 } (str "abc")).written = 3 ∧
      (LimitedWriter.Write fileSink { W := [], N := -3 } (str "abc")).err = none :=
  ⟨fun _ _ => ⟨rfl, rfl⟩,
    LimitedWriter_Write_reports_full fileSink (fun _ _ => ⟨rfl, rfl⟩) { W := [], N := -3 } (str "abc")⟩

theorem Write_logged_budget {σ : Type} (w : Writer σ) (hw : Progressing w) (N₀ : Int)
    (st : LimitedWriter (σ × List Bytes)) (b : Bytes)
    (hb : (b.length : Int) < 9223372036854775808)
    (hlo : -9223372036854775808 ≤ st.N) (hhi : st.N < 9223372036854775808)
    (hinv : (totalLength st.W.2 : Int) + max st.N 0 ≤ N₀) :
    -9223372036854775808 ≤ (LimitedWriter.Write w.logged st b).state.N ∧
      (LimitedWriter.Write w.logged st b).state.N < 9223372036854775808 ∧
      (totalLength (LimitedWriter.Write w.logged st b).state.W.2 : Int) +
        max (LimitedWriter.Write w.logged st b).state.N 0 ≤ N₀ := by
  unfold LimitedWriter.Write
  by_cases hs : 0 < (if st.N < (b.length : Int) then st.N else (b.length : Int))
  · have hne : b.take (if st.N < (b.length : Int) then st.N else (b.length : Int)).toNat ≠ [] := by
      intro h
      have hl := congrArg List.length h
      simp only [List.length_take, List.length_nil] at hl
      split_ifs at hs hl <;> omega
    have hpos := hw st.W.1 _ hne
    simp only [hs, if_true, Writer.logged, hpos, totalLength_append]
    have hlen : totalLength
        [b.take (if st.N < (b.length : Int) then st.N else (b.length : Int)).toNat] =
        min (if st.N < (b.length : Int) then st.N else (b.length : Int)).toNat b.length := by
      simp [totalLength]
    rw [hlen]
    have hN : 0 < st.N := by split_ifs at hs <;> omega
    rw [wrapInt64_of_range _ (by omega) (by omega)]
    refine ⟨by omega, by omega, ?_⟩
    split_ifs at hs ⊢ with hlt
    · have : max (st.N - (b.length : Int)) 0 = 0 := max_eq_right (by omega)
      have h2 : max st.N 0 = st.N := max_eq_left (by omega)
      rw [this]; rw [h2] at hinv
      push_cast
      omega
    · have : max (st.N - (b.length : Int)) 0 = st.N - (b.length : Int) := max_eq_left (by omega)
      have h2 : max st.N 0 = st.N := max_eq_left (by omega)
      rw [this]; rw [h2] at hinv
      push_cast
      omega
  · simp only [hs, if_false]
    exact ⟨hlo, hhi, hinv⟩

theorem writeAll_logged_budget {σ : Type} (w : Writer σ) (hw : Progressing w) (N₀ : Int)
    (chunks : List Bytes) :
    ∀ st : LimitedWriter (σ × List Bytes),
      (∀ b ∈ chunks, (b.length : Int) < 9223372036854775808) →
      -9223372036854775808 ≤ st.N → st.N < 9223372036854775808 →
      (totalLength st.W.2 : Int) + max st.N 0 ≤ N₀ →
      (totalLength (writeAll w.logged st chunks).W.2 : Int) ≤ N₀ := by
  induction chunks with
  | nil =>
    intro st _ _ _ hinv
    have := le_max_right st.N 0
    simp only [writeAll]
    omega
  | cons b bs ih =>
    intro st hbs hlo hhi hinv
    obtain ⟨h₁, h₂, h₃⟩ := Write_logged_budget w hw N₀ st b
      (hbs b (List.mem_cons_self _ _)) hlo hhi hinv
    exact ih _ (fun c hc => hbs c (List.mem_cons_of_mem _ hc)) h₁ h₂ h₃

theorem Accepting.progressing {σ : Type} {w : Writer σ} (hw : Accepting w) : Progressing w := by
  intro s p hp
  rw [(hw s p).1]
  cases p with
  | nil => exact absurd rfl hp
  | cons a l => simp only [List.length_cons]; omega

/-- C2, as stated, fails: over a sink whose writes fail without consuming a
byte the budget is never charged, so two writes of three bytes hand six bytes
to the sink of a `LimitWriter` with budget five. -/
theorem LimitedWriter_handed_exceeds_budget :
    totalLength (writeAll closedSink.logged (LimitWriter ((), []) 5)
        [str "abc", str "abc"]).W.2 = 6 ∧
      ¬ ((totalLength (writeAll closedSink.logged (LimitWriter ((), []) 5)
        [str "abc", str "abc"]).W.2 : Int) ≤ 5) := by
  decide

/-- C2, amended: for every budget `0 ≤ N` (an `int64`), every sink that reports
progress on each non-empty slice (in particular every accepting sink) and every
finite sequence of `Write` calls on `LimitWriter(w, N)`, the slices handed to
the sink hold at most `N` bytes in total. -/
theorem LimitedWriter_handed_le_budget {σ : Type} (w : Writer σ) (hw : Progressing w)
    (s : σ) (N : Int) (hN : 0 ≤ N) (hN64 : N < 9223372036854775808) (chunks : List Bytes)
    (hchunks : ∀ b ∈ chunks, (b.length : Int) < 9223372036854775808) :
    (totalLength (writeAll w.logged (LimitWriter (s, []) N) chunks).W.2 : Int) ≤ N := by
  apply writeAll_logged_budget w hw N chunks (LimitWriter (s, []) N) hchunks
  · simp only [LimitWriter]; omega
  · simpa only [LimitWriter] using hN64
  · simp only [LimitWriter, totalLength, List.map_nil, List.sum_nil, Nat.cast_zero, zero_add]
    exact le_of_eq (max_eq_left hN)

theorem LimitedWriter_handed_le_budget_witness :
    Progressing fileSink ∧
      (totalLength (writeAll fileSink.logged (LimitWriter ([], []) 5)
        [str "abc", str "defg", str "h"]).W.2 : Int) ≤ 5 :=
  ⟨Accepting.progressing (fun _ _ => ⟨rfl, rfl⟩),
    LimitedWriter_handed_le_budget fileSink (Accepting.progressing (fun _ _ => ⟨rfl, rfl⟩)) [] 5
      (by decide) (by decide) [str "abc", str "defg", str "h"] (by decide)⟩

theorem Write_logged_flatten {σ : Type} (w : Writer σ) (hw : Accepting w)
    (st : LimitedWriter (σ × List Bytes)) (b : Bytes) (rest : Bytes)
    (hb : (b.length : Int) < 9223372036854775808)
    (hlo : -9223372036854775808 ≤ st.N) (hhi : st.N < 9223372036854775808) :
    -9223372036854775808 ≤ (LimitedWriter.Write w.logged st b).state.N ∧
      (LimitedWriter.Write w.logged st b).state.N < 9223372036854775808 ∧
      (LimitedWriter.Write w.logged st b).state.W.2.flatten ++
          rest.take (LimitedWriter.Write w.logged st b).state.N.toNat =
        st.W.2.flatten ++ (b ++ rest).take st.N.toNat := by
  unfold LimitedWriter.Write
  by_cases hs : 0 < (if st.N < (b.length : Int) then st.N else (b.length : Int))
  · have hN : 0 < st.N := by split_ifs at hs <;> omega
    have hwr := (hw st.W.1
      (b.take (if st.N < (b.length : Int) then st.N else (b.length : Int)).toNat)).1
    have hpos : 0 < (w.Write st.W.1
        (b.take (if st.N < (b.length : Int) then st.N else (b.length : Int)).toNat)).written := by
      rw [hwr]
      simp only [List.length_take]
      split_ifs at hs ⊢ <;> omega
    simp only [hs, if_true, Writer.logged, hpos, List.flatten_append, List.flatten_cons,
      List.flatten_nil, List.append_nil, List.append_assoc]
    rw [wrapInt64_of_range _ (by omega) (by omega)]
    refine ⟨by omega, by omega, ?_⟩
    congr 1
    rw [List.take_append_eq_append_take]
    split_ifs at hs ⊢ with hlt
    · have h0 : (st.N - (b.length : Int)).toNat = 0 := by omega
      have h1 : st.N.toNat - b.length = 0 := by omega
      rw [h0, h1]
    · have h0 : (st.N - (b.length : Int)).toNat = st.N.toNat - b.length := by omega
      have h1 : b.take st.N.toNat = b := List.take_of_length_le (by omega)
      have h2 : b.take ((b.length : Int)).toNat = b := List.take_of_length_le (by omega)
      rw [h0, h1, h2]
  · simp only [hs, if_false]
    refine ⟨hlo, hhi, ?_⟩
    congr 1
    rw [List.take_append_eq_append_take]
    by_cases hN : st.N ≤ 0
    · have h0 : st.N.toNat = 0 := by omega
      simp [h0]
    · have hb0 : b = [] := by
        apply List.eq_nil_of_length_eq_zero
        split_ifs at hs <;> omega
      simp [hb0]

theorem writeAll_logged_flatten {σ : Type} (w : Writer σ) (hw : Accepting w)
    (chunks : List Bytes) :
    ∀ st : LimitedWriter (σ × List Bytes),
      (∀ b ∈ chunks, (b.length : Int) < 9223372036854775808) →
      -9223372036854775808 ≤ st.N → st.N < 9223372036854775808 →
      (writeAll w.logged st chunks).W.2.flatten =
        st.W.2.flatten ++ chunks.flatten.take st.N.toNat := by
  induction chunks with
  | nil => intro st _ _ _; simp [writeAll]
  | cons b bs ih =>
    intro st hbs hlo hhi
    obtain ⟨h₁, h₂, h₃⟩ := Write_logged_flatten w hw st b bs.flatten
      (hbs b (List.mem_cons_self _ _)) hlo hhi
    simp only [writeAll, List.flatten_cons]
    rw [ih _ (fun c hc => hbs c (List.mem_cons_of_mem _ hc)) h₁ h₂, h₃]

/-- C3: for every budget `0 ≤ N` (an `int64`) and every finite sequence of
slices written through `LimitWriter(w, N)` over an accepting sink, the slices
handed to the sink, concatenated in order, are exactly the first
`min(N, total length)` bytes of the concatenation of the written slices. -/
theorem LimitedWriter_sink_receives_capped_stream {σ : Type} (w : Writer σ) (hw : Accepting w)
    (s : σ) (N : Int) (hN : 0 ≤ N) (hN64 : N < 9223372036854775808) (chunks : List Bytes)
    (hchunks : ∀ b ∈ chunks, (b.length : Int) < 9223372036854775808) :
    (writeAll w.logged (LimitWriter (s, []) N) chunks).W.2.flatten =
      chunks.flatten.take (min N.toNat chunks.flatten.length) := by
  rw [writeAll_logged_flatten w hw chunks (LimitWriter (s, []) N) hchunks
    (by simp only [LimitWriter]; omega) (by simpa only [LimitWriter] using hN64)]
  simp only [LimitWriter, List.flatten_nil, List.nil_append]
  rcases le_total N.toNat chunks.flatten.length with h | h
  · rw [min_eq_left h]
  · rw [min_eq_right h, List.take_of_length_le h, List.take_of_length_le le_rfl]

theorem LimitedWriter_sink_receives_capped_stream_witness :
    Accepting fileSink ∧
      (writeAll fileSink.logged (LimitWriter ([], []) 5)
        [str "abc", str "defg", str "h"]).W.2.flatten = str "abcde" :=
  ⟨fun _ _ => ⟨rfl, rfl⟩,
    LimitedWriter_sink_receives_capped_stream fileSink (fun _ _ => ⟨rfl, rfl⟩) [] 5
      (by decide) (by decide) [str "abc", str "defg", str "h"] (by decide)⟩

/-! ## The in-process comparison -/

theorem allEndLines_iff (b : Bytes) :
    allEndLines b = true ↔ ∀ c ∈ b, c = 10 ∨ c = 13 := by
  induction b with
  | nil => simp [allEndLines]
  | cons c rest ih =>
    by_cases h10 : c = 10
    · simp [allEndLines, h10, ih]
    · by_cases h13 : c = 13
      · simp [allEndLines, h13, ih]
      · simp [allEndLines, h10, h13]

theorem range_all_getElem_iff (a b : Bytes) (n : Nat) :
    (List.range n).all (fun i => a[i]? == b[i]?) = true ↔ a.take n = b.take n := by
  simp only [List.all_eq_true, List.mem_range, beq_iff_eq]
  constructor
  · intro h
    apply List.ext_getElem?
    intro i
    simp only [List.getElem?_take]
    split_ifs with hi
    · exact h i hi
    · rfl
  · intro h i hi
    have := congrArg (fun l => l[i]?) h
    simpa only [List.getElem?_take_of_lt hi] using this

/-- What `compareFileContentExactMatch` returns once both files are read: it
passes exactly when one content is the other followed by line-end bytes only,
and otherwise fails with the expected content as `expectedResult`. -/
theorem compareFileContentExactMatch_cases (fs : FileSystem) (expectedFile outFile : Bytes)
    (expected output : Bytes) (he : readFile fs expectedFile = .ok expected)
    (ho : readFile fs outFile = .ok output) :
    ((∃ t : Bytes, (∀ c ∈ t, c = 10 ∨ c = 13) ∧
          (output = expected ++ t ∨ expected = output ++ t)) ∧
        compareFileContentExactMatch fs expectedFile outFile = ⟨[], true, none⟩) ∨
      ((¬ ∃ t : Bytes, (∀ c ∈ t, c = 10 ∨ c = 13) ∧
          (output = expected ++ t ∨ expected = output ++ t)) ∧
        compareFileContentExactMatch fs expectedFile outFile = ⟨expected, false, none⟩) := by
  unfold compareFileContentExactMatch
  simp only [he, ho]
  rcases Nat.lt_trichotomy output.length expected.length with hlt | heq | hgt
  · -- the output is shorter
    have h1 : (output.length != expected.length) = true := by simp; omega
    have h2 : decide (output.length > expected.length) = false := by simp; omega
    have h3 : decide (expected.length > output.length) = true := by simp; omega
    simp only [h1, h2, h3, if_true, Bool.false_and, Bool.true_and, Bool.false_eq_true, if_false]
    by_cases hall : allEndLines (expected.drop output.length) = true
    · simp only [hall, if_true]
      by_cases hcmp : (List.range output.length).all (fun i => output[i]? == expected[i]?) = true
      · left
        simp only [hcmp, if_true, and_true]
        refine ⟨expected.drop output.length, (allEndLines_iff _).1 hall, Or.inr ?_⟩
        rw [range_all_getElem_iff, List.take_length] at hcmp
        have h := (List.take_append_drop output.length expected).symm
        rw [← hcmp] at h
        exact h
      · right
        simp only [hcmp, if_false, and_true, Bool.false_eq_true]
        rintro ⟨t, _, ht | ht⟩
        · have := congrArg List.length ht
          simp only [List.length_append] at this
          omega
        · apply hcmp
          rw [range_all_getElem_iff, List.take_length, ht, List.take_left]
    · right
      simp only [hall, if_false, and_true, Bool.false_eq_true]
      rintro ⟨t, hEOL, ht | ht⟩
      · have := congrArg List.length ht
        simp only [List.length_append] at this
        omega
      · apply hall
        rw [allEndLines_iff]
        have : expected.drop output.length = t := by rw [ht, List.drop_left]
        rw [this]
        exact hEOL
  · -- equal lengths
    have h1 : (output.length != expected.length) = false := by simp [heq]
    simp only [h1, Bool.false_eq_true, if_false]
    by_cases hcmp : (List.range output.length).all (fun i => output[i]? == expected[i]?) = true
    · left
      simp only [hcmp, if_true, and_true]
      refine ⟨[], by simp, Or.inl ?_⟩
      rw [range_all_getElem_iff, List.take_length] at hcmp
      rw [List.append_nil, hcmp, heq, List.take_length]
    · right
      simp only [hcmp, if_false, and_true, Bool.false_eq_true]
      rintro ⟨t, _, ht | ht⟩ <;>
      · have hlen := congrArg List.length ht
        simp only [List.length_append] at hlen
        have ht0 : t = [] := List.eq_nil_of_length_eq_zero (by omega)
        apply hcmp
        rw [range_all_getElem_iff, ht, ht0, List.append_nil]
  · -- the output is longer
    have h1 : (output.length != expected.length) = true := by simp; omega
    have h2 : decide (output.length > expected.length) = true := by simp; omega
    have h3 : decide (expected.length > output.length) = false := by simp; omega
    simp only [h1, h2, h3, if_true, Bool.false_and, Bool.true_and, Bool.false_eq_true, if_false]
    by_cases hall : allEndLines (output.drop expected.length) = true
    · simp only [hall, if_true]
      by_cases hcmp : (List.range expected.length).all (fun i => output[i]? == expected[i]?) = true
      · left
        simp only [hcmp, if_true, and_true]
        refine ⟨output.drop expected.length, (allEndLines_iff _).1 hall, Or.inl ?_⟩
        rw [range_all_getElem_iff, List.take_length] at hcmp
        have h := (List.take_append_drop expected.length output).symm
        rw [hcmp] at h
        exact h
      · right
        simp only [hcmp, if_false, and_true, Bool.false_eq_true]
        rintro ⟨t, _, ht | ht⟩
        · apply hcmp
          rw [range_all_getElem_iff, List.take_length, ht, List.take_left]
        · have := congrArg List.length ht
          simp only [List.length_append] at this
          omega
    · right
      simp only [hall, if_false, and_true, Bool.false_eq_true]
      rintro ⟨t, hEOL, ht | ht⟩
      · apply hall
        rw [allEndLines_iff]
        have : output.drop expected.length = t := by rw [ht, List.drop_left]
        rw [this]
        exact hEOL
      · have := congrArg List.length ht
        simp only [List.length_append] at this
        omega

theorem dropWhile_append_of_all {α : Type} (p : α → Bool) (l r : List α)
    (h : ∀ x ∈ l, p x = true) : (l ++ r).dropWhile p = r.dropWhile p := by
  induction l with
  | nil => rfl
  | cons a l ih =>
    have ha : p a = true := h a (List.mem_cons_self _ _)
    simp only [List.cons_append, List.dropWhile_cons, ha, if_true]
    exact ih (fun x hx => h x (List.mem_cons_of_mem _ hx))

theorem stripTrailingEOL_append_eol (X t : Bytes) (ht : ∀ c ∈ t, c = 10 ∨ c = 13) :
    stripTrailingEOL (X ++ t) = stripTrailingEOL X := by
  unfold stripTrailingEOL
  rw [List.reverse_append, dropWhile_append_of_all]
  intro x hx
  rcases ht x (List.mem_reverse.1 hx) with h | h <;> simp [h]

theorem stripTrailingEOL_length_le (b : Bytes) : (stripTrailingEOL b).length ≤ b.length := by
  unfold stripTrailingEOL
  rw [List.length_reverse]
  exact (List.Sublist.length_le (List.dropWhile_sublist _)).trans (by simp)

theorem stripTrailingEOL_append_length (X t : Bytes) (ht : ¬ ∀ c ∈ t, c = 10 ∨ c = 13) :
    X.length < (stripTrailingEOL (X ++ t)).length := by
  induction t using List.reverseRecOn with
  | nil => simp at ht
  | append_singleton t c ih =>
    by_cases hc : c = 10 ∨ c = 13
    · have hstep : stripTrailingEOL (X ++ (t ++ [c])) = stripTrailingEOL (X ++ t) := by
        rw [← List.append_assoc]
        apply stripTrailingEOL_append_eol
        intro x hx
        rw [List.mem_singleton.1 hx]
        exact hc
      rw [hstep]
      apply ih
      intro hall
      apply ht
      intro x hx
      rcases List.mem_append.1 hx with h | h
      · exact hall x h
      · rw [List.mem_singleton.1 h]
        exact hc
    · have hkeep : stripTrailingEOL (X ++ (t ++ [c])) = X ++ (t ++ [c]) := by
        unfold stripTrailingEOL
        have hp : (c == 10 || c == 13) = false := by
          simp only [not_or] at hc
          simp [hc.1, hc.2]
        simp [List.reverse_append, List.dropWhile_cons, hp]
      rw [hkeep]
      simp

/-- C4, amended: when the content that `readFile` returns for one file is the
content that it returns for the other followed by `'\n'` and `'\r'` bytes only
(none included), `compareFileContentExactMatch` passes, whichever side carries
the extra bytes; in particular two files that `readFile` returns as the same
content pass. -/
theorem compareFileContentExactMatch_ignores_trailing_eol (fs : FileSystem)
    (expectedFile outFile : Bytes) (X t : Bytes) (ht : ∀ c ∈ t, c = 10 ∨ c = 13) :
    (readFile fs expectedFile = .ok X → readFile fs outFile = .ok (X ++ t) →
        compareFileContentExactMatch fs expectedFile outFile = ⟨[], true, none⟩) ∧
      (readFile fs expectedFile = .ok (X ++ t) → readFile fs outFile = .ok X →
        compareFileContentExactMatch fs expectedFile outFile = ⟨[], true, none⟩) ∧
      (readFile fs expectedFile = .ok X → readFile fs outFile = .ok X →
        compareFileContentExactMatch fs expectedFile outFile = ⟨[], true, none⟩) := by
  refine ⟨fun he ho => ?_, fun he ho => ?_, fun he ho => ?_⟩
  · rcases compareFileContentExactMatch_cases fs expectedFile outFile _ _ he ho with h | h
    · exact h.2
    · exact absurd ⟨t, ht, Or.inl rfl⟩ h.1
  · rcases compareFileContentExactMatch_cases fs expectedFile outFile _ _ he ho with h | h
    · exact h.2
    · exact absurd ⟨t, ht, Or.inr rfl⟩ h.1
  · rcases compareFileContentExactMatch_cases fs expectedFile outFile _ _ he ho with h | h
    · exact h.2
    · exact absurd ⟨[], by simp, Or.inl (List.append_nil X).symm⟩ h.1

theorem compareFileContentExactMatch_ignores_trailing_eol_witness :
    compareFileContentExactMatch (twoFiles (str "a\nb") (str "a\nb\n")) (str "t1.exp")
      (str "t1.out") = ⟨[], true, none⟩ :=
  (compareFileContentExactMatch_ignores_trailing_eol (twoFiles (str "a\nb") (str "a\nb\n"))
    (str "t1.exp") (str "t1.out") (str "a\nb") (str "\n") (by decide)).1 rfl rfl

/-- C5, amended: if `compareFileContentExactMatch` passes, the expected and the
actual content as `readFile` returns them are equal once every trailing `'\n'`
and `'\r'` byte is removed from each; and a content as `readFile` returns it
compared with itself followed by one space fails, on either side. -/
theorem compareFileContentExactMatch_pass_only_eol (fs : FileSystem)
    (expectedFile outFile : Bytes) (expected output : Bytes)
    (he : readFile fs expectedFile = .ok expected) (ho : readFile fs outFile = .ok output) :
    ((compareFileContentExactMatch fs expectedFile outFile).testOk = true →
        stripTrailingEOL expected = stripTrailingEOL output) ∧
      (output = expected ++ [32] →
        compareFileContentExactMatch fs expectedFile outFile = ⟨expected, false, none⟩) ∧
      (expected = output ++ [32] →
        compareFileContentExactMatch fs expectedFile outFile = ⟨expected, false, none⟩) := by
  rcases compareFileContentExactMatch_cases fs expectedFile outFile _ _ he ho with h | h
  · obtain ⟨⟨t, ht, hcase⟩, hres⟩ := h
    refine ⟨fun _ => ?_, fun hsp => ?_, fun hsp => ?_⟩
    · rcases hcase with hc | hc
      · rw [hc, stripTrailingEOL_append_eol _ _ ht]
      · rw [hc, stripTrailingEOL_append_eol _ _ ht]
    · exfalso
      rcases hcase with hc | hc
      · rw [hsp] at hc
        have := List.append_cancel_left hc
        have h32 := ht 32 (by rw [← this]; exact List.mem_singleton_self _)
        revert h32
        decide
      · have := congrArg List.length hc
        rw [hsp] at this
        simp only [List.length_append, List.length_singleton] at this
        omega
    · exfalso
      rcases hcase with hc | hc
      · have := congrArg List.length hc
        rw [hsp] at this
        simp only [List.length_append, List.length_singleton] at this
        omega
      · rw [hsp] at hc
        have := List.append_cancel_left hc
        have h32 := ht 32 (by rw [← this]; exact List.mem_singleton_self _)
        revert h32
        decide
  · refine ⟨fun hok => ?_, fun _ => h.2, fun _ => h.2⟩
    rw [h.2] at hok
    exact absurd hok Bool.false_ne_true

theorem compareFileContentExactMatch_pass_only_eol_witness :
    compareFileContentExactMatch (twoFiles (str "a") (str "a ")) (str "t1.exp") (str "t1.out") =
      ⟨str "a", false, none⟩ :=
  (compareFileContentExactMatch_pass_only_eol (twoFiles (str "a") (str "a ")) (str "t1.exp")
    (str "t1.out") (str "a") (str "a ") rfl rfl).2.1 rfl

/-- C6, amended: `compareFileContentExactMatch` passes exactly when the two
contents, as `readFile` returns them, are equal after removing every trailing
`'\n'` and `'\r'` byte from each side and, in addition, the shorter content is
an initial segment of the longer one. -/
theorem compareFileContentExactMatch_pass_iff (fs : FileSystem)
    (expectedFile outFile : Bytes) (expected output : Bytes)
    (he : readFile fs expectedFile = .ok expected) (ho : readFile fs outFile = .ok output) :
    compareFileContentExactMatch fs expectedFile outFile = ⟨[], true, none⟩ ↔
      stripTrailingEOL expected = stripTrailingEOL output ∧
        ((∃ t, output = expected ++ t) ∨ (∃ t, expected = output ++ t)) := by
  constructor
  · intro hpass
    rcases compareFileContentExactMatch_cases fs expectedFile outFile _ _ he ho with h | h
    · obtain ⟨⟨t, ht, hcase⟩, -⟩ := h
      rcases hcase with hc | hc
      · exact ⟨by rw [hc, stripTrailingEOL_append_eol _ _ ht], Or.inl ⟨t, hc⟩⟩
      · exact ⟨by rw [hc, stripTrailingEOL_append_eol _ _ ht], Or.inr ⟨t, hc⟩⟩
    · rw [h.2] at hpass
      exact absurd (congrArg CompareResult.testOk hpass) Bool.false_ne_true
  · rintro ⟨hstrip, hcase⟩
    rcases compareFileContentExactMatch_cases fs expectedFile outFile _ _ he ho with h | h
    · exact h.2
    · exfalso
      apply h.1
      rcases hcase with ⟨t, hc⟩ | ⟨t, hc⟩
      · refine ⟨t, ?_, Or.inl hc⟩
        by_contra hne
        have h1 := stripTrailingEOL_append_length expected t hne
        have h2 := stripTrailingEOL_length_le expected
        rw [← hc, ← hstrip] at h1
        omega
      · refine ⟨t, ?_, Or.inr hc⟩
        by_contra hne
        have h1 := stripTrailingEOL_append_length output t hne
        have h2 := stripTrailingEOL_length_le output
        rw [← hc, hstrip] at h1
        omega

theorem compareFileContentExactMatch_pass_iff_witness :
    compareFileContentExactMatch (twoFiles (str "a\r\n") (str "a\r\n\n")) (str "t1.exp")
        (str "t1.out") = ⟨[], true, none⟩ ↔
      stripTrailingEOL (str "a\r\n") = stripTrailingEOL (str "a\r\n\n") ∧
        ((∃ t, str "a\r\n\n" = str "a\r\n" ++ t) ∨ (∃ t, str "a\r\n" = str "a\r\n\n" ++ t)) :=
  compareFileContentExactMatch_pass_iff (twoFiles (str "a\r\n") (str "a\r\n\n")) (str "t1.exp")
    (str "t1.out") (str "a\r\n") (str "a\r\n\n") rfl rfl

/-! ## The analysis stage -/

theorem foldl_append_singleton {α β : Type} (f : α → β) (l : List α) (init : List β) :
    l.foldl (fun acc x => acc ++ [f x]) init = init ++ l.map f := by
  induction l generalizing init with
  | nil => simp
  | cons a l ih => simp [ih]

theorem foldl_fileWarning (ws : List CheckstyleWarning) (init : FileWarnings) :
    ws.foldl (fun fileWarning checkstyleWarning =>
        ({ fileWarning with
          Warnings := fileWarning.Warnings ++ [convertWarning checkstyleWarning] } : FileWarnings))
      init = { File := init.File, Warnings := init.Warnings ++ ws.map convertWarning } := by
  induction ws generalizing init with
  | nil => simp
  | cons a l ih => simp [ih]

theorem convertWarnings_eq_map (cfws : List CheckstyleFileWarnings) :
    convertWarnings cfws =
      cfws.map (fun c => { File := c.File, Warnings := c.Warnings.map convertWarning }) := by
  unfold convertWarnings
  simp only [foldl_fileWarning, List.nil_append]
  rw [foldl_append_singleton (fun c : CheckstyleFileWarnings =>
    ({ File := c.File, Warnings := c.Warnings.map convertWarning } : FileWarnings))]
  simp

theorem convertWarning_priority (cw : CheckstyleWarning) :
    (cw.Severity = str "ignore" → (convertWarning cw).Priority = 5) ∧
      (cw.Severity = str "info" → (convertWarning cw).Priority = 4) ∧
      (cw.Severity = str "warning" → (convertWarning cw).Priority = 3) ∧
      (cw.Severity = str "error" → (convertWarning cw).Priority = 1) ∧
      (cw.Severity ≠ str "ignore" → cw.Severity ≠ str "info" → cw.Severity ≠ str "warning" →
        cw.Severity ≠ str "error" → (convertWarning cw).Priority = 3) ∧
      1 ≤ (convertWarning cw).Priority ∧ (convertWarning cw).Priority ≤ 5 := by
  have d1 : str "ignore" ≠ str "info" := by decide
  have d2 : str "ignore" ≠ str "warning" := by decide
  have d3 : str "ignore" ≠ str "error" := by decide
  have d4 : str "info" ≠ str "warning" := by decide
  have d5 : str "info" ≠ str "error" := by decide
  have d6 : str "warning" ≠ str "error" := by decide
  rcases cw with ⟨r, l, sev, m⟩
  simp only [convertWarning]
  by_cases h1 : sev = str "ignore"
  · subst h1
    simp [d1, d2, d3]
  · by_cases h2 : sev = str "info"
    · subst h2
      simp [d1.symm, d4, d5]
    · by_cases h3 : sev = str "warning"
      · subst h3
        simp [d2.symm, d4.symm, d6]
      · by_cases h4 : sev = str "error"
        · subst h4
          simp [d3.symm, d5.symm, d6.symm]
        · simp [h1, h2, h3, h4]

/-- C8: `convertWarnings` gives the warning at every position of the Checkstyle
report the priority of the fixed table (ignore 5, info 4, warning 3, error 1,
any other severity 3); every finding gets a warning, and every priority in the
result lies between 1 and 5. -/
theorem convertWarnings_priority_table (cfws : List CheckstyleFileWarnings) :
    (∀ (i j : Nat) (cw : CheckstyleWarning),
        (cfws[i]?.bind (fun f => f.Warnings[j]?)) = some cw →
        ∃ w, ((convertWarnings cfws)[i]?.bind (fun f => f.Warnings[j]?)) = some w ∧
          (cw.Severity = str "ignore" → w.Priority = 5) ∧
          (cw.Severity = str "info" → w.Priority = 4) ∧
          (cw.Severity = str "warning" → w.Priority = 3) ∧
          (cw.Severity = str "error" → w.Priority = 1) ∧
          (cw.Severity ≠ str "ignore" → cw.Severity ≠ str "info" →
            cw.Severity ≠ str "warning" → cw.Severity ≠ str "error" → w.Priority = 3)) ∧
      (∀ fw ∈ convertWarnings cfws, ∀ w ∈ fw.Warnings, 1 ≤ w.Priority ∧ w.Priority ≤ 5) := by
  rw [convertWarnings_eq_map]
  constructor
  · intro i j cw h
    refine ⟨convertWarning cw, ?_, ?_⟩
    · rw [List.getElem?_map]
      cases hi : cfws[i]? with
      | none => rw [hi] at h; simp at h
      | some c =>
        rw [hi] at h
        simp only [Option.some_bind] at h
        simp only [Option.map_some', Option.some_bind, List.getElem?_map, h]
    · obtain ⟨a, b, c, d, e, -⟩ := convertWarning_priority cw
      exact ⟨a, b, c, d, e⟩
  · intro fw hfw w hw
    obtain ⟨c, -, rfl⟩ := List.mem_map.1 hfw
    obtain ⟨cw, -, rfl⟩ := List.mem_map.1 hw
    exact (convertWarning_priority cw).2.2.2.2.2

theorem convertWarnings_priority_table_witness :
    ∃ w, ((convertWarnings
          [{ File := str "A.java",
             Warnings := [{ Rule := str "a.B", Line := 1, Severity := str "ignore",
                            Message := str "m" }] }])[0]?.bind
            (fun f => f.Warnings[0]?)) = some w ∧ w.Priority = 5 := by
  obtain ⟨w, hw, h5, -⟩ := (convertWarnings_priority_table
    [{ File := str "A.java",
       Warnings := [{ Rule := str "a.B", Line := 1, Severity := str "ignore",
                      Message := str "m" }] }]).1 0 0
    { Rule := str "a.B", Line := 1, Severity := str "ignore", Message := str "m" } rfl
  exact ⟨w, hw, h5 rfl⟩

theorem foldl_range_set {α : Type} (f : α → α) (l : List α) (g : List α → Nat → List α)
    (hg : ∀ acc i x, l[i]? = some x → g acc i = acc.set i (f x)) (k : Nat)
    (hk : k ≤ l.length) :
    ((List.range k).foldl g l).length = l.length ∧
      ∀ j, ((List.range k).foldl g l)[j]? = if j < k then l[j]?.map f else l[j]? := by
  induction k with
  | zero => simp
  | succ k ih =>
    obtain ⟨hlen, hget⟩ := ih (by omega)
    have hk' : k < l.length := by omega
    rw [List.range_succ, List.foldl_append]
    simp only [List.foldl_cons, List.foldl_nil]
    rw [hg _ k l[k] (List.getElem?_eq_getElem hk')]
    refine ⟨by rw [List.length_set, hlen], fun j => ?_⟩
    rw [List.getElem?_set, hlen, hget j]
    by_cases hkj : k = j
    · subst hkj
      simp [hk']
    · simp only [hkj, if_false]
      by_cases hj : j < k
      · simp [hj, Nat.lt_succ_of_lt hj]
      · have : ¬ j < k + 1 := by omega
        simp [hj, this]

theorem fixFilenames_getElem (env : AnalysisEnv) (execution : Execution)
    (fileWarnings : List FileWarnings) :
    (fixFilenames env execution fileWarnings).length = fileWarnings.length ∧
      ∀ j, (fixFilenames env execution fileWarnings)[j]? =
        if j < fileWarnings.length then
          fileWarnings[j]?.map (fun fw : FileWarnings =>
            if strings.HasPrefix fw.File execution.Config.UploadsDirectory then
              { fw with File := (env.Rel execution.Config.UploadsDirectory fw.File).1 }
            else fw)
        else fileWarnings[j]? := by
  unfold fixFilenames
  exact foldl_range_set _ fileWarnings _ (fun acc i x hx => by simp only [hx]) _ le_rfl

/-- C9, as stated, fails: a report entry whose path does not begin with the
uploads directory is returned as it is, so the absolute path that Checkstyle
reports from inside the sandbox is returned absolute, whatever `filepath.Rel`
does. -/
theorem analyse_returns_absolute_path :
    ¬ ∀ rel, ∀ fw ∈ analyse (sampleEnv rel) sampleExecution, fw.File.head? ≠ some 47 := by
  intro h
  have hval : analyse (sampleEnv sampleRel) sampleExecution =
      [⟨str "/code/uploads/Main.java",
          [⟨str "MagicNumber", str "checkstyle", 3, [], 1, str "magic\nnumber"⟩]⟩,
        ⟨str "Util.java", [⟨str "TodoComment", str "checkstyle", 7, [], 4, str "todo"⟩]⟩] := by
    decide
  have := h sampleRel _ (by rw [hval]; exact List.mem_cons_self _ _)
  exact this (by decide)

/-- C9, amended: `analyse` returns the collected entries in their order, one for
one; an entry whose reported path begins with `UploadsDirectory` has its `File`
replaced by the first result of `filepath.Rel(UploadsDirectory, File)`, and every
other entry is returned unchanged. -/
theorem analyse_rewrites_uploads_paths (env : AnalysisEnv) (execution : Execution)
    (fileWarnings : List FileWarnings)
    (hcollect : analyseCollect env execution = some fileWarnings) :
    (analyse env execution).length = fileWarnings.length ∧
      ∀ (i : Nat) (fw : FileWarnings), fileWarnings[i]? = some fw →
        (analyse env execution)[i]? = some
          (if strings.HasPrefix fw.File execution.Config.UploadsDirectory then
            { fw with File := (env.Rel execution.Config.UploadsDirectory fw.File).1 }
          else fw) := by
  unfold analyse
  simp only [hcollect]
  obtain ⟨hlen, hget⟩ := fixFilenames_getElem env execution fileWarnings
  refine ⟨hlen, fun i fw hi => ?_⟩
  rw [hget i]
  have hlt : i < fileWarnings.length := by
    by_contra hge
    rw [List.getElem?_eq_none (by omega)] at hi
    exact absurd hi (by simp)
  simp [hlt, hi]

theorem analyse_rewrites_uploads_paths_witness :
    (analyse (sampleEnv sampleRel) sampleExecution)[1]? = some
      ⟨str "Util.java", [⟨str "TodoComment", str "checkstyle", 7, [], 4, str "todo"⟩]⟩ :=
  (analyse_rewrites_uploads_paths (sampleEnv sampleRel) sampleExecution
    [⟨str "/code/uploads/Main.java",
        [⟨str "MagicNumber", str "checkstyle", 3, [], 1, str "magic\nnumber"⟩]⟩,
      ⟨str "uploads/Util.java", [⟨str "TodoComment", str "checkstyle", 7, [], 4, str "todo"⟩]⟩]
    (by decide)).2 1
    ⟨str "uploads/Util.java", [⟨str "TodoComment", str "checkstyle", 7, [], 4, str "todo"⟩]⟩ rfl

theorem ReplaceAll_no_old (s : Bytes) (old : UInt8) : old ∉ strings.ReplaceAll s old [] := by
  unfold strings.ReplaceAll
  intro h
  obtain ⟨a, -, ha⟩ := List.mem_flatMap.1 h
  by_cases hao : a = old
  · simp [hao] at ha
  · have : (a == old) = false := by simpa using hao
    rw [this] at ha
    simp only [Bool.false_eq_true, if_false, List.mem_singleton] at ha
    exact hao ha.symm

/-- The PMD half of C10: no message that `parsePmdResult` returns holds a newline. -/
theorem parsePmdResult_no_newline (env : AnalysisEnv) (fs : FileSystem) (absRunDir : Bytes)
    (fileWarnings : List FileWarnings)
    (h : parsePmdResult env fs absRunDir = .ok fileWarnings) :
    ∀ fw ∈ fileWarnings, ∀ w ∈ fw.Warnings, (10 : UInt8) ∉ w.Message := by
  unfold parsePmdResult at h
  simp only at h
  split at h
  · exact absurd h (by simp)
  · split at h
    · exact absurd h (by simp)
    · cases h
      intro fw hfw w hw
      obtain ⟨fw₀, -, rfl⟩ := List.mem_map.1 hfw
      obtain ⟨w₀, -, rfl⟩ := List.mem_map.1 hw
      exact ReplaceAll_no_old _ _

/-- C10 at a failing input: `convertWarnings` copies the message of a Checkstyle
finding as it is, so a message of two lines is returned with its newline. -/
theorem convertWarnings_keeps_newline :
    convertWarnings
        [{ File := str "uploads/Main.java",
           Warnings := [{ Rule := str "checks.MagicNumber", Line := 3, Severity := str "error",
                          Message := str "magic\nnumber" }] }] =
      [⟨str "uploads/Main.java",
        [⟨str "MagicNumber", str "checkstyle", 3, [], 1, str "magic\nnumber"⟩]⟩] ∧
      (10 : UInt8) ∈ str "magic\nnumber" := by
  decide

/-- The sample report through `analyse`: the absolute path stays, the path below
`uploads` is made relative, and the message of two lines keeps its newline. -/
theorem analyse_sample :
    analyse (sampleEnv sampleRel) sampleExecution =
      [⟨str "/code/uploads/Main.java",
          [⟨str "MagicNumber", str "checkstyle", 3, [], 1, str "magic\nnumber"⟩]⟩,
        ⟨str "Util.java", [⟨str "TodoComment", str "checkstyle", 7, [], 4, str "todo"⟩]⟩] := by
  decide

theorem strings_Split_sample :
    strings.Split (str "a.b.") 46 = [str "a", str "b", []] ∧ strings.Split [] 46 = [[]] := by
  decide

theorem strings_ReplaceAll_sample : strings.ReplaceAll (str "\na\n\nb") 10 [] = str "ab" := by
  decide

/-! ## The I/O-diff runner -/

theorem compareFileContentExactMatch_of_not_ok (fs : FileSystem)
    (expectedFile outFile : Bytes) (expected output : Bytes)
    (he : readFile fs expectedFile = .ok expected) (ho : readFile fs outFile = .ok output)
    (hfail : (compareFileContentExactMatch fs expectedFile outFile).testOk = false) :
    compareFileContentExactMatch fs expectedFile outFile = ⟨expected, false, none⟩ := by
  rcases compareFileContentExactMatch_cases fs expectedFile outFile _ _ he ho with h | h
  · rw [h.2] at hfail
    exact absurd hfail (by simp)
  · exact h.2

theorem compareFileContentExactMatch_ok_empty (fs : FileSystem) (expectedFile outFile : Bytes)
    (hok : (compareFileContentExactMatch fs expectedFile outFile).testOk = true) :
    (compareFileContentExactMatch fs expectedFile outFile).expectedResult = [] := by
  cases he : readFile fs expectedFile with
  | error e =>
    simp only [compareFileContentExactMatch, he] at hok
    exact absurd hok (by simp)
  | ok expected =>
    cases ho : readFile fs outFile with
    | error e =>
      simp only [compareFileContentExactMatch, he, ho] at hok
      exact absurd hok (by simp)
    | ok output =>
      rcases compareFileContentExactMatch_cases fs expectedFile outFile _ _ he ho with h | h
      · rw [h.2]
      · rw [h.2] at hok
        exact absurd hok (by simp)

/-- The failing turn of the loop once the program has run without error and the
in-process comparison of the two files, both readable, has failed. -/
theorem executeCase_of_failed_compare (env : IOTestEnv) (execution : Execution)
    (testDir : Bytes) (fs : FileSystem) (fName : Bytes) (fs' : FileSystem)
    (expected output : Bytes)
    (htool : execution.Config.CompareTool = [])
    (hrun : IOTestRunner.execute env execution
      (fName.take (fName.length - 8) ++ str ".in.txt")
      (fName.take (fName.length - 8) ++ str ".param.txt")
      (fName.take (fName.length - 8) ++ str ".out.txt")
      (fName.take (fName.length - 8) ++ str ".err.txt") fs = (fs', none))
    (he : readFile fs' (env.Join [testDir, fName.take (fName.length - 8) ++ str ".out.txt"]) =
      .ok expected)
    (ho : readFile fs'
      (env.Join [execution.RunDir, fName.take (fName.length - 8) ++ str ".out.txt"]) =
      .ok output)
    (hfail : compareFileContentExactMatch fs'
      (env.Join [testDir, fName.take (fName.length - 8) ++ str ".out.txt"])
      (env.Join [execution.RunDir, fName.take (fName.length - 8) ++ str ".out.txt"]) =
      ⟨expected, false, none⟩) :
    (IOTestRunner.executeCase env execution testDir fs fName).test.Success = false ∧
      (IOTestRunner.executeCase env execution testDir fs fName).test.Expected = expected ∧
      (IOTestRunner.executeCase env execution testDir fs fName).test.Output = output ∧
      (IOTestRunner.executeCase env execution testDir fs fName).failed = true := by
  unfold IOTestRunner.executeCase
  simp only [hrun, he, ho, compareFileContent, htool, if_true, hfail, Bool.not_false,
    List.nil_append, and_self]

theorem readFile_longExpected :
    readFile (caseFiles longExpected (str "b")) (str "tests/t/t1.out.txt") =
      .ok (longExpected.take (maxFileSize / 4) ++
        ((str "\n... [Output too long, skipping " ++
            Itoa ((longExpected.length : Int) - ((maxFileSize / 2 : Nat) : Int)) ++
            str " bytes] ... \n") ++
          longExpected.drop (longExpected.length - maxFileSize / 4))) := by
  have hfs : caseFiles longExpected (str "b") (str "tests/t/t1.out.txt") = .ok longExpected := rfl
  have hlen : longExpected.length > maxFileSize := by
    simp only [longExpected, List.length_replicate, maxFileSize]
    decide
  unfold readFile
  rw [hfs]
  simp only [hlen, if_true]

/-- C7, as stated, fails: for an expected-output file of one byte more than
`maxFileSize` and a program that ran without error and printed `b`, the case is
recorded as failed, but `Expected` is not the full content of the file: it holds
the newline of the marker that `readFile` puts in place of the middle. -/
theorem executeCase_long_expected_elided :
    caseFiles longExpected (str "b") (str "tests/t/t1.out.txt") = .ok longExpected ∧
      (IOTestRunner.execute sampleIOEnv sampleExecution (str "t1.in.txt") (str "t1.param.txt")
        (str "t1.out.txt") (str "t1.err.txt") (caseFiles longExpected (str "b"))).2 = none ∧
      (IOTestRunner.executeCase sampleIOEnv sampleExecution (str "tests/t")
        (caseFiles longExpected (str "b")) (str "t1.out.txt")).test.Success = false ∧
      (IOTestRunner.executeCase sampleIOEnv sampleExecution (str "tests/t")
        (caseFiles longExpected (str "b")) (str "t1.out.txt")).test.Output = str "b" ∧
      (IOTestRunner.executeCase sampleIOEnv sampleExecution (str "tests/t")
        (caseFiles longExpected (str "b")) (str "t1.out.txt")).test.Expected ≠ longExpected := by
  have hout : readFile (caseFiles longExpected (str "b")) (str "runs/42/t1.out.txt") =
      .ok (str "b") := rfl
  have hhead : ∀ rest : Bytes,
      (longExpected.take (maxFileSize / 4) ++ rest).head? = some 97 := fun _ => rfl
  have hfail := compareFileContentExactMatch_cases (caseFiles longExpected (str "b"))
    (str "tests/t/t1.out.txt") (str "runs/42/t1.out.txt") _ _ readFile_longExpected hout
  rcases hfail with ⟨⟨t, -, hc | hc⟩, -⟩ | ⟨-, hfail⟩
  · have h := congrArg List.head? hc
    rw [List.append_assoc, hhead] at h
    exact absurd h (by decide)
  · have h := congrArg List.head? hc
    have h98 : (str "b" ++ t).head? = some 98 := rfl
    rw [hhead, h98] at h
    exact absurd h (by decide)
  · obtain ⟨h1, h2, h3, -⟩ := executeCase_of_failed_compare sampleIOEnv sampleExecution
      (str "tests/t") (caseFiles longExpected (str "b")) (str "t1.out.txt")
      (caseFiles longExpected (str "b")) _ (str "b") rfl rfl readFile_longExpected hout hfail
    refine ⟨rfl, rfl, h1, h3, ?_⟩
    rw [h2]
    intro heq
    have hmem : (10 : UInt8) ∈ longExpected := by
      rw [← heq]
      refine List.mem_append_right _ (List.mem_append_left _ (List.mem_append_left _
        (List.mem_append_left _ ?_)))
      decide
    simp only [longExpected, List.mem_replicate] at hmem
    exact absurd hmem.2 (by decide)

/-- C7, amended: in the I/O-diff runner without a compare tool, a case whose
program ran without error and whose output does not match is recorded with
`Success = false`, counted as failed, with `Expected` the content of the
expected-output file as `readFile` returns it and `Output` the content of the
captured stdout file as `readFile` returns it (the whole file up to `maxFileSize`
bytes, head, marker and tail beyond); and a comparison that passes returns the
empty string as `expectedResult`. -/
theorem executeCase_mismatch_records_contents (env : IOTestEnv) (execution : Execution)
    (testDir : Bytes) (fs : FileSystem) (fName : Bytes) (fs' : FileSystem)
    (expected output : Bytes)
    (htool : execution.Config.CompareTool = [])
    (hrun : IOTestRunner.execute env execution
      (fName.take (fName.length - 8) ++ str ".in.txt")
      (fName.take (fName.length - 8) ++ str ".param.txt")
      (fName.take (fName.length - 8) ++ str ".out.txt")
      (fName.take (fName.length - 8) ++ str ".err.txt") fs = (fs', none))
    (he : readFile fs' (env.Join [testDir, fName.take (fName.length - 8) ++ str ".out.txt"]) =
      .ok expected)
    (ho : readFile fs'
      (env.Join [execution.RunDir, fName.take (fName.length - 8) ++ str ".out.txt"]) =
      .ok output) :
    ((compareFileContentExactMatch fs'
          (env.Join [testDir, fName.take (fName.length - 8) ++ str ".out.txt"])
          (env.Join [execution.RunDir, fName.take (fName.length - 8) ++ str ".out.txt"])).testOk
        = false →
      (IOTestRunner.executeCase env execution testDir fs fName).test.Success = false ∧
        (IOTestRunner.executeCase env execution testDir fs fName).test.Expected = expected ∧
        (IOTestRunner.executeCase env execution testDir fs fName).test.Output = output ∧
        (IOTestRunner.executeCase env execution testDir fs fName).failed = true) ∧
      ∀ expectedFile outFile,
        (compareFileContentExactMatch fs' expectedFile outFile).testOk = true →
        (compareFileContentExactMatch fs' expectedFile outFile).expectedResult = [] :=
  ⟨fun hfail => executeCase_of_failed_compare env execution testDir fs fName fs' expected output
      htool hrun he ho (compareFileContentExactMatch_of_not_ok _ _ _ _ _ he ho hfail),
    fun expectedFile outFile => compareFileContentExactMatch_ok_empty fs' expectedFile outFile⟩

theorem executeCase_mismatch_records_contents_witness :
    (IOTestRunner.executeCase sampleIOEnv sampleExecution (str "tests/t")
        (caseFiles (str "a") (str "b")) (str "t1.out.txt")).test.Success = false ∧
      (IOTestRunner.executeCase sampleIOEnv sampleExecution (str "tests/t")
        (caseFiles (str "a") (str "b")) (str "t1.out.txt")).test.Expected = str "a" ∧
      (IOTestRunner.executeCase sampleIOEnv sampleExecution (str "tests/t")
        (caseFiles (str "a") (str "b")) (str "t1.out.txt")).test.Output = str "b" ∧
      (IOTestRunner.executeCase sampleIOEnv sampleExecution (str "tests/t")
        (caseFiles (str "a") (str "b")) (str "t1.out.txt")).failed = true :=
  (executeCase_mismatch_records_contents sampleIOEnv sampleExecution (str "tests/t")
    (caseFiles (str "a") (str "b")) (str "t1.out.txt") (caseFiles (str "a") (str "b"))
    (str "a") (str "b") rfl rfl rfl rfl).1 (by decide)

/-- The divergence scenario: expected `a`, actual `b`. -/
theorem executeCase_divergence_sample :
    (IOTestRunner.executeCase sampleIOEnv sampleExecution (str "tests/t")
        (caseFiles (str "a") (str "b")) (str "t1.out.txt")).test =
      ⟨str "t1", false, str "Error for the following input:\nNo input", str "a", str "b"⟩ := by
  decide

/-- The trailing-newline scenario through the whole runner: one case, no failure. -/
theorem executeTest_trailing_newline_sample :
    IOTestRunner.executeTest sampleIOEnv sampleExecution
        (caseFiles (str "a\nb") (str "a\nb\n")) =
      ⟨str "42", true, [], [], [⟨str "t1", true, [], str "a\nb", str "a\nb\n"⟩], 1, 0, [], []⟩ := by
  decide

/-- Carriage return plus newline against newline alone fails: the two contents
differ at the byte before the common end. -/
theorem compareFileContentExactMatch_crlf_sample :
    compareFileContentExactMatch (twoFiles (str "a\n") (str "a\r\n")) (str "t1.exp")
      (str "t1.out") = ⟨str "a\n", false, none⟩ := by
  decide

theorem Itoa_sample : Itoa 524289 = str "524289" ∧ Itoa (-12) = str "-12" := by
  decide

/-! ## The display cap of `readFile` -/

/-- C11: `readFile` returns a content of at most `maxFileSize` bytes unchanged;
a longer content `c` is `head ++ middle ++ tail` with head and tail of
`maxFileSize/4` bytes each, and `readFile` returns the head, a marker and the
tail, where the marker states the number of bytes of the middle, which is
`len(c) - maxFileSize/2`. -/
theorem readFile_elides_middle (fs : FileSystem) (filename : Bytes) (c : Bytes)
    (h : fs filename = .ok c) :
    (c.length ≤ maxFileSize → readFile fs filename = .ok c) ∧
      (maxFileSize < c.length →
        ∃ head middle tail : Bytes,
          c = head ++ middle ++ tail ∧
          head = c.take (maxFileSize / 4) ∧ head.length = maxFileSize / 4 ∧
          tail = c.drop (c.length - maxFileSize / 4) ∧ tail.length = maxFileSize / 4 ∧
          (middle.length : Int) = (c.length : Int) - ((maxFileSize / 2 : Nat) : Int) ∧
          readFile fs filename = .ok (head ++
            (str "\n... [Output too long, skipping " ++ Itoa (middle.length : Int) ++
              str " bytes] ... \n") ++ tail)) := by
  constructor
  · intro hle
    unfold readFile
    rw [h]
    have : ¬ c.length > maxFileSize := by omega
    simp only [this, if_false]
  · intro hlt
    have hQ : maxFileSize / 4 = 262144 := by decide
    have hH : maxFileSize / 2 = 524288 := by decide
    have hM : maxFileSize = 1048576 := by decide
    refine ⟨c.take (maxFileSize / 4),
      (c.drop (maxFileSize / 4)).take (c.length - maxFileSize / 4 - maxFileSize / 4),
      c.drop (c.length - maxFileSize / 4), ?_, rfl, ?_, rfl, ?_, ?_, ?_⟩
    · have h1 : c.drop (c.length - maxFileSize / 4) =
          (c.drop (maxFileSize / 4)).drop (c.length - maxFileSize / 4 - maxFileSize / 4) := by
        have e : maxFileSize / 4 + (c.length - maxFileSize / 4 - maxFileSize / 4) =
            c.length - maxFileSize / 4 := by omega
        rw [List.drop_drop, e]
      rw [h1, List.append_assoc, List.take_append_drop, List.take_append_drop]
    · rw [List.length_take]
      omega
    · rw [List.length_drop]
      omega
    · rw [List.length_take, List.length_drop]
      omega
    · have hlen : ((List.take (c.length - maxFileSize / 4 - maxFileSize / 4)
          (List.drop (maxFileSize / 4) c)).length : Int) =
          (c.length : Int) - ((maxFileSize / 2 : Nat) : Int) := by
        rw [List.length_take, List.length_drop]
        omega
      unfold readFile
      rw [h]
      have : c.length > maxFileSize := hlt
      simp only [this, if_true, hlen, List.append_assoc]

theorem readFile_elides_middle_witness :
    readFile (twoFiles (str "a\nb") (str "a\nb\n")) (str "t1.exp") = .ok (str "a\nb") :=
  (readFile_elides_middle (twoFiles (str "a\nb") (str "a\nb\n")) (str "t1.exp") (str "a\nb")
    rfl).1 (by decide)

/-! ## The language drivers and the compile stage -/

/-- C20: `compilerProvider` returns the driver of each of the five languages;
the Matlab driver's `compile` returns no error and leaves the files alone; for
every other `Compiler` value the driver is the fallback, whose `compile` fails
with the error "Compiler not supported: " followed by the value, for every job. -/
theorem compilerProvider_total :
    compilerProvider JavaCompiler = .CompilerProviderJava ∧
      compilerProvider CCompiler = .CompilerProviderC ∧
      compilerProvider FsharpCompiler = .CompilerProviderFsharp ∧
      compilerProvider PythonCompiler = .CompilerProviderPython ∧
      compilerProvider MatlabCompiler = .CompilerProviderMatlab ∧
      (∀ (env : PipelineEnv) (execution : Execution) (fs : FileSystem),
        (compilerProvider MatlabCompiler).compile env execution fs = (fs, none)) ∧
      (∀ compiler : Compiler,
        compiler ≠ JavaCompiler → compiler ≠ CCompiler → compiler ≠ FsharpCompiler →
        compiler ≠ PythonCompiler → compiler ≠ MatlabCompiler →
        compilerProvider compiler = .CompilerProviderErr compiler ∧
        ∀ (env : PipelineEnv) (execution : Execution) (fs : FileSystem),
          ((compilerProvider compiler).compile env execution fs).2 =
            some (str "Compiler not supported: " ++ Itoa compiler)) := by
  refine ⟨by decide, by decide, by decide, by decide, by decide, fun _ _ _ => rfl, ?_⟩
  intro compiler h0 h1 h2 h3 h4
  have hp : compilerProvider compiler = .CompilerProviderErr compiler := by
    simp only [compilerProvider, h0, h1, h2, h3, h4, if_false]
  exact ⟨hp, fun env execution fs => by rw [hp]; rfl⟩

theorem compilerProvider_total_witness :
    ((compilerProvider 7).compile samplePipelineEnv sampleExecution (caseFiles [] [])).2 =
      some (str "Compiler not supported: 7") :=
  (compilerProvider_total.2.2.2.2.2.2 7 (by decide) (by decide) (by decide) (by decide)
    (by decide)).2 samplePipelineEnv sampleExecution (caseFiles [] [])

/-- The events of the compile stage's turn when the driver fails. -/
theorem compileService_of_error (env : PipelineEnv) (execution : Job) (fs : FileSystem)
    (err : Bytes)
    (h : ((compilerProvider execution.Config.Compiler).compile env execution.toExecution
      (env.copyResources execution.toExecution fs)).2 = some err) :
    (compileService env execution fs).2 =
      (if execution.AnalysisChan ≠ none then [PipelineEvent.publishAnalysis execution] else []) ++
        (if execution.ClocChan ≠ none then [PipelineEvent.publishMetric execution] else []) ++
        [.compile (compilerProvider execution.Config.Compiler) execution.toExecution] ++
        [.sendRes execution.ResChan (notCompiled execution.ID err)] := by
  unfold compileService
  simp only [h]

/-- The events of the compile stage's turn when the driver succeeds. -/
theorem compileService_of_success (env : PipelineEnv) (execution : Job) (fs : FileSystem)
    (h : ((compilerProvider execution.Config.Compiler).compile env execution.toExecution
      (env.copyResources execution.toExecution fs)).2 = none) :
    (compileService env execution fs).2 =
      (if execution.AnalysisChan ≠ none then [PipelineEvent.publishAnalysis execution] else []) ++
        (if execution.ClocChan ≠ none then [PipelineEvent.publishMetric execution] else []) ++
        [.compile (compilerProvider execution.Config.Compiler) execution.toExecution] ++
        [.publishMetric execution, .publishTest execution] := by
  unfold compileService
  simp only [h]

/-- C12: when the language driver returns an error `e`, the compile stage sends
exactly one `TestResult` to the job's `ResChan`, with `Compiled = false` and
`CompileError` the text of `e`; it publishes the job to the test queue not at
all and to the metric queue only the one time before the compilation (when a
`ClocChan` is attached); and no other result reaches `ResChan` in the job's
lifetime. -/
theorem compileService_failure_reply (env : PipelineEnv) (execution : Job) (fs : FileSystem)
    (err : Bytes)
    (h : ((compilerProvider execution.Config.Compiler).compile env execution.toExecution
      (env.copyResources execution.toExecution fs)).2 = some err) :
    (compileService env execution fs).2.filter PipelineEvent.isSendRes =
        [.sendRes execution.ResChan (notCompiled execution.ID err)] ∧
      (notCompiled execution.ID err).Compiled = false ∧
      (notCompiled execution.ID err).CompileError = err ∧
      (compileService env execution fs).2.countP PipelineEvent.isPublishTest = 0 ∧
      (compileService env execution fs).2.countP PipelineEvent.isPublishMetric =
        (if execution.ClocChan ≠ none then 1 else 0) ∧
      (jobTrace env execution fs).filter PipelineEvent.isSendRes =
        [.sendRes execution.ResChan (notCompiled execution.ID err)] := by
  have hev := compileService_of_error env execution fs err h
  refine ⟨?_, rfl, rfl, ?_, ?_, ?_⟩
  · rw [hev]
    by_cases ha : execution.AnalysisChan = none <;> by_cases hc : execution.ClocChan = none <;>
      simp [ha, hc, PipelineEvent.isSendRes]
  · rw [hev]
    by_cases ha : execution.AnalysisChan = none <;> by_cases hc : execution.ClocChan = none <;>
      simp [ha, hc, PipelineEvent.isPublishTest]
  · rw [hev]
    by_cases ha : execution.AnalysisChan = none <;> by_cases hc : execution.ClocChan = none <;>
      simp [ha, hc, PipelineEvent.isPublishMetric]
  · unfold jobTrace
    simp only [hev]
    by_cases ha : execution.AnalysisChan = none <;> by_cases hc : execution.ClocChan = none <;>
      simp [ha, hc, PipelineEvent.isSendRes, handleAnalysisRequest, handleMetricRequest] <;>
      cases env.metric execution.toExecution (compileService env execution fs).1 <;>
      simp [PipelineEvent.isSendRes]

theorem compileService_failure_reply_witness :
    (compileService samplePipelineEnv
        { sampleJob IOTest with Config := { sampleExecution.Config with Compiler := 9 } }
        (caseFiles [] [])).2.filter PipelineEvent.isSendRes =
      [.sendRes (some 0) (notCompiled (str "42") (str "Compiler not supported: 9"))] :=
  (compileService_failure_reply samplePipelineEnv
    { sampleJob IOTest with Config := { sampleExecution.Config with Compiler := 9 } }
    (caseFiles [] []) (str "Compiler not supported: 9") rfl).1

/-! ## Calls of `compile` in the lifetime of a job -/

theorem handleMetricRequest_countP_isCompile (env : PipelineEnv) (job : Job) (fs : FileSystem) :
    (handleMetricRequest env job fs).countP PipelineEvent.isCompile = 0 := by
  unfold handleMetricRequest
  cases env.metric job.toExecution fs <;> simp [PipelineEvent.isCompile]

theorem handleTestRequest_countP_isCompile (env : PipelineEnv) (job : Job) (fs : FileSystem) :
    (handleTestRequest env job fs).2.countP PipelineEvent.isCompile =
      ((getRunner job.Config.TestType).executeTest env job.toExecution fs).events.countP
        PipelineEvent.isCompile := by
  unfold handleTestRequest
  cases h : ((getRunner job.Config.TestType).executeTest env job.toExecution fs).result <;>
    simp [h, PipelineEvent.isCompile]

/-- The calls of `compile` in the lifetime of a job: the one of the compile
stage and, when it succeeds, those of the runner. -/
theorem jobTrace_countP_isCompile (env : PipelineEnv) (execution : Job) (fs : FileSystem) :
    (jobTrace env execution fs).countP PipelineEvent.isCompile =
      1 + (match ((compilerProvider execution.Config.Compiler).compile env execution.toExecution
            (env.copyResources execution.toExecution fs)).2 with
          | some _ => 0
          | none =>
            ((getRunner execution.Config.TestType).executeTest env execution.toExecution
              (compileService env execution fs).1).events.countP PipelineEvent.isCompile) := by
  cases h : ((compilerProvider execution.Config.Compiler).compile env execution.toExecution
      (env.copyResources execution.toExecution fs)).2 with
  | some err =>
    unfold jobTrace
    simp only [compileService_of_error env execution fs err h]
    by_cases ha : execution.AnalysisChan = none <;> by_cases hc : execution.ClocChan = none <;>
      simp [ha, hc, PipelineEvent.isCompile, handleAnalysisRequest,
        handleMetricRequest_countP_isCompile]
  | none =>
    unfold jobTrace
    simp only [compileService_of_success env execution fs h]
    by_cases ha : execution.AnalysisChan = none <;> by_cases hc : execution.ClocChan = none <;>
      simp [ha, hc, PipelineEvent.isCompile, handleAnalysisRequest,
        handleMetricRequest_countP_isCompile, handleTestRequest_countP_isCompile] <;>
      omega

theorem JUnitTestRunner_countP_isCompile (env : PipelineEnv) (execution : Execution)
    (fs : FileSystem) :
    (JUnitTestRunner.executeTest env execution fs).events.countP PipelineEvent.isCompile =
      match env.io.ReadDir (env.io.getTestDir execution) with
      | .error _ => 0
      | .ok _ => 1 := by
  cases h : env.io.ReadDir (env.io.getTestDir execution) with
  | error e => simp [JUnitTestRunner.executeTest, h]
  | ok files =>
    simp only [JUnitTestRunner.executeTest, h]
    split <;> simp [PipelineEvent.isCompile]

theorem XUnitTestRunner_countP_isCompile (env : PipelineEnv) (execution : Execution)
    (fs : FileSystem) :
    (XUnitTestRunner.executeTest env execution fs).events.countP PipelineEvent.isCompile =
      match env.io.ReadDir (env.io.getTestDir execution) with
      | .error _ => 0
      | .ok files =>
        match (XUnitTestRunner.copyTests env execution (env.io.getTestDir execution) files fs).2
          with
        | some _ => 0
        | none => 1 := by
  cases h : env.io.ReadDir (env.io.getTestDir execution) with
  | error e => simp [XUnitTestRunner.executeTest, h]
  | ok files =>
    simp only [XUnitTestRunner.executeTest, h]
    rcases hcopy : XUnitTestRunner.copyTests env execution (env.io.getTestDir execution) files fs
      with ⟨fs', _ | result⟩
    · simp only
      split <;> simp [PipelineEvent.isCompile]
    · simp

theorem TestRunner_countP_isCompile_le (env : PipelineEnv) (t : TestRunner)
    (execution : Execution) (fs : FileSystem) :
    (t.executeTest env execution fs).events.countP PipelineEvent.isCompile ≤ 1 := by
  cases t with
  | JUnitTestRunner =>
    simp only [TestRunner.executeTest, JUnitTestRunner_countP_isCompile]
    split <;> omega
  | XUnitTestRunner =>
    simp only [TestRunner.executeTest, XUnitTestRunner_countP_isCompile]
    split
    · omega
    · split <;> omega
  | _ => simp [TestRunner.executeTest]

theorem TestRunner_countP_isCompile_other (env : PipelineEnv) (testType : TestType)
    (execution : Execution) (fs : FileSystem) (hj : testType ≠ JUnitTest)
    (hx : testType ≠ xUnitTest) :
    ((getRunner testType).executeTest env execution fs).events.countP
      PipelineEvent.isCompile = 0 := by
  unfold getRunner
  simp only [hj, hx, if_false]
  split_ifs <;> simp [TestRunner.executeTest]

theorem runner_events_not_sendCloc (env : PipelineEnv) (t : TestRunner) (execution : Execution)
    (fs : FileSystem) :
    ∀ ev ∈ (t.executeTest env execution fs).events, ¬ PipelineEvent.isSendCloc ev = true := by
  intro ev hmem
  cases t with
  | JUnitTestRunner =>
    simp only [TestRunner.executeTest, JUnitTestRunner.executeTest] at hmem
    split at hmem
    · simp at hmem
    · split at hmem <;>
      · simp only [List.mem_singleton] at hmem
        subst hmem
        simp [PipelineEvent.isSendCloc]
  | XUnitTestRunner =>
    simp only [TestRunner.executeTest, XUnitTestRunner.executeTest] at hmem
    split at hmem
    · simp at hmem
    · split at hmem
      · simp at hmem
      · split at hmem <;>
        · simp only [List.mem_singleton] at hmem
          subst hmem
          simp [PipelineEvent.isSendCloc]
  | _ => simp [TestRunner.executeTest] at hmem
/-- C13, as stated, fails: for a Java job with JUnit tests whose compilation
succeeds, the compile stage calls the Java driver's `compile` and the JUnit
runner calls it again: two calls in the lifetime of the job. -/
theorem jobTrace_junit_compiles_twice :
    (sampleJob JUnitTest).Config.Compiler = JavaCompiler ∧
      (jobTrace samplePipelineEnv (sampleJob JUnitTest) (caseFiles [] [])).countP
        PipelineEvent.isCompile = 2 := by
  decide

/-- C13, amended: the compile stage calls the configured driver's `compile`
exactly once for every job, and a job sees one or two calls in its lifetime.
It sees exactly one when the compilation fails, and whenever the test type is
neither junit nor xunit.  After a successful compilation the junit runner calls
the Java driver's `compile` once more if it can list the test directory, and
the xunit runner the F# driver's if it can list the test directory and copy
every `.fs` file of it: then the job sees two calls. -/
theorem compile_calls_per_job (env : PipelineEnv) (execution : Job) (fs : FileSystem) :
    (compileService env execution fs).2.countP PipelineEvent.isCompile = 1 ∧
      1 ≤ (jobTrace env execution fs).countP PipelineEvent.isCompile ∧
      (jobTrace env execution fs).countP PipelineEvent.isCompile ≤ 2 ∧
      (execution.Config.TestType ≠ JUnitTest → execution.Config.TestType ≠ xUnitTest →
        (jobTrace env execution fs).countP PipelineEvent.isCompile = 1) ∧
      (∀ err, ((compilerProvider execution.Config.Compiler).compile env execution.toExecution
            (env.copyResources execution.toExecution fs)).2 = some err →
        (jobTrace env execution fs).countP PipelineEvent.isCompile = 1) ∧
      (((compilerProvider execution.Config.Compiler).compile env execution.toExecution
            (env.copyResources execution.toExecution fs)).2 = none →
        execution.Config.TestType = JUnitTest →
        ∀ files, env.io.ReadDir (env.io.getTestDir execution.toExecution) = .ok files →
        (jobTrace env execution fs).countP PipelineEvent.isCompile = 2) ∧
      (((compilerProvider execution.Config.Compiler).compile env execution.toExecution
            (env.copyResources execution.toExecution fs)).2 = none →
        execution.Config.TestType = xUnitTest →
        ∀ files, env.io.ReadDir (env.io.getTestDir execution.toExecution) = .ok files →
        (XUnitTestRunner.copyTests env execution.toExecution
          (env.io.getTestDir execution.toExecution) files
          (compileService env execution fs).1).2 = none →
        (jobTrace env execution fs).countP PipelineEvent.isCompile = 2) := by
  have hle := TestRunner_countP_isCompile_le env (getRunner execution.Config.TestType)
    execution.toExecution (compileService env execution fs).1
  have hcount := jobTrace_countP_isCompile env execution fs
  refine ⟨?_, ?_, ?_, ?_, ?_, ?_, ?_⟩
  · cases h : ((compilerProvider execution.Config.Compiler).compile env execution.toExecution
        (env.copyResources execution.toExecution fs)).2 with
    | some err =>
      rw [compileService_of_error env execution fs err h]
      by_cases ha : execution.AnalysisChan = none <;> by_cases hc : execution.ClocChan = none <;>
        simp [ha, hc, PipelineEvent.isCompile]
    | none =>
      rw [compileService_of_success env execution fs h]
      by_cases ha : execution.AnalysisChan = none <;> by_cases hc : execution.ClocChan = none <;>
        simp [ha, hc, PipelineEvent.isCompile]
  · rw [hcount]
    omega
  · rw [hcount]
    split <;> omega
  · intro hj hx
    rw [hcount, TestRunner_countP_isCompile_other env _ _ _ hj hx]
    split <;> rfl
  · intro err h
    simp only [hcount, h]
  · intro h hj files hdir
    have hr : getRunner execution.Config.TestType = .JUnitTestRunner := by
      rw [hj]
      decide
    rw [hcount, h, hr]
    simp only [TestRunner.executeTest, JUnitTestRunner_countP_isCompile, hdir]
  · intro h hx files hdir hcopy
    have hr : getRunner execution.Config.TestType = .XUnitTestRunner := by
      rw [hx]
      decide
    rw [hcount, h, hr]
    simp only [TestRunner.executeTest, XUnitTestRunner_countP_isCompile, hdir, hcopy]

theorem compile_calls_per_job_witness :
    (jobTrace samplePipelineEnv (sampleJob IOTest) (caseFiles [] [])).countP
      PipelineEvent.isCompile = 1 :=
  (compile_calls_per_job samplePipelineEnv (sampleJob IOTest) (caseFiles [] [])).2.2.2.1
    (by decide) (by decide)

/-! ## Writes to the reply channels -/

/-- After a successful compilation of a job with a `ClocChan` the compile stage
has published the job to the metric queue twice, and two metric results are
sent to the `ClocChan` when `metric` returns. -/
theorem compileService_publishes_metric_twice (env : PipelineEnv) (execution : Job)
    (fs : FileSystem) (hc : execution.ClocChan ≠ none)
    (h : ((compilerProvider execution.Config.Compiler).compile env execution.toExecution
      (env.copyResources execution.toExecution fs)).2 = none) :
    (compileService env execution fs).2.countP PipelineEvent.isPublishMetric = 2 ∧
      ∀ v, env.metric execution.toExecution (compileService env execution fs).1 = .done v →
        (jobTrace env execution fs).filter PipelineEvent.isSendCloc =
          [.sendCloc execution.ClocChan v, .sendCloc execution.ClocChan v] := by
  have hev := compileService_of_success env execution fs h
  constructor
  · rw [hev]
    by_cases ha : execution.AnalysisChan = none <;>
      simp [ha, hc, PipelineEvent.isPublishMetric]
  · intro v hv
    unfold jobTrace
    simp only [hev]
    have hm : handleMetricRequest env execution (compileService env execution fs).1 =
        [.sendCloc execution.ClocChan v] := by
      simp only [handleMetricRequest, hv]
    have ht : (handleTestRequest env execution (compileService env execution fs).1).2.filter
        PipelineEvent.isSendCloc = [] := by
      rw [List.filter_eq_nil_iff]
      intro ev hmem
      simp only [handleTestRequest] at hmem
      cases hr : ((getRunner execution.Config.TestType).executeTest env execution.toExecution
          (compileService env execution fs).1).result with
      | panic p =>
        simp only [hr] at hmem
        exact runner_events_not_sendCloc env _ _ _ ev hmem
      | done r =>
        simp only [hr, List.mem_append, List.mem_singleton] at hmem
        rcases hmem with hmem | rfl
        · exact runner_events_not_sendCloc env _ _ _ ev hmem
        · simp [PipelineEvent.isSendCloc]
    by_cases ha : execution.AnalysisChan = none <;>
      simp [ha, hc, PipelineEvent.isSendCloc, handleAnalysisRequest, hm, ht]

/-- C14 at a failing input: the sample job has a `ClocChan` and compiles; the
compile stage publishes it to the metric queue twice, and two metric results
are sent to its `ClocChan`, of which the coordinator reads one. -/
theorem jobTrace_sample_metric_twice :
    (sampleJob IOTest).ClocChan = some 2 ∧
      (compileService samplePipelineEnv (sampleJob IOTest) (caseFiles [] [])).2.countP
        PipelineEvent.isPublishMetric = 2 ∧
      (jobTrace samplePipelineEnv (sampleJob IOTest) (caseFiles [] [])).countP
        PipelineEvent.isSendCloc = 2 := by
  decide

/-! ## The coordinator -/

theorem filepath_Clean_sample :
    filepath.Clean [] = str "." ∧ filepath.Clean (str "a//b/./c/..") = str "a/b" ∧
      filepath.Clean (str "/../a") = str "/a" ∧ filepath.Clean (str "../../a/..") = str "../.." ∧
      filepath.Clean (str "/") = str "/" ∧ filepath.Clean (str "t") = str "t" ∧
      filepath.Join [str "tests", str "."] = str "tests" ∧
      filepath.Join [str "runs/42", []] = str "runs/42" := by
  decide

theorem handleTest_sample_missing :
    handleTest sampleCoordinatorEnv (sampleUpload [str "Other.java"]) =
      [.MkdirAll (str "runs/42"), .MkdirAll (str "runs/42/uploads"),
        .Encode ⟨⟨str "42", false, [], [], [], 0, 0, [str "Main.java"], []⟩, [], []⟩] := by
  rfl

theorem handleTest_sample_illegal :
    handleTest sampleCoordinatorEnv (sampleUpload [str "Main.java", str "Other.java"]) =
      [.MkdirAll (str "runs/42"), .MkdirAll (str "runs/42/uploads"),
        .Encode ⟨⟨str "42", false, [], [], [], 0, 0, [], [str "Other.java"]⟩, [], []⟩] := by
  rfl

theorem filepath_Clean_ne_nil (path : Bytes) : filepath.Clean path ≠ [] := by
  unfold filepath.Clean
  simp only
  split_ifs with h1 h2
  · exact List.cons_ne_nil _ _
  · decide
  · exact h2
theorem foldl_append_if {α : Type} (p : α → Bool) (l : List α) (init : List α) :
    l.foldl (fun acc x => if p x then acc ++ [x] else acc) init = init ++ l.filter p := by
  induction l generalizing init with
  | nil => simp
  | cons a l ih =>
    by_cases ha : p a = true
    · simp [List.foldl_cons, ih, ha]
    · simp [List.foldl_cons, ih, ha]

theorem missingFiles_eq_filter (RequiredFiles files : List Bytes) :
    handleTest.missingFiles RequiredFiles files =
      RequiredFiles.filter (fun required => decide (required ∉ files)) := by
  unfold handleTest.missingFiles
  have h := foldl_append_if (fun required => !(files.any (fun file => required == file)))
    RequiredFiles []
  simp only [List.nil_append] at h
  simp only [Bool.not_eq_true'] at h ⊢
  rw [h]
  apply List.filter_congr
  intro x _
  by_cases hx : x ∈ files
  · have : files.any (fun file => x == file) = true :=
      List.any_eq_true.2 ⟨x, hx, by simp⟩
    simp [this, hx]
  · have : files.any (fun file => x == file) = false := by
      rw [Bool.eq_false_iff]
      intro hany
      obtain ⟨y, hy, hxy⟩ := List.any_eq_true.1 hany
      have : x = y := by simpa using hxy
      exact hx (this ▸ hy)
    simp [this, hx]

theorem illegalFiles_eq_filter (regex : List Regexp) (files : List Bytes) :
    handleTest.illegalFiles regex files =
      files.filter (fun file => !(regex.any (fun re => re file))) := by
  unfold handleTest.illegalFiles
  have h := foldl_append_if (fun file => !(regex.any (fun re => re file))) files []
  simp only [List.nil_append] at h
  exact h

theorem fileNames_of_forall₂ (r : Request) (idx : List Nat) (files : List Bytes)
    (h : List.Forall₂ (fun (i : Nat) name =>
      ∃ header, r.FormFile (str "file" ++ Itoa (Int.ofNat i)) = .ok header ∧
        header.Filename = name) idx files) :
    handleTest.fileNames r idx = .ok files := by
  induction h with
  | nil => rfl
  | cons hhead _ ih =>
    obtain ⟨header, hform, hname⟩ := hhead
    simp only [handleTest.fileNames, Int.ofNat_eq_coe] at hform ⊢
    simp only [hform, ih, hname]

theorem compileAllowed_of_forall₂ (env : CoordinatorEnv) (AllowedFiles : List Bytes)
    (regex : List Regexp)
    (h : List.Forall₂ (fun allowed re => env.regexpCompile allowed = .ok re) AllowedFiles regex) :
    handleTest.compileAllowed env AllowedFiles = .ok regex := by
  induction h with
  | nil => rfl
  | cons hhead _ ih => simp only [handleTest.compileAllowed, hhead, ih]

/-- An accepted request reaches the upload with the two directories made. -/
theorem handleTest_of_accepted (env : CoordinatorEnv) (r : Request) (test : Bytes)
    (testConfig : TestConfig) (hacc : Accepted env r test testConfig) :
    handleTest env r =
      handleTest.upload env r env.NewV4 (filepath.Clean test)
        (env.Join [env.testdataDir, filepath.Clean test])
        (env.Join [env.testrunDir, env.NewV4])
        (env.Join [env.Join [env.testrunDir, env.NewV4], testConfig.UploadsDirectory]) testConfig
        [.MkdirAll (env.Join [env.testrunDir, env.NewV4]),
          .MkdirAll (env.Join [env.Join [env.testrunDir, env.NewV4],
            testConfig.UploadsDirectory])] := by
  obtain ⟨hpost, hkey, htest, hdir, hcfg, hmk⟩ := hacc
  have hopt : ¬ (str "POST" = str "OPTIONS") := by decide
  have hkey' : ¬ (env.apiKey ≠ [] ∧ r.ApiKey ≠ env.apiKey) := by
    rintro ⟨h1, h2⟩
    rcases hkey with h | h
    · exact h1 h
    · exact h2 h
  have hclean : filepath.Clean test ≠ [] := filepath_Clean_ne_nil test
  unfold handleTest
  simp only [hopt, if_false, hpost, ne_eq, not_true_eq_false, hkey', htest, hclean, hdir,
    Bool.not_true, Bool.false_eq_true, hcfg, hmk]

/-- The multi-file branch of the upload up to the file policy. -/
theorem upload_of_multiFile (env : CoordinatorEnv) (r : Request)
    (testid testref testdir rundir uploadFolder : Bytes) (testConfig : TestConfig)
    (events : List ServerEvent) (files : List Bytes) (hup : MultiFile env r files)
    (hpolicy : testConfig.RequiredFiles ≠ [] ∨ testConfig.AllowedFiles ≠ [])
    (reply : List ServerEvent)
    (hreply : (match handleTest.checkRequired testid testConfig files with
      | some reply => some reply
      | none => handleTest.checkAllowed env testid testConfig files) = some reply) :
    handleTest.upload env r testid testref testdir rundir uploadFolder testConfig events =
      events ++ reply := by
  obtain ⟨numfilesStr, numfiles, hstr, hne, hatoi, hpos, hfiles⟩ := hup
  have hlen : numfilesStr.length > 0 := List.length_pos.2 hne
  have hguard : (decide (testConfig.AllowedFiles.length > 0) ||
      decide (testConfig.RequiredFiles.length > 0)) = true := by
    rcases hpolicy with h | h
    · have := List.length_pos.2 h
      simp [this]
    · have := List.length_pos.2 h
      simp [this]
  have hneg : ¬ numfiles < 0 := by omega
  unfold handleTest.upload
  simp only [hstr, hlen, if_true, hatoi, hguard, handleTest.checkFiles, hneg, if_false,
    fileNames_of_forall₂ r _ _ hfiles, hreply]

theorem checkRequired_eq (testid : Bytes) (testConfig : TestConfig) (files : List Bytes) :
    handleTest.checkRequired testid testConfig files =
      if testConfig.RequiredFiles.filter (fun required => decide (required ∉ files)) ≠ [] then
        some [policyReply testid
          (testConfig.RequiredFiles.filter (fun required => decide (required ∉ files))) []]
      else none := by
  unfold handleTest.checkRequired
  simp only [missingFiles_eq_filter]
  by_cases hreq : testConfig.RequiredFiles = []
  · simp [hreq]
  · have hlen : testConfig.RequiredFiles.length > 0 := List.length_pos.2 hreq
    simp only [hlen, if_true]
    by_cases hmiss : testConfig.RequiredFiles.filter (fun required => decide (required ∉ files)) = []
    · rw [hmiss]
      simp
    · have hl : (testConfig.RequiredFiles.filter
          (fun required => decide (required ∉ files))).length > 0 := List.length_pos.2 hmiss
      simp only [hl, if_true, ne_eq, hmiss, not_false_eq_true, returnTestResult, policyReply]

theorem checkAllowed_eq (env : CoordinatorEnv) (testid : Bytes) (testConfig : TestConfig)
    (files : List Bytes) (regex : List Regexp) (hallowed : testConfig.AllowedFiles ≠ [])
    (hregex : List.Forall₂ (fun allowed re => env.regexpCompile allowed = .ok re)
      testConfig.AllowedFiles regex) :
    handleTest.checkAllowed env testid testConfig files =
      if files.filter (fun file => !(regex.any (fun re => re file))) ≠ [] then
        some [policyReply testid []
          (files.filter (fun file => !(regex.any (fun re => re file))))]
      else none := by
  unfold handleTest.checkAllowed
  have hlen : testConfig.AllowedFiles.length > 0 := List.length_pos.2 hallowed
  simp only [hlen, if_true, compileAllowed_of_forall₂ env _ _ hregex, illegalFiles_eq_filter]
  by_cases hill : files.filter (fun file => !(regex.any (fun re => re file))) = []
  · rw [hill]
    simp
  · have hl : (files.filter (fun file => !(regex.any (fun re => re file)))).length > 0 :=
      List.length_pos.2 hill
    simp only [hl, if_true, ne_eq, hill, not_false_eq_true, returnTestResult, policyReply]

/-- C15: for an accepted multi-file submission and a configuration with
`RequiredFiles`, the coordinator computes as missing files the entries of
`RequiredFiles`, in their order, that equal no uploaded file name; when there
is one, all it does after making the two directories is to reply with a result
that is not compiled and carries that list, and the job is not published; when
there is none, the check of the required files produces no reply. -/
theorem handleTest_missing_files (env : CoordinatorEnv) (r : Request) (test : Bytes)
    (testConfig : TestConfig) (files : List Bytes) (hacc : Accepted env r test testConfig)
    (hup : MultiFile env r files) (hreq : testConfig.RequiredFiles ≠ []) :
    handleTest.missingFiles testConfig.RequiredFiles files =
        testConfig.RequiredFiles.filter (fun required => decide (required ∉ files)) ∧
      (testConfig.RequiredFiles.filter (fun required => decide (required ∉ files)) ≠ [] →
        handleTest env r =
          [.MkdirAll (env.Join [env.testrunDir, env.NewV4]),
            .MkdirAll (env.Join [env.Join [env.testrunDir, env.NewV4],
              testConfig.UploadsDirectory]),
            policyReply env.NewV4
              (testConfig.RequiredFiles.filter (fun required => decide (required ∉ files)))
              []]) ∧
      (testConfig.RequiredFiles.filter (fun required => decide (required ∉ files)) = [] →
        handleTest.checkRequired env.NewV4 testConfig files = none) := by
  refine ⟨missingFiles_eq_filter _ _, fun hmiss => ?_, fun hmiss => ?_⟩
  · rw [handleTest_of_accepted env r test testConfig hacc]
    rw [upload_of_multiFile env r _ _ _ _ _ testConfig _ files hup (Or.inl hreq)
      [policyReply env.NewV4
        (testConfig.RequiredFiles.filter (fun required => decide (required ∉ files))) []]]
    · rfl
    · rw [checkRequired_eq]
      simp only [ne_eq, hmiss, not_false_eq_true, if_true]
  · rw [checkRequired_eq]
    simp only [ne_eq, hmiss, not_true_eq_false, if_false]

theorem handleTest_missing_files_witness :
    handleTest sampleCoordinatorEnv (sampleUpload [str "Other.java"]) =
      [.MkdirAll (str "runs/42"), .MkdirAll (str "runs/42/uploads"),
        policyReply (str "42") [str "Main.java"] []] :=
  (handleTest_missing_files sampleCoordinatorEnv (sampleUpload [str "Other.java"]) (str "t")
    samplePolicy [str "Other.java"] ⟨rfl, Or.inr rfl, rfl, rfl, rfl, rfl⟩
    ⟨str "1", 1, rfl, by decide, rfl, by decide,
      List.Forall₂.cons ⟨⟨str "Other.java", .ok (str "class A {}")⟩, rfl, rfl⟩ List.Forall₂.nil⟩
    (by decide)).2.1 (by decide)

/-- C16: for an accepted multi-file submission and a configuration whose
`AllowedFiles` all compile, the coordinator, when no required file is missing,
computes as illegal files the uploaded names, in upload order, that none of the
expressions matches; when there is one, all it does after making the two
directories is to reply with a result that is not compiled and carries that
list, and the job is not published.  When a required file is missing, the
reply carries the missing files and no illegal file. -/
theorem handleTest_illegal_files (env : CoordinatorEnv) (r : Request) (test : Bytes)
    (testConfig : TestConfig) (files : List Bytes) (regex : List Regexp)
    (hacc : Accepted env r test testConfig) (hup : MultiFile env r files)
    (hallowed : testConfig.AllowedFiles ≠ [])
    (hregex : List.Forall₂ (fun allowed re => env.regexpCompile allowed = .ok re)
      testConfig.AllowedFiles regex) :
    handleTest.illegalFiles regex files =
        files.filter (fun file => !(regex.any (fun re => re file))) ∧
      (testConfig.RequiredFiles.filter (fun required => decide (required ∉ files)) = [] →
        files.filter (fun file => !(regex.any (fun re => re file))) ≠ [] →
        handleTest env r =
          [.MkdirAll (env.Join [env.testrunDir, env.NewV4]),
            .MkdirAll (env.Join [env.Join [env.testrunDir, env.NewV4],
              testConfig.UploadsDirectory]),
            policyReply env.NewV4 []
              (files.filter (fun file => !(regex.any (fun re => re file))))]) ∧
      (testConfig.RequiredFiles.filter (fun required => decide (required ∉ files)) ≠ [] →
        handleTest env r =
          [.MkdirAll (env.Join [env.testrunDir, env.NewV4]),
            .MkdirAll (env.Join [env.Join [env.testrunDir, env.NewV4],
              testConfig.UploadsDirectory]),
            policyReply env.NewV4
              (testConfig.RequiredFiles.filter (fun required => decide (required ∉ files)))
              []]) := by
  refine ⟨illegalFiles_eq_filter _ _, fun hmiss hill => ?_, fun hmiss => ?_⟩
  · rw [handleTest_of_accepted env r test testConfig hacc]
    rw [upload_of_multiFile env r _ _ _ _ _ testConfig _ files hup (Or.inr hallowed)
      [policyReply env.NewV4 [] (files.filter (fun file => !(regex.any (fun re => re file))))]]
    · rfl
    · rw [checkRequired_eq, checkAllowed_eq env _ _ _ regex hallowed hregex]
      simp only [ne_eq, hmiss, not_true_eq_false, if_false, hill, not_false_eq_true, if_true]
  · rw [handleTest_of_accepted env r test testConfig hacc]
    rw [upload_of_multiFile env r _ _ _ _ _ testConfig _ files hup (Or.inr hallowed)
      [policyReply env.NewV4
        (testConfig.RequiredFiles.filter (fun required => decide (required ∉ files))) []]]
    · rfl
    · rw [checkRequired_eq]
      simp only [ne_eq, hmiss, not_false_eq_true, if_true]

theorem handleTest_illegal_files_witness :
    handleTest sampleCoordinatorEnv (sampleUpload [str "Main.java", str "Other.java"]) =
      [.MkdirAll (str "runs/42"), .MkdirAll (str "runs/42/uploads"),
        policyReply (str "42") [] [str "Other.java"]] :=
  (handleTest_illegal_files sampleCoordinatorEnv
    (sampleUpload [str "Main.java", str "Other.java"]) (str "t") samplePolicy
    [str "Main.java", str "Other.java"] [fun name => name == str "Main.java"]
    ⟨rfl, Or.inr rfl, rfl, rfl, rfl, rfl⟩
    ⟨str "2", 2, rfl, by decide, rfl, by decide,
      List.Forall₂.cons ⟨⟨str "Main.java", .ok (str "class A {}")⟩, rfl, rfl⟩
        (List.Forall₂.cons ⟨⟨str "Other.java", .ok (str "class A {}")⟩, rfl, rfl⟩
          List.Forall₂.nil)⟩
    (by decide) (List.Forall₂.cons rfl List.Forall₂.nil)).2.1 (by decide) (by decide)

/-- C17 at a failing input: `Other.java` breaks the sample policy, which requires
and allows `Main.java` only.  Sent as `file0` with `numfiles` it is rejected
with the missing file; sent as `code` and `filename` it is written to the
uploads directory, the job is published to the compile queue, and the results
the coordinator encodes name no missing and no illegal file. -/
theorem handleTest_code_upload_skips_policy :
    handleTest sampleCoordinatorEnv (sampleUpload [str "Other.java"]) =
        [.MkdirAll (str "runs/42"), .MkdirAll (str "runs/42/uploads"),
          policyReply (str "42") [str "Main.java"] []] ∧
      (handleTest sampleCoordinatorEnv (sampleCodeUpload (str "Other.java"))).take 3 =
        [.MkdirAll (str "runs/42"), .MkdirAll (str "runs/42/uploads"),
          .WriteFile (str "runs/42/uploads/Other.java") (str "class A {}")] ∧
      (handleTest sampleCoordinatorEnv (sampleCodeUpload (str "Other.java"))).countP
        ServerEvent.isPublishCompile = 1 ∧
      (handleTest sampleCoordinatorEnv (sampleCodeUpload (str "Other.java"))).filter
        ServerEvent.isEncode =
        [.Encode ⟨⟨str "42", true, [], [], [⟨str "t1", true, [], [], []⟩], 1, 0, [], []⟩, [], []⟩,
          .Encode ⟨⟨str "42", true, [], [], [⟨str "t1", true, [], [], []⟩], 1, 0, [], []⟩, [],
            [⟨str "Main.java", str "1", str "10"⟩]⟩] :=
  ⟨rfl, rfl, rfl, rfl⟩

theorem upload_append (env : CoordinatorEnv) (r : Request)
    (testid testref testdir rundir uploadFolder : Bytes) (testConfig : TestConfig)
    (events : List ServerEvent) :
    ∃ rest, handleTest.upload env r testid testref testdir rundir uploadFolder testConfig events =
      events ++ rest := by
  simp only [handleTest.upload]
  repeat' first
    | exact ⟨_, rfl⟩
    | exact ⟨_, List.append_assoc _ _ _⟩
    | split

/-- C18, as the code stands: for a `POST` request with the right key whose field
`test` is missing or empty, `filepath.Clean` turns the empty reference into `.`,
so the test for the empty reference never holds: the handler goes on with the
test data directory itself as the test directory, answers `404` with "Test not
found!" when that is no directory, and in no case starts its answer with the
status `400`. -/
theorem handleTest_missing_test_not_400 (env : CoordinatorEnv) (r : Request)
    (hpost : r.Method = str "POST") (hkey : env.apiKey = [] ∨ r.ApiKey = env.apiKey)
    (htest : FormValueFlexible r (str "test") = .done []) :
    (env.isDir (env.Join [env.testdataDir, str "."]) = false →
        handleTest env r = [.WriteHeader 404, .Write (str "Test not found!\n")]) ∧
      (handleTest env r).head? ≠ some (.WriteHeader 400) := by
  have hopt : ¬ (str "POST" = str "OPTIONS") := by decide
  have hkey' : ¬ (env.apiKey ≠ [] ∧ r.ApiKey ≠ env.apiKey) := by
    rintro ⟨h1, h2⟩
    rcases hkey with h | h
    · exact h1 h
    · exact h2 h
  have hclean : filepath.Clean [] = str "." := by decide
  have hdot : ¬ (str "." = ([] : Bytes)) := by decide
  constructor
  · intro hdir
    unfold handleTest
    simp only [hopt, if_false, hpost, ne_eq, not_true_eq_false, hkey', htest, hclean, hdot, hdir,
      Bool.not_false, if_true]
  · unfold handleTest
    simp only [hopt, if_false, hpost, ne_eq, not_true_eq_false, hkey', htest, hclean, hdot]
    split
    · simp
    · split
      · simp
      · simp
      · split
        · simp
        · obtain ⟨rest, hrest⟩ := upload_append env r env.NewV4 (str ".")
            (env.Join [env.testdataDir, str "."]) (env.Join [env.testrunDir, env.NewV4])
            (env.Join [env.Join [env.testrunDir, env.NewV4],
              (by assumption : TestConfig).UploadsDirectory]) (by assumption)
            [.MkdirAll (env.Join [env.testrunDir, env.NewV4]),
              .MkdirAll (env.Join [env.Join [env.testrunDir, env.NewV4],
                (by assumption : TestConfig).UploadsDirectory])]
          rw [hrest]
          simp

theorem handleTest_missing_test_not_400_witness :
    (handleTest sampleCoordinatorEnv sampleNoTest).head? ≠ some (.WriteHeader 400) :=
  (handleTest_missing_test_not_400 sampleCoordinatorEnv sampleNoTest rfl (Or.inr rfl) rfl).2

/-- The request without a field `test` in the sample environment: the test data
directory is taken for the test directory, and the answer is `404` for its
missing `config.json`. -/
theorem handleTest_missing_test_sample :
    handleTest sampleCoordinatorEnv sampleNoTest =
      [.WriteHeader 404, .Write (str "Config for test not found: tests\n")] := by
  rfl

/-- When the three replies arrive, the end of `handleTest` encodes the result
twice: without the metric results, then with them. -/
theorem schedule_encodes_twice (env : CoordinatorEnv) (testid testref testdir rundir : Bytes)
    (testConfig : TestConfig) (testResult : TestResult) (clocResults : List ClocResult)
    (hrules : (env.fileExists (env.Join [testdir, str "pmd.xml"]) ||
      env.fileExists (env.Join [testdir, str "checkstyle.xml"])) = false)
    (hres : (env.replies
      { ID := testid, RunDir := rundir, TestDir := testdir, Test := testref, Config := testConfig,
        ResChan := some 0, ClocChan := some 1, AnalysisChan := none }).TestResult =
      some testResult)
    (hcloc : (env.replies
      { ID := testid, RunDir := rundir, TestDir := testdir, Test := testref, Config := testConfig,
        ResChan := some 0, ClocChan := some 1, AnalysisChan := none }).ClocResults =
      some clocResults) :
    (handleTest.schedule env testid testref testdir rundir testConfig).filter
        ServerEvent.isEncode =
      [.Encode { TestResult := testResult, FileWarnings := [], ClocResults := [] },
        .Encode { TestResult := testResult, FileWarnings := [], ClocResults := clocResults }] := by
  unfold handleTest.schedule
  simp only [hrules, Bool.false_eq_true, if_false, hres, hcloc]
  simp [ServerEvent.isEncode]

/-- C19 at a failing input: for the sample submission of `Main.java`, which is
accepted and scheduled, `handleTest` encodes two JSON documents to the
response: the first holds the test result and no metric result, the second the
test result and the metric result. -/
theorem handleTest_encodes_twice_sample :
    (handleTest sampleCoordinatorEnv (sampleUpload [str "Main.java"])).countP
        ServerEvent.isPublishCompile = 1 ∧
      (handleTest sampleCoordinatorEnv (sampleUpload [str "Main.java"])).filter
        ServerEvent.isEncode =
        [.Encode ⟨⟨str "42", true, [], [], [⟨str "t1", true, [], [], []⟩], 1, 0, [], []⟩, [], []⟩,
          .Encode ⟨⟨str "42", true, [], [], [⟨str "t1", true, [], [], []⟩], 1, 0, [], []⟩, [],
            [⟨str "Main.java", str "1", str "10"⟩]⟩] :=
  ⟨rfl, rfl⟩

/-! ## The counters of the I/O-diff runner -/

/-- The facts about one case that the counters of the loop rest on: the name is
the entry name without its last eight bytes, `numFailed` is incremented exactly
when `Success` is `false`, and a passed case has no `Error`. -/
theorem executeCase_outcome (env : IOTestEnv) (execution : Execution) (testDir : Bytes)
    (fs : FileSystem) (fName : Bytes) :
    (IOTestRunner.executeCase env execution testDir fs fName).test.Name =
        fName.take (fName.length - 8) ∧
      (IOTestRunner.executeCase env execution testDir fs fName).failed =
        !(IOTestRunner.executeCase env execution testDir fs fName).test.Success ∧
      ((IOTestRunner.executeCase env execution testDir fs fName).test.Success = true →
        (IOTestRunner.executeCase env execution testDir fs fName).test.Error = []) := by
  unfold IOTestRunner.executeCase
  simp only []
  repeat' first | exact ⟨rfl, rfl, fun _ => rfl⟩ | exact ⟨rfl, rfl, fun h => absurd h (by simp)⟩ | split

/-- The loop of `IOTestRunner.executeTest` from any state: the tests it appends,
one for each regular entry whose name ends in `.out.txt`, and the two counters. -/
theorem executeTest_loop (env : IOTestEnv) (execution : Execution) (testDir : Bytes)
    (g : IOLoopState → DirEntry → IOLoopState)
    (hg : ∀ st f, g st f =
      if !f.IsDir && strings.HasSuffix f.Name (str ".out.txt") then
        { fs := (IOTestRunner.executeCase env execution testDir st.fs f.Name).fs,
          numTests := st.numTests + 1,
          numFailed :=
            if (IOTestRunner.executeCase env execution testDir st.fs f.Name).failed then
              st.numFailed + 1
            else st.numFailed,
          tests := st.tests ++ [(IOTestRunner.executeCase env execution testDir st.fs f.Name).test] }
      else st)
    (files : List DirEntry) (st : IOLoopState) :
    ∃ added : List Test,
      (files.foldl g st).tests = st.tests ++ added ∧
      added.map (fun t => t.Name) =
        (files.filter (fun f => !f.IsDir && strings.HasSuffix f.Name (str ".out.txt"))).map
          (fun f => f.Name.take (f.Name.length - 8)) ∧
      (files.foldl g st).numTests = st.numTests + added.length ∧
      (files.foldl g st).numFailed =
        st.numFailed + (added.filter (fun t => !t.Success)).length ∧
      ∀ t ∈ added, t.Success = true → t.Error = [] := by
  induction files generalizing st with
  | nil => exact ⟨[], by simp⟩
  | cons f files ih =>
    obtain ⟨added, h1, h2, h3, h4, h5⟩ := ih (g st f)
    rw [List.foldl_cons]
    by_cases hf : (!f.IsDir && strings.HasSuffix f.Name (str ".out.txt")) = true
    · obtain ⟨hname, hfailed, herr⟩ := executeCase_outcome env execution testDir st.fs f.Name
      have hstep := hg st f
      rw [if_pos hf] at hstep
      refine ⟨(IOTestRunner.executeCase env execution testDir st.fs f.Name).test :: added,
        ?_, ?_, ?_, ?_, ?_⟩
      · rw [h1, hstep]; simp
      · simp only [List.filter_cons, hf, if_true, List.map_cons, hname, h2]
      · rw [h3, hstep]; simp only [List.length_cons]; push_cast; ring
      · rw [h4, hstep, hfailed]
        cases hs : (IOTestRunner.executeCase env execution testDir st.fs f.Name).test.Success
        · simp [hs]; ring
        · simp [hs]
      · intro t ht
        rcases List.mem_cons.mp ht with rfl | ht
        · exact herr
        · exact h5 t ht
    · have hstep := hg st f
      rw [if_neg hf] at hstep
      refine ⟨added, ?_, ?_, h3.trans (by rw [hstep]), h4.trans (by rw [hstep]), h5⟩
      · rw [h1, hstep]
      · simp only [List.filter_cons, hf, h2]; simp

/-- C30: when the test directory can be listed, the result of
`IOTestRunner.executeTest` has `TestsExecuted` equal to the number of regular
entries whose name ends in `.out.txt` and to the number of `Tests`; the names
of the `Tests` are the names of these entries without the suffix, in listing
order; `TestsFailed` is the number of `Tests` whose `Success` is `false`, hence
at most `TestsExecuted`; and every test that passed has an empty `Error`. -/
theorem IOTestRunner_executeTest_counters (env : IOTestEnv) (execution : Execution)
    (fs : FileSystem) (files : List DirEntry)
    (hread : env.ReadDir (env.getTestDir execution) = .ok files) :
    (IOTestRunner.executeTest env execution fs).TestsExecuted =
        ((files.filter
          (fun f => !f.IsDir && strings.HasSuffix f.Name (str ".out.txt"))).length : Int) ∧
      (IOTestRunner.executeTest env execution fs).TestsExecuted =
        ((IOTestRunner.executeTest env execution fs).Tests.length : Int) ∧
      (IOTestRunner.executeTest env execution fs).Tests.map (fun t => t.Name) =
        (files.filter (fun f => !f.IsDir && strings.HasSuffix f.Name (str ".out.txt"))).map
          (fun f => f.Name.take (f.Name.length - 8)) ∧
      (IOTestRunner.executeTest env execution fs).TestsFailed =
        (((IOTestRunner.executeTest env execution fs).Tests.filter
          (fun t => !t.Success)).length : Int) ∧
      (IOTestRunner.executeTest env execution fs).TestsFailed ≤
        (IOTestRunner.executeTest env execution fs).TestsExecuted ∧
      ∀ t ∈ (IOTestRunner.executeTest env execution fs).Tests,
        t.Success = true → t.Error = [] := by
  obtain ⟨added, h1, h2, h3, h4, h5⟩ :=
    executeTest_loop env execution (env.getTestDir execution) _ (fun _ _ => rfl) files
      { fs := fs, numTests := 0, numFailed := 0, tests := [] }
  have hlen : added.length =
      (files.filter (fun f => !f.IsDir && strings.HasSuffix f.Name (str ".out.txt"))).length := by
    have := congrArg List.length h2
    simpa using this
  simp only [List.nil_append, zero_add] at h1 h3 h4
  simp only [IOTestRunner.executeTest, hread]
  refine ⟨?_, ?_, ?_, ?_, ?_, ?_⟩
  · rw [h3, hlen]
  · rw [h3, h1]
  · rw [h1, h2]
  · rw [h4, h1]
  · rw [h4, h3]
    exact_mod_cast List.length_filter_le _ _
  · rw [h1]; exact h5

/-- C30 at the sample test: one entry, one passed case. -/
theorem IOTestRunner_executeTest_counters_witness :
    (IOTestRunner.executeTest sampleIOEnv sampleExecution (caseFiles (str "a") (str "a"))).TestsExecuted =
        (([({ Name := str "t1.out.txt", IsDir := false } : DirEntry)].filter
          (fun f => !f.IsDir && strings.HasSuffix f.Name (str ".out.txt"))).length : Int) ∧
      (IOTestRunner.executeTest sampleIOEnv sampleExecution (caseFiles (str "a") (str "a"))).TestsFailed ≤
        (IOTestRunner.executeTest sampleIOEnv sampleExecution (caseFiles (str "a") (str "a"))).TestsExecuted :=
  have h := IOTestRunner_executeTest_counters sampleIOEnv sampleExecution
    (caseFiles (str "a") (str "a")) [{ Name := str "t1.out.txt", IsDir := false }] rfl
  ⟨h.1, h.2.2.2.2.1⟩

/-! ## The sandboxed run of a program -/

/-- A run of `executeProgram` that was killed returns the error `Timeout`. -/
theorem executeProgram_killed (env : SandboxEnv) (execution : Execution)
    (inFile paramFile outFile errFile : Bytes) (dockerArgs : List Bytes) (dockerImage : Bytes)
    (command : List Bytes) (fs : FileSystem) (cmd : Cmd) (msg : Bytes)
    (h : (executeProgram env execution inFile paramFile outFile errFile dockerArgs dockerImage
      command fs).started = some (cmd, some (.ExitError (-1) msg))) :
    (executeProgram env execution inFile paramFile outFile errFile dockerArgs dockerImage
      command fs).err = some (str "Timeout") := by
  unfold executeProgram at h ⊢
  simp only [] at h ⊢
  split
  · rename_i heq; rw [heq] at h; simp at h
  · rename_i args heq
    rw [heq] at h
    simp only [] at h ⊢
    split
    · rename_i heq2; rw [heq2] at h; simp at h
    · rename_i stdin heq2
      rw [heq2] at h
      simp only [] at h ⊢
      split
      · rename_i heq3; rw [heq3] at h; simp at h
      · rename_i fs1 heq3
        rw [heq3] at h
        simp only [] at h ⊢
        split
        · rename_i heq4; rw [heq4] at h; simp at h
        · rename_i fs2 heq4
          rw [heq4] at h
          simp only [Option.some.injEq, Prod.mk.injEq] at h ⊢
          rw [h.2]
          simp
theorem executeJava_killed (env : SandboxEnv) (execution : Execution)
    (inFile paramFile outFile errFile : Bytes) (fs : FileSystem) (cmd : Cmd) (msg : Bytes)
    (h : (executeJava env execution inFile paramFile outFile errFile fs).started =
      some (cmd, some (.ExitError (-1) msg))) :
    (executeJava env execution inFile paramFile outFile errFile fs).err =
      some (str "Timeout") := by
  unfold executeJava at h ⊢
  cases h1 : env.Abs (env.Join [execution.TestDir, libDir]) with
  | error e => simp [h1] at h
  | ok absLibPath =>
    simp only [h1] at h ⊢
    cases h2 : env.Abs (env.Join [execution.RunDir, execution.Config.MainIs ++ str ".class"]) with
    | error e => simp [h2] at h
    | ok absMainFile =>
      simp only [h2] at h ⊢
      cases h3 : env.Stat absMainFile fs with
      | error e => simp [h3] at h
      | ok b =>
        cases b
        · simp only [h3] at h ⊢
          exact executeProgram_killed _ _ _ _ _ _ _ _ _ _ _ _ h
        · simp [h3] at h

theorem executePython_killed (env : SandboxEnv) (execution : Execution)
    (inFile paramFile outFile errFile : Bytes) (fs : FileSystem) (cmd : Cmd) (msg : Bytes)
    (h : (executePython env execution inFile paramFile outFile errFile fs).started =
      some (cmd, some (.ExitError (-1) msg))) :
    (executePython env execution inFile paramFile outFile errFile fs).err =
      some (str "Timeout") := by
  unfold executePython at h ⊢
  cases h1 : env.ReadDir execution.RunDir fs with
  | error e => simp [h1] at h
  | ok files =>
    simp only [h1] at h ⊢
    generalize (if execution.Config.MainIs.length > 0 then execution.Config.MainIs
      else files.foldl (fun mainFile f =>
        if strings.HasSuffix f.Name (str ".py") then f.Name else mainFile) []) = mainFile at h ⊢
    by_cases hm : execution.Config.MainIs.length = 0 ∧ mainFile.length = 0
    · rw [if_pos hm] at h; simp at h
    · simp only [if_neg hm] at h ⊢
      cases h2 : env.Abs (env.Join [execution.RunDir, mainFile]) with
      | error e => simp [h2] at h
      | ok absMainFile =>
        simp only [h2] at h ⊢
        cases h3 : env.Stat absMainFile fs with
        | error e => simp [h3] at h
        | ok b =>
          cases b
          · simp only [h3] at h ⊢
            exact executeProgram_killed _ _ _ _ _ _ _ _ _ _ _ _ h
          · simp [h3] at h

/-- A killed run of one of the three drivers returns the error `Timeout`. -/
theorem programRun_killed (env : SandboxEnv) (execution : Execution) (fs : FileSystem)
    (fName : Bytes) (run : ProgramRun) (cmd : Cmd) (msg : Bytes)
    (hrun : IOTestRunner.programRun env execution fs fName = some run)
    (hkill : run.started = some (cmd, some (.ExitError (-1) msg))) :
    run.err = some (str "Timeout") := by
  unfold IOTestRunner.programRun at hrun
  simp only [] at hrun
  split_ifs at hrun
  · simp only [Option.some.injEq] at hrun
    subst hrun
    exact executeJava_killed _ _ _ _ _ _ _ _ _ hkill
  · simp only [Option.some.injEq] at hrun
    subst hrun
    exact executeProgram_killed _ _ _ _ _ _ _ _ _ _ _ _ hkill
  · simp only [Option.some.injEq] at hrun
    subst hrun
    exact executePython_killed _ _ _ _ _ _ _ _ _ hkill

/-- The `switch` of the runner over the sandboxed drivers returns what the
program run leaves. -/
theorem execute_sandboxedRunnerEnv (io : IOTestEnv) (env : SandboxEnv) (execution : Execution)
    (fs : FileSystem) (fName : Bytes) (run : ProgramRun)
    (hrun : IOTestRunner.programRun env execution fs fName = some run) :
    IOTestRunner.execute (sandboxedRunnerEnv io env) execution
      (fName.take (fName.length - 8) ++ str ".in.txt")
      (fName.take (fName.length - 8) ++ str ".param.txt")
      (fName.take (fName.length - 8) ++ str ".out.txt")
      (fName.take (fName.length - 8) ++ str ".err.txt") fs = (run.fs, run.err) := by
  unfold IOTestRunner.programRun at hrun
  unfold IOTestRunner.execute sandboxedRunnerEnv
  simp only [] at hrun ⊢
  split_ifs at hrun ⊢ <;> simp only [Option.some.injEq] at hrun
  · subst hrun; rfl
  · subst hrun; rfl
  · subst hrun; rfl

/-- A case whose program run returns the error `execErr`: the test fails and is
counted, its `Error` describes the input, and the error text and the captured
standard error follow the captured standard output in its `Output`. -/
theorem executeCase_of_execErr (env : IOTestEnv) (execution : Execution)
    (testDir : Bytes) (fs : FileSystem) (fName : Bytes) (fs' : FileSystem) (execErr : Bytes)
    (hrun : IOTestRunner.execute env execution
      (fName.take (fName.length - 8) ++ str ".in.txt")
      (fName.take (fName.length - 8) ++ str ".param.txt")
      (fName.take (fName.length - 8) ++ str ".out.txt")
      (fName.take (fName.length - 8) ++ str ".err.txt") fs = (fs', some execErr)) :
    (IOTestRunner.executeCase env execution testDir fs fName).test.Success = false ∧
      (IOTestRunner.executeCase env execution testDir fs fName).failed = true ∧
      (IOTestRunner.executeCase env execution testDir fs fName).test.Error =
        str "Error for the following input" ++
          (fs' (env.Join [testDir, fName.take (fName.length - 8) ++ str ".param.txt"])).toOption.elim
            [] (fun paramBytes => str " with parameters '" ++ paramBytes ++ str "'") ++
          str ":\n" ++
          ((readFile fs'
            (env.Join [testDir, fName.take (fName.length - 8) ++ str ".in.txt"])).toOption.getD
            (str "No input")) ∧
      (IOTestRunner.executeCase env execution testDir fs fName).test.Output =
        (readFile fs' (env.Join [execution.RunDir,
          fName.take (fName.length - 8) ++ str ".out.txt"])).toOption.getD [] ++
        (str "\n\n\n" ++ execErr ++ str "\n" ++
          (readFile fs' (env.Join [execution.RunDir,
            fName.take (fName.length - 8) ++ str ".err.txt"])).toOption.getD [] ++ str "\n") := by
  unfold IOTestRunner.executeCase
  simp only [hrun]
  refine ⟨by trivial, by trivial, ?_, ?_⟩
  · cases fs' (env.Join [testDir, fName.take (fName.length - 8) ++ str ".param.txt"]) <;>
      cases readFile fs' (env.Join [testDir, fName.take (fName.length - 8) ++ str ".in.txt"]) <;>
      rfl
  · cases readFile fs' (env.Join [execution.RunDir,
        fName.take (fName.length - 8) ++ str ".out.txt"]) <;>
      cases readFile fs' (env.Join [execution.RunDir,
        fName.take (fName.length - 8) ++ str ".err.txt"]) <;>
      simp [Except.toOption]
/-- C21, as stated, fails: at the sample test the run of case `t1` is killed,
and the recorded test has the description of the input as its `Error`, not
`Timeout`; the word is in its `Output`. -/
theorem executeCase_killed_Error_not_Timeout :
    (∃ run cmd msg,
        IOTestRunner.programRun killedSandboxEnv sampleCExecution (caseFiles (str "a") [])
          (str "t1.out.txt") = some run ∧
        run.started = some (cmd, some (.ExitError (-1) msg))) ∧
      (IOTestRunner.executeCase (sandboxedRunnerEnv sampleIOEnv killedSandboxEnv) sampleCExecution
          (str "tests/t") (caseFiles (str "a") []) (str "t1.out.txt")).test =
        ⟨str "t1", false, str "Error for the following input:\nNo input", str "a",
          str "\n\n\nTimeout\n\n"⟩ ∧
      (IOTestRunner.executeCase (sandboxedRunnerEnv sampleIOEnv killedSandboxEnv) sampleCExecution
          (str "tests/t") (caseFiles (str "a") []) (str "t1.out.txt")).test.Error ≠
        str "Timeout" :=
  ⟨⟨_, _, _, rfl, rfl⟩, by decide, by decide⟩

/-- C21, amended: in the I/O-diff runner, when the program run of a case is
killed (`cmd.Run` returns an exit error with exit status `-1`), the recorded
test has `Success = false` and the case is counted as failed; its `Error` is
the description of the input, and its `Output` is the captured standard output
followed by three newlines, `Timeout`, a newline, the captured standard error
and a newline. -/
theorem executeCase_killed (io : IOTestEnv) (env : SandboxEnv) (execution : Execution)
    (testDir : Bytes) (fs : FileSystem) (fName : Bytes) (run : ProgramRun) (cmd : Cmd)
    (msg : Bytes)
    (hrun : IOTestRunner.programRun env execution fs fName = some run)
    (hkill : run.started = some (cmd, some (.ExitError (-1) msg))) :
    (IOTestRunner.executeCase (sandboxedRunnerEnv io env) execution testDir fs fName).test.Success =
        false ∧
      (IOTestRunner.executeCase (sandboxedRunnerEnv io env) execution testDir fs fName).failed = true ∧
      (IOTestRunner.executeCase (sandboxedRunnerEnv io env) execution testDir fs fName).test.Error =
        str "Error for the following input" ++
          (run.fs ((sandboxedRunnerEnv io env).Join
            [testDir, fName.take (fName.length - 8) ++ str ".param.txt"])).toOption.elim
            [] (fun paramBytes => str " with parameters '" ++ paramBytes ++ str "'") ++
          str ":\n" ++
          ((readFile run.fs ((sandboxedRunnerEnv io env).Join
            [testDir, fName.take (fName.length - 8) ++ str ".in.txt"])).toOption.getD
            (str "No input")) ∧
      (IOTestRunner.executeCase (sandboxedRunnerEnv io env) execution testDir fs fName).test.Output =
        (readFile run.fs ((sandboxedRunnerEnv io env).Join [execution.RunDir,
          fName.take (fName.length - 8) ++ str ".out.txt"])).toOption.getD [] ++
        (str "\n\n\n" ++ str "Timeout" ++ str "\n" ++
          (readFile run.fs ((sandboxedRunnerEnv io env).Join [execution.RunDir,
            fName.take (fName.length - 8) ++ str ".err.txt"])).toOption.getD [] ++ str "\n") := by
  have herr := programRun_killed env execution fs fName run cmd msg hrun hkill
  have hexec := execute_sandboxedRunnerEnv io env execution fs fName run hrun
  rw [herr] at hexec
  exact executeCase_of_execErr (sandboxedRunnerEnv io env) execution testDir fs fName run.fs
    (str "Timeout") hexec

/-- C21, amended, at the sample test. -/
theorem executeCase_killed_witness :
    (IOTestRunner.executeCase (sandboxedRunnerEnv sampleIOEnv killedSandboxEnv) sampleCExecution
        (str "tests/t") (caseFiles (str "a") []) (str "t1.out.txt")).test.Success = false ∧
      (IOTestRunner.executeCase (sandboxedRunnerEnv sampleIOEnv killedSandboxEnv) sampleCExecution
        (str "tests/t") (caseFiles (str "a") []) (str "t1.out.txt")).failed = true :=
  have h := executeCase_killed sampleIOEnv killedSandboxEnv sampleCExecution (str "tests/t")
    (caseFiles (str "a") []) (str "t1.out.txt") _ _ _ rfl rfl
  ⟨h.1, h.2.1⟩

/-! ## The parameters of a case -/

theorem strings_Split_ne_nil (s : Bytes) (sep : UInt8) : strings.Split s sep ≠ [] := by
  induction s with
  | nil => simp [strings.Split]
  | cons c rest ih =>
    unfold strings.Split
    split
    · simp
    · split <;> simp

theorem strings_Join_cons_cons (a b : Bytes) (l : List Bytes) (sep : Bytes) :
    strings.Join (a :: b :: l) sep = a ++ sep ++ strings.Join (b :: l) sep := by
  simp [strings.Join, List.intersperse]

/-- Joining the pieces of `strings.Split` with the separator gives the string back. -/
theorem strings_Join_Split (s : Bytes) (sep : UInt8) :
    strings.Join (strings.Split s sep) [sep] = s := by
  induction s with
  | nil => simp [strings.Split, strings.Join]
  | cons c rest ih =>
    unfold strings.Split
    cases hsplit : strings.Split rest sep with
    | nil => exact absurd hsplit (strings_Split_ne_nil rest sep)
    | cons hd tl =>
      rw [hsplit] at ih
      by_cases hc : (c == sep) = true
      · rw [if_pos hc, strings_Join_cons_cons, ih]
        have : c = sep := by simpa using hc
        simp [this]
      · rw [if_neg hc]
        simp only []
        cases tl with
        | nil =>
          simp only [strings.Join, List.intersperse, List.flatten_cons, List.flatten_nil,
            List.append_nil] at ih ⊢
          rw [← ih]
        | cons b l =>
          rw [strings_Join_cons_cons] at ih ⊢
          rw [← ih]
          simp

/-- No piece of `strings.Split` holds the separator. -/
theorem strings_Split_no_sep (s : Bytes) (sep : UInt8) :
    ∀ a ∈ strings.Split s sep, sep ∉ a := by
  induction s with
  | nil => simp [strings.Split]
  | cons c rest ih =>
    unfold strings.Split
    cases hsplit : strings.Split rest sep with
    | nil => exact absurd hsplit (strings_Split_ne_nil rest sep)
    | cons hd tl =>
      rw [hsplit] at ih
      by_cases hc : (c == sep) = true
      · rw [if_pos hc]
        intro a ha
        rcases List.mem_cons.mp ha with rfl | ha
        · simp
        · exact ih a ha
      · rw [if_neg hc]
        simp only []
        intro a ha
        rcases List.mem_cons.mp ha with rfl | ha
        · intro hmem
          rcases List.mem_cons.mp hmem with h | h
          · exact hc (by simp [h])
          · exact ih hd (List.mem_cons_self _ _) h
        · exact ih a (List.mem_cons_of_mem _ ha)

/-- There is one piece more than there are separators. -/
theorem strings_Split_length (s : Bytes) (sep : UInt8) :
    (strings.Split s sep).length = s.count sep + 1 := by
  induction s with
  | nil => simp [strings.Split]
  | cons c rest ih =>
    unfold strings.Split
    cases hsplit : strings.Split rest sep with
    | nil => exact absurd hsplit (strings_Split_ne_nil rest sep)
    | cons hd tl =>
      rw [hsplit] at ih
      by_cases hc : (c == sep) = true
      · rw [if_pos hc]
        have : c = sep := by simpa using hc
        subst this
        simp only [List.length_cons, List.count_cons_self] at ih ⊢
        omega
      · rw [if_neg hc]
        have hne : ¬ (c = sep) := by simpa using hc
        simp only [List.length_cons] at ih ⊢
        rw [List.count_cons_of_ne (fun h => hne h.symm)]
        exact ih

/-- What `strings.Trim` removes: a run of bytes of the cutset at each end, up
to a byte that is not in the cutset. -/
theorem strings_Trim_spec (s cutset : Bytes) :
    ∃ pre post, s = pre ++ strings.Trim s cutset ++ post ∧
      (∀ c ∈ pre, c ∈ cutset) ∧ (∀ c ∈ post, c ∈ cutset) ∧
      (∀ c, (strings.Trim s cutset).head? = some c → c ∉ cutset) ∧
      (∀ c, (strings.Trim s cutset).getLast? = some c → c ∉ cutset) := by
  refine ⟨s.takeWhile (fun c => cutset.contains c),
    ((s.dropWhile (fun c => cutset.contains c)).reverse.takeWhile
      (fun c => cutset.contains c)).reverse, ?_, ?_, ?_, ?_, ?_⟩
  · unfold strings.Trim
    rw [List.append_assoc, ← List.reverse_append, List.takeWhile_append_dropWhile,
      List.reverse_reverse, List.takeWhile_append_dropWhile]
  · intro c hc
    have := List.mem_takeWhile_imp hc
    simpa using this
  · intro c hc
    have := List.mem_takeWhile_imp (List.mem_reverse.mp hc)
    simpa using this
  · intro c hc hmem
    have hD : s.dropWhile (fun c => cutset.contains c) = strings.Trim s cutset ++
        ((s.dropWhile (fun c => cutset.contains c)).reverse.takeWhile
          (fun c => cutset.contains c)).reverse := by
      unfold strings.Trim
      rw [← List.reverse_append, List.takeWhile_append_dropWhile, List.reverse_reverse]
    have hhead : (s.dropWhile (fun c => cutset.contains c)).head? = some c := by
      rw [hD]
      cases hT : strings.Trim s cutset with
      | nil => rw [hT] at hc; simp at hc
      | cons a l => rw [hT] at hc; simpa using hc
    have := List.head?_dropWhile_not (fun c => cutset.contains c) s
    rw [hhead] at this
    simp at this
    exact this hmem
  · intro c hc hmem
    unfold strings.Trim at hc
    rw [List.getLast?_reverse] at hc
    have := List.head?_dropWhile_not (fun c => cutset.contains c)
      (s.dropWhile (fun c => cutset.contains c)).reverse
    rw [hc] at this
    simp at this
    exact this hmem
theorem strings_Trim_of_all (s cutset : Bytes) (h : ∀ c ∈ s, c ∈ cutset) :
    strings.Trim s cutset = [] := by
  unfold strings.Trim
  have : s.dropWhile (fun c => cutset.contains c) = [] := by
    rw [List.dropWhile_eq_nil_iff]
    intro c hc
    simpa using h c hc
  rw [this]
  rfl

/-- C22, as stated, fails: at the sample test with the parameter file
`a  b` and a newline the appended arguments are `a`, the empty string and `b`;
with `a`, a tab and `b` there is the one argument that holds the tab; and with
a file of one newline there is one empty argument. -/
theorem executeProgram_parameters_not_tokens :
    executeProgram.arguments (sampleSandboxEnv none []) sampleCExecution (str "t1.in.txt")
        (str "t1.param.txt") [] (str "rte-c") [str "./a.out"] (paramFiles (str "a  b\n")) =
      .ok ([str "docker", str "run", str "--name", str "42-t1.in.txt", str "--rm", str "-v",
        str "/srv/rte/runs/42:/code", str "--workdir", str "/code", str "-i", str "-m",
        str "100M", str "rte-c", str "./a.out"] ++ [str "a", [], str "b"]) ∧
    executeProgram.arguments (sampleSandboxEnv none []) sampleCExecution (str "t1.in.txt")
        (str "t1.param.txt") [] (str "rte-c") [str "./a.out"] (paramFiles (str "a\tb")) =
      .ok ([str "docker", str "run", str "--name", str "42-t1.in.txt", str "--rm", str "-v",
        str "/srv/rte/runs/42:/code", str "--workdir", str "/code", str "-i", str "-m",
        str "100M", str "rte-c", str "./a.out"] ++ [str "a\tb"]) ∧
    executeProgram.arguments (sampleSandboxEnv none []) sampleCExecution (str "t1.in.txt")
        (str "t1.param.txt") [] (str "rte-c") [str "./a.out"] (paramFiles (str "\n")) =
      .ok ([str "docker", str "run", str "--name", str "42-t1.in.txt", str "--rm", str "-v",
        str "/srv/rte/runs/42:/code", str "--workdir", str "/code", str "-i", str "-m",
        str "100M", str "rte-c", str "./a.out"] ++ [[]]) :=
  ⟨rfl, rfl, rfl⟩

/-- C22, amended: for a parameter file that exists with content `s`, the
arguments that `executeProgram` appends are the pieces of `s`, with the CR and
LF bytes at its two ends trimmed, between single space bytes: joined by single
spaces they give the trimmed content back, none of them holds a space, and
there is one more of them than there are spaces; so an empty or all-newline
file appends one empty argument. -/
theorem executeProgram_parameters (env : SandboxEnv) (execution : Execution)
    (inFile paramFile : Bytes) (dockerArgs : List Bytes) (dockerImage : Bytes)
    (command : List Bytes) (fs : FileSystem) (s : Bytes) (docker : List Bytes)
    (hdocker : dockerArguments env execution.RunDir
      (execution.ID ++ str "-" ++ env.Base inFile) = .ok docker)
    (hstat : env.Stat (env.Join [execution.TestDir, paramFile]) fs = .ok false)
    (hread : fs (env.Join [execution.TestDir, paramFile]) = .ok s) :
    ∃ appended trimmed pre post,
      executeProgram.arguments env execution inFile paramFile dockerArgs dockerImage command
          fs =
        .ok (docker ++ [str "-i"] ++
          [str "-m", Itoa (if execution.Config.MaxMem = 0 then 100
            else execution.Config.MaxMem) ++ str "M"] ++
          dockerArgs ++ [dockerImage] ++ command ++ appended) ∧
      s = pre ++ trimmed ++ post ∧
      (∀ c ∈ pre, c = 13 ∨ c = 10) ∧ (∀ c ∈ post, c = 13 ∨ c = 10) ∧
      (∀ c, trimmed.head? = some c → c ≠ 13 ∧ c ≠ 10) ∧
      (∀ c, trimmed.getLast? = some c → c ≠ 13 ∧ c ≠ 10) ∧
      strings.Join appended (str " ") = trimmed ∧
      (∀ a ∈ appended, (32 : UInt8) ∉ a) ∧
      appended.length = trimmed.count 32 + 1 ∧
      ((∀ c ∈ s, c = 13 ∨ c = 10) → appended = [[]]) := by
  have hcut : ∀ c : UInt8, c ∈ str "\r\n" ↔ (c = 13 ∨ c = 10) := by
    intro c
    have : str "\r\n" = [13, 10] := by decide
    rw [this]
    simp
  obtain ⟨pre, post, hs, hpre, hpost, hhead, hlast⟩ := strings_Trim_spec s (str "\r\n")
  refine ⟨strings.Split (strings.Trim s (str "\r\n")) 32, strings.Trim s (str "\r\n"), pre, post,
    ?_, hs, ?_, ?_, ?_, ?_, ?_, strings_Split_no_sep _ _, strings_Split_length _ _, ?_⟩
  · unfold executeProgram.arguments
    simp only [hdocker, hstat, hread]
  · exact fun c hc => (hcut c).mp (hpre c hc)
  · exact fun c hc => (hcut c).mp (hpost c hc)
  · intro c hc
    have := hhead c hc
    rw [hcut] at this
    exact not_or.mp this
  · intro c hc
    have := hlast c hc
    rw [hcut] at this
    exact not_or.mp this
  · have : str " " = [32] := by decide
    rw [this]
    exact strings_Join_Split _ _
  · intro hall
    rw [strings_Trim_of_all s (str "\r\n") (fun c hc => (hcut c).mpr (hall c hc))]
    rfl

/-- C22, amended, at the sample test with the parameters `1 2` and a newline. -/
theorem executeProgram_parameters_witness :
    ∃ appended trimmed pre post,
      executeProgram.arguments (sampleSandboxEnv none []) sampleCExecution (str "t1.in.txt")
          (str "t1.param.txt") [] (str "rte-c") [str "./a.out"] (paramFiles (str "1 2\n")) =
        .ok ([str "docker", str "run", str "--name", str "42-t1.in.txt", str "--rm", str "-v",
          str "/srv/rte/runs/42:/code", str "--workdir", str "/code"] ++ [str "-i"] ++
          [str "-m", Itoa (if sampleCExecution.Config.MaxMem = 0 then 100
            else sampleCExecution.Config.MaxMem) ++ str "M"] ++
          [] ++ [str "rte-c"] ++ [str "./a.out"] ++ appended) ∧
      str "1 2\n" = pre ++ trimmed ++ post ∧
      (∀ c ∈ pre, c = 13 ∨ c = 10) ∧ (∀ c ∈ post, c = 13 ∨ c = 10) ∧
      (∀ c, trimmed.head? = some c → c ≠ 13 ∧ c ≠ 10) ∧
      (∀ c, trimmed.getLast? = some c → c ≠ 13 ∧ c ≠ 10) ∧
      strings.Join appended (str " ") = trimmed ∧
      (∀ a ∈ appended, (32 : UInt8) ∉ a) ∧
      appended.length = trimmed.count 32 + 1 ∧
      ((∀ c ∈ str "1 2\n", c = 13 ∨ c = 10) → appended = [[]]) :=
  executeProgram_parameters (sampleSandboxEnv none []) sampleCExecution (str "t1.in.txt")
    (str "t1.param.txt") [] (str "rte-c") [str "./a.out"] (paramFiles (str "1 2\n"))
    (str "1 2\n") _ rfl rfl rfl
/-! ## The deadline of a sandboxed run -/

theorem executeProgram_started_Timeout (env : SandboxEnv) (execution : Execution)
    (inFile paramFile outFile errFile : Bytes) (dockerArgs : List Bytes) (dockerImage : Bytes)
    (command : List Bytes) (fs : FileSystem) (cmd : Cmd) (r : Option RunError)
    (h : (executeProgram env execution inFile paramFile outFile errFile dockerArgs dockerImage
      command fs).started = some (cmd, r)) :
    cmd.Timeout =
      timeoutDuration (if execution.Config.Timeout = 0 then 10 else execution.Config.Timeout) := by
  unfold executeProgram at h
  simp only [] at h
  split at h
  · simp at h
  · split at h
    · simp at h
    · split at h
      · simp at h
      · split at h
        · simp at h
        · simp only [Option.some.injEq, Prod.mk.injEq] at h
          rw [← h.1]

theorem executeJUnit_start_Timeout (env : SandboxEnv) (execution : Execution) (fs : FileSystem)
    (cmd : Cmd) (h : (executeJUnit.start env execution fs).2 = .ok cmd) :
    cmd.Timeout =
      timeoutDuration (if execution.Config.Timeout = 0 then 10 else execution.Config.Timeout) := by
  unfold executeJUnit.start at h
  simp only [] at h
  split at h
  · simp at h
  · split at h
    · simp at h
    · split at h
      · simp at h
      · split at h
        · simp at h
        · split at h
          · simp at h
          · simp only [Except.ok.injEq] at h
            rw [← h]

theorem executeXUnit_start_Timeout (env : SandboxEnv) (execution : Execution) (fs : FileSystem)
    (cmd : Cmd) (h : (executeXUnit.start env execution fs).2 = .ok cmd) :
    cmd.Timeout =
      timeoutDuration (if execution.Config.Timeout = 0 then 30 else execution.Config.Timeout) := by
  unfold executeXUnit.start at h
  simp only [] at h
  split at h
  · simp at h
  · split at h
    · simp at h
    · split at h
      · simp at h
      · split at h
        · simp at h
        · simp only [Except.ok.injEq] at h
          rw [← h]

theorem executePytest_start_Timeout (env : SandboxEnv) (execution : Execution) (fs : FileSystem)
    (cmd : Cmd) (h : (executePytest.start env execution fs).2 = .ok cmd) :
    cmd.Timeout =
      timeoutDuration (if execution.Config.Timeout = 0 then 10 else execution.Config.Timeout) := by
  unfold executePytest.start at h
  simp only [] at h
  split at h
  · simp at h
  · split at h
    · simp at h
    · split at h
      · simp at h
      · split at h
        · simp at h
        · simp only [Except.ok.injEq] at h
          rw [← h]

theorem executeMatlabTest_start_Timeout (env : SandboxEnv) (execution : Execution)
    (fs : FileSystem) (cmd : Cmd) (h : (executeMatlabTest.start env execution fs).2 = .ok cmd) :
    cmd.Timeout =
      timeoutDuration (if execution.Config.Timeout = 0 then 10 else execution.Config.Timeout) := by
  unfold executeMatlabTest.start at h
  simp only [] at h
  split at h
  · simp at h
  · split at h
    · simp at h
    · split at h
      · simp at h
      · split at h
        · simp at h
        · simp only [Except.ok.injEq] at h
          rw [← h]

theorem DeadlineIs_of_timeoutDuration (cmd : Cmd) (config : TestConfig) (unset : Int)
    (hunset : 0 ≤ unset ∧ unset ≤ 9223372036)
    (h : cmd.Timeout = timeoutDuration (if config.Timeout = 0 then unset else config.Timeout)) :
    DeadlineIs cmd config unset := by
  constructor
  · intro h0
    rw [h, if_pos h0]
    exact wrapInt64_of_range _ (by omega) (by omega)
  · intro hpos hle
    rw [h, if_neg (by omega)]
    exact wrapInt64_of_range _ (by omega) (by omega)

/-- C23, as stated, fails: at the sample job, whose `Timeout` is 0, the
command of the xunit runner has a deadline of 30 seconds; and with a `Timeout`
of 9223372037 seconds the deadline of the junit runner is negative. -/
theorem executeXUnit_deadline_not_10 :
    ((executeXUnit.start (sampleSandboxEnv none []) sampleExecution (caseFiles [] [])).2.toOption.map
        (fun cmd => cmd.Timeout) = some (30 * 1000000000)) ∧
      ((executeJUnit.start (sampleSandboxEnv none []) sampleLongTimeout
        (caseFiles [] [])).2.toOption.map (fun cmd => cmd.Timeout) =
          some (-9223372036709551616)) := by
  decide

/-- C23, amended: the command that `executeProgram` (the I/O-diff runner), the
junit, the pytest and the matlab runner hand to the sandbox has a deadline of
10 seconds when `Timeout` is 0, the command of the xunit runner one of 30
seconds; and for each of the five the deadline is `Timeout` seconds when
`Timeout` is positive and at most 9223372036. -/
theorem sandbox_deadline (env : SandboxEnv) (execution : Execution) (fs : FileSystem)
    (cmd : Cmd) :
    (((∃ inFile paramFile outFile errFile dockerArgs dockerImage command r,
          (executeProgram env execution inFile paramFile outFile errFile dockerArgs dockerImage
            command fs).started = some (cmd, r)) ∨
        (executeJUnit.start env execution fs).2 = .ok cmd ∨
        (executePytest.start env execution fs).2 = .ok cmd ∨
        (executeMatlabTest.start env execution fs).2 = .ok cmd) →
      DeadlineIs cmd execution.Config 10) ∧
    ((executeXUnit.start env execution fs).2 = .ok cmd → DeadlineIs cmd execution.Config 30) := by
  constructor
  · rintro (⟨inFile, paramFile, outFile, errFile, dockerArgs, dockerImage, command, r, h⟩ |
      h | h | h)
    · exact DeadlineIs_of_timeoutDuration _ _ _ (by omega)
        (executeProgram_started_Timeout _ _ _ _ _ _ _ _ _ _ _ _ h)
    · exact DeadlineIs_of_timeoutDuration _ _ _ (by omega) (executeJUnit_start_Timeout _ _ _ _ h)
    · exact DeadlineIs_of_timeoutDuration _ _ _ (by omega) (executePytest_start_Timeout _ _ _ _ h)
    · exact DeadlineIs_of_timeoutDuration _ _ _ (by omega)
        (executeMatlabTest_start_Timeout _ _ _ _ h)
  · intro h
    exact DeadlineIs_of_timeoutDuration _ _ _ (by omega) (executeXUnit_start_Timeout _ _ _ _ h)

/-- C23, amended, at the sample job: the pytest runner has 10 seconds, the
xunit runner 30. -/
theorem sandbox_deadline_witness :
    (∃ cmd, (executePytest.start (sampleSandboxEnv none []) sampleExecution
        (caseFiles [] [])).2 = .ok cmd ∧ cmd.Timeout = 10 * 1000000000) ∧
      (∃ cmd, (executeXUnit.start (sampleSandboxEnv none []) sampleExecution
        (caseFiles [] [])).2 = .ok cmd ∧ cmd.Timeout = 30 * 1000000000) :=
  ⟨⟨_, rfl, ((sandbox_deadline (sampleSandboxEnv none []) sampleExecution (caseFiles [] [])
      _).1 (Or.inr (Or.inr (Or.inl rfl)))).1 rfl⟩,
    ⟨_, rfl, ((sandbox_deadline (sampleSandboxEnv none []) sampleExecution (caseFiles [] [])
      _).2 rfl).1 rfl⟩⟩

/-! ## The JUnit report -/

theorem foldl_append_InnerText (l : List Node) (test : Test) :
    l.foldl (fun (test : Test) o => { test with Error := test.Error ++ o.InnerText }) test =
      { test with Error := test.Error ++ l.flatMap Node.InnerText } := by
  induction l generalizing test with
  | nil => simp
  | cons o l ih => rw [List.foldl_cons, ih]; simp

theorem foldl_append_InnerText_not_first (l : List Node) (test : Test) :
    (l.foldl (fun (st : Test × Bool) o =>
      (if !st.2 then { st.1 with Error := st.1.Error ++ o.InnerText } else st.1, false))
      (test, false)).1 = { test with Error := test.Error ++ l.flatMap Node.InnerText } := by
  induction l generalizing test with
  | nil => simp
  | cons o l ih =>
    rw [List.foldl_cons]
    simp only [Bool.not_false, if_true]
    rw [ih]
    simp

theorem foldl_append_InnerText_first (l : List Node) (test : Test) :
    (l.foldl (fun (st : Test × Bool) o =>
      (if !st.2 then { st.1 with Error := st.1.Error ++ o.InnerText } else st.1, false))
      (test, true)).1 = { test with Error := test.Error ++ l.tail.flatMap Node.InnerText } := by
  cases l with
  | nil => simp
  | cons o l =>
    rw [List.foldl_cons]
    simp only [Bool.not_true, List.tail_cons]
    exact foldl_append_InnerText_not_first l test

/-- The loop of `parseTestResults` from any state, for a step that adds one to
the counter at a failing node and appends the test `t n`. -/
theorem parseTestResults_loop (failing : Node → Bool) (t : Node → Test)
    (g : Int × List Test → Node → Int × List Test)
    (hg : ∀ state n,
      g state n = (if failing n then state.1 + 1 else state.1, state.2 ++ [t n]))
    (nodes : List Node) (state : Int × List Test) :
    nodes.foldl g state =
      (state.1 + ((nodes.filter failing).length : Int), state.2 ++ nodes.map t) := by
  induction nodes generalizing state with
  | nil => simp
  | cons n nodes ih =>
    rw [List.foldl_cons, ih, hg]
    cases hf : failing n
    · simp [List.filter_cons, hf]
    · simp [List.filter_cons, hf]
      ring

/-- C24, as stated, fails: for a failing test case with one `failure` child of
text `f` and one `system-out` child of text `o`, the `Error` is `f`: the text of
the first `system-out` child is left out. -/
theorem parseTestResults_skips_first_system_out :
    parseTestResults
        (.mk (str "testsuite") [] (str "fo")
          [.mk (str "testcase") [(str "classname", str "A"), (str "name", str "m")] (str "fo")
            [.mk (str "failure") [] (str "f") [], .mk (str "system-out") [] (str "o") []]])
        0 [] =
      (1, [{ Name := str "A.m", Success := false, Error := str "f", Expected := [],
             Output := [] }]) := by
  decide

/-- C24, amended: `parseTestResults` appends, for every `testcase` element of
the document in document order, one `Test` whose `Name` is the attribute
`classname`, a dot and the attribute `name`, and whose `Success` is `true`
exactly when the element has no `failure` and no `error` child; for a failing
element the `Error` is the text of all its `error` children, then of all its
`failure` children, then of its `system-out` children but the first, then of
all its `system-err` children; and `failureCount` grows by the number of
failing elements. -/
theorem parseTestResults_tests (doc : Node) (failureCount : Int) (tests : List Test) :
    (parseTestResults doc failureCount tests).2 =
        tests ++ (xmlquery.Find doc (str "//testcase")).map (fun n =>
          { Name := n.SelectAttr (str "classname") ++ str "." ++ n.SelectAttr (str "name"),
            Success := (xmlquery.Find n (str "/failure")).isEmpty &&
              (xmlquery.Find n (str "/error")).isEmpty,
            Error :=
              if (xmlquery.Find n (str "/failure")).isEmpty &&
                  (xmlquery.Find n (str "/error")).isEmpty then []
              else
                (xmlquery.Find n (str "/error")).flatMap Node.InnerText ++
                (xmlquery.Find n (str "/failure")).flatMap Node.InnerText ++
                (xmlquery.Find n (str "/system-out")).tail.flatMap Node.InnerText ++
                (xmlquery.Find n (str "/system-err")).flatMap Node.InnerText,
            Expected := [], Output := [] }) ∧
      (parseTestResults doc failureCount tests).1 =
        failureCount + (((xmlquery.Find doc (str "//testcase")).filter (fun n =>
          !((xmlquery.Find n (str "/failure")).isEmpty &&
            (xmlquery.Find n (str "/error")).isEmpty))).length : Int) := by
  unfold parseTestResults
  rw [parseTestResults_loop
    (fun n => !((xmlquery.Find n (str "/failure")).isEmpty &&
      (xmlquery.Find n (str "/error")).isEmpty))
    (fun n =>
      { Name := n.SelectAttr (str "classname") ++ str "." ++ n.SelectAttr (str "name"),
        Success := (xmlquery.Find n (str "/failure")).isEmpty &&
          (xmlquery.Find n (str "/error")).isEmpty,
        Error :=
          if (xmlquery.Find n (str "/failure")).isEmpty &&
              (xmlquery.Find n (str "/error")).isEmpty then []
          else
            (xmlquery.Find n (str "/error")).flatMap Node.InnerText ++
            (xmlquery.Find n (str "/failure")).flatMap Node.InnerText ++
            (xmlquery.Find n (str "/system-out")).tail.flatMap Node.InnerText ++
            (xmlquery.Find n (str "/system-err")).flatMap Node.InnerText,
        Expected := [], Output := [] })
    _ ?hg]
  case hg =>
    intro state n
    simp only [foldl_append_InnerText, foldl_append_InnerText_first]
    have hlen : ∀ l : List Node, (l.length == 0) = l.isEmpty := fun l => by cases l <;> rfl
    simp only [hlen]
    by_cases hf : xmlquery.Find n (str "/failure") = [] <;>
      by_cases he : xmlquery.Find n (str "/error") = [] <;>
      simp [hf, he, List.isEmpty_iff]
  exact ⟨rfl, rfl⟩
/-! ## The Matlab runner -/

/-- C28 at a failing input: on a string of sixteen `#` the first
occurrence of the separator of fifteen starts at 0 and the last at 1, so the
slice expression has the bounds 15 and 1 and panics. -/
theorem extractMessage_overlap_panics :
    strings.Index (List.replicate 16 35) (str "###############") = 0 ∧
      strings.LastIndex (List.replicate 16 35) (str "###############") = 1 ∧
      extractMessage (List.replicate 16 35) =
        .panic (str "runtime error: slice bounds out of range [15:1]") :=
  ⟨by decide, by decide, rfl⟩

/-- C29 at a failing input: a run that exits normally and leaves
both log files empty gives the message of no byte, which splits into one line,
so the index `len(lines)-3` is `-2` and the function panics. -/
theorem executeMatlabTest_empty_output_panics :
    strings.Split [] 10 = [[]] ∧
      (executeMatlabTest (sampleSandboxEnv none []) sampleExecution (caseFiles [] [])).2 =
        .panic (str "runtime error: index out of range [-2]") :=
  ⟨rfl, rfl⟩

/-! ## The copy of resources and templates -/

theorem lookup_filter_ne (entries : List (Bytes × Tree)) (name other : Bytes)
    (h : other ≠ name) :
    (entries.filter (fun e => e.1 != name)).lookup other = entries.lookup other := by
  induction entries with
  | nil => rfl
  | cons e entries ih =>
    obtain ⟨k, t⟩ := e
    by_cases hk : k = name
    · subst hk
      have h1 : ((k, t).1 != k) = false := by simp
      have h2 : (other == k) = false := by simpa using h
      simp only [List.filter_cons, h1, List.lookup_cons, h2]
      simpa using ih
    · have h1 : ((k, t).1 != name) = true := by simpa using hk
      simp only [List.filter_cons, h1, List.lookup_cons, ih, if_true]

/-- Reading an entry of a directory after an entry was written. -/
theorem Tree.child_put (entries : List (Bytes × Tree)) (name other : Bytes) (t : Tree) :
    Tree.child (some ((Tree.dir entries).put name t)) other =
      if other = name then some t else Tree.child (some (.dir entries)) other := by
  unfold Tree.put Tree.child
  simp only [List.lookup_cons]
  by_cases h : other = name
  · subst h; simp
  · have h2 : (other == name) = false := by simpa using h
    rw [h2, if_neg h]
    exact lookup_filter_ne entries name other h

theorem Tree.put_dir (entries : List (Bytes × Tree)) (name : Bytes) (t : Tree) :
    ∃ entries', (Tree.dir entries).put name t = .dir entries' := ⟨_, rfl⟩

/-- Below a regular file the loop of `copyFiles` changes nothing. -/
theorem copyFiles_each_file (content : Bytes) (files : List (Bytes × Tree)) (o : Bool) :
    copyFiles.each (.file content) files o = .file content := by
  induction files with
  | nil => rw [copyFiles.each]
  | cons e files ih =>
    obtain ⟨name, f⟩ := e
    rw [copyFiles.each]
    exact ih

/-- The entry `name` of a directory after the loop of `copyFiles` over entries
with distinct names: the copy of the source entry of that name onto it, if
there is one, and the entry as it was otherwise. -/
theorem copyFiles_each_child (files : List (Bytes × Tree)) (o : Bool)
    (hnodup : (files.map Prod.fst).Nodup) (entries : List (Bytes × Tree)) (name : Bytes) :
    Tree.child (some (copyFiles.each (.dir entries) files o)) name =
      match files.lookup name with
      | some f => some (copyFiles.tree (Tree.child (some (.dir entries)) name) f o)
      | none => Tree.child (some (.dir entries)) name := by
  induction files generalizing entries with
  | nil => rw [copyFiles.each]; rfl
  | cons e files ih =>
    obtain ⟨n, f⟩ := e
    rw [copyFiles.each]
    obtain ⟨entries', hput⟩ := Tree.put_dir entries n
      (copyFiles.tree (Tree.child (some (.dir entries)) n) f o)
    have hchild := Tree.child_put entries n name
      (copyFiles.tree (Tree.child (some (.dir entries)) n) f o)
    rw [hput] at hchild ⊢
    rw [ih (List.nodup_cons.mp hnodup).2 entries', hchild, List.lookup_cons]
    by_cases h : name = n
    · subst h
      have hnot : files.lookup name = none := by
        rw [List.lookup_eq_none_iff]
        intro p hp
        have hne : name ≠ p.1 := fun heq =>
          (List.nodup_cons.mp hnodup).1 (List.mem_map.mpr ⟨p, hp, heq.symm⟩)
        simpa using hne
      simp [hnot]
    · have h2 : (name == n) = false := by simpa using h
      simp [h2, h]
theorem Tree.get_none (path : List Bytes) : Tree.get none path = none := by
  induction path with
  | nil => rfl
  | cons name path ih => exact ih

theorem Tree.get_file_cons (content : Bytes) (name : Bytes) (path : List Bytes) :
    Tree.get (some (.file content)) (name :: path) = none := Tree.get_none path

theorem Tree.wellFormedAll_lookup (entries : List (Bytes × Tree))
    (h : Tree.wellFormedAll entries = true) (name : Bytes) (f : Tree)
    (hl : entries.lookup name = some f) : f.wellFormed = true := by
  induction entries with
  | nil => simp at hl
  | cons e entries ih =>
    obtain ⟨k, t⟩ := e
    rw [Tree.wellFormedAll, Bool.and_eq_true] at h
    rw [List.lookup_cons] at hl
    cases hk : name == k
    · rw [hk] at hl; exact ih h.2 hl
    · rw [hk] at hl
      simp only [Option.some.injEq] at hl
      rw [← hl]; exact h.1

theorem Tree.wellFormed_dir (entries : List (Bytes × Tree))
    (h : (Tree.dir entries).wellFormed = true) :
    (entries.map Prod.fst).Nodup ∧ Tree.wellFormedAll entries = true := by
  rw [Tree.wellFormed, Bool.and_eq_true, decide_eq_true_eq] at h
  exact h

/-- A regular file of the destination stays as it is, unless the copy
overwrites and the source has a regular file at the same path. -/
theorem copyFiles_tree_keeps (path : List Bytes) :
    ∀ (destination : Option Tree) (source : Tree) (o : Bool) (c0 : Bytes),
      source.wellFormed = true → Tree.get destination path = some (.file c0) →
      (o = true → ∀ c, Tree.get (some source) path ≠ some (.file c)) →
      Tree.get (some (copyFiles.tree destination source o)) path = some (.file c0) := by
  induction path with
  | nil =>
    intro destination source o c0 _ hget hsrc
    have hd : destination = some (.file c0) := hget
    subst hd
    cases source with
    | file c =>
      cases o
      · rw [copyFiles.tree]; rfl
      · exact absurd rfl (hsrc rfl c)
    | dir files =>
      rw [copyFiles.tree]
      exact congrArg some (copyFiles_each_file c0 files o)
  | cons name path ih =>
    intro destination source o c0 hwf hget hsrc
    cases destination with
    | none => rw [Tree.get_none] at hget; exact absurd hget (by simp)
    | some d =>
      cases d with
      | file c => rw [Tree.get_file_cons] at hget; exact absurd hget (by simp)
      | dir entries =>
        cases source with
        | file c => rw [copyFiles.tree]; exact hget
        | dir files =>
          obtain ⟨hnodup, hall⟩ := Tree.wellFormed_dir files hwf
          rw [copyFiles.tree]
          show Tree.get (Tree.child (some (copyFiles.each (.dir entries) files o)) name) path = _
          rw [copyFiles_each_child files o hnodup entries name]
          cases hl : files.lookup name with
          | none => exact hget
          | some f =>
            refine ih _ f o c0 (Tree.wellFormedAll_lookup files hall name f hl) hget ?_
            intro ho c
            have := hsrc ho c
            change Tree.get (Tree.child (some (.dir files)) name) path ≠ _ at this
            rw [Tree.child, hl] at this
            exact this

/-- A regular file of the source arrives where a file can be written, when the
copy overwrites or nothing is at the path. -/
theorem copyFiles_tree_writes (path : List Bytes) :
    ∀ (destination : Option Tree) (source : Tree) (o : Bool) (c : Bytes),
      source.wellFormed = true → Tree.get (some source) path = some (.file c) →
      Tree.writable destination path = true → (o = true ∨ Tree.get destination path = none) →
      Tree.get (some (copyFiles.tree destination source o)) path = some (.file c) := by
  induction path with
  | nil =>
    intro destination source o c _ hget hw ho
    have hs : source = .file c := Option.some.inj hget
    subst hs
    cases destination with
    | none => rw [copyFiles.tree]; rfl
    | some d =>
      cases d with
      | file old =>
        rcases ho with ho | ho
        · subst ho; rw [copyFiles.tree]; rfl
        · exact absurd ho (by simp [Tree.get])
      | dir entries => exact absurd hw (by simp [Tree.writable])
  | cons name path ih =>
    intro destination source o c hwf hget hw ho
    cases source with
    | file content => rw [Tree.get_file_cons] at hget; exact absurd hget (by simp)
    | dir files =>
      obtain ⟨hnodup, hall⟩ := Tree.wellFormed_dir files hwf
      change Tree.get (Tree.child (some (.dir files)) name) path = _ at hget
      rw [Tree.child] at hget
      cases hl : files.lookup name with
      | none => rw [hl, Tree.get_none] at hget; exact absurd hget (by simp)
      | some f =>
        rw [hl] at hget
        have hwff := Tree.wellFormedAll_lookup files hall name f hl
        cases destination with
        | none =>
          rw [copyFiles.tree]
          show Tree.get (Tree.child (some (copyFiles.each (.dir []) files o)) name) path = _
          rw [copyFiles_each_child files o hnodup [] name, hl]
          exact ih _ f o c hwff hget (by simp [Tree.child, Tree.writable])
            (Or.inr (by simp [Tree.child, Tree.get_none]))
        | some d =>
          cases d with
          | file old => exact absurd hw (by simp [Tree.writable])
          | dir entries =>
            rw [copyFiles.tree]
            show Tree.get (Tree.child (some (copyFiles.each (.dir entries) files o)) name) path = _
            rw [copyFiles_each_child files o hnodup entries name, hl]
            exact ih _ f o c hwff hget hw ho
theorem copyFiles_keeps (destination source : Option Tree) (o : Bool) (path : List Bytes)
    (c0 : Bytes) (hwf : ∀ t, source = some t → t.wellFormed = true)
    (hget : Tree.get destination path = some (.file c0))
    (hsrc : o = true → ∀ c, Tree.get source path ≠ some (.file c)) :
    Tree.get (copyFiles destination source o) path = some (.file c0) := by
  cases source with
  | none => exact hget
  | some s => exact copyFiles_tree_keeps path destination s o c0 (hwf s rfl) hget hsrc

theorem copyFiles_writes (destination source : Option Tree) (o : Bool) (path : List Bytes)
    (c : Bytes) (hwf : ∀ t, source = some t → t.wellFormed = true)
    (hget : Tree.get source path = some (.file c)) (hw : Tree.writable destination path = true)
    (ho : o = true ∨ Tree.get destination path = none) :
    Tree.get (copyFiles destination source o) path = some (.file c) := by
  cases source with
  | none => rw [Tree.get_none] at hget; exact absurd hget (by simp)
  | some s => exact copyFiles_tree_writes path destination s o c (hwf s rfl) hget hw ho

/-- When `copyResources` returns no error, the run directory is the copy of the
templates, not overwriting, onto the copy of the resources, overwriting, and
the test directory is as before. -/
theorem copyResources_of_ok (env : Filepath) (execution : Execution) (disk : Disk)
    (hok : (copyResources env execution disk).2 = none) :
    (copyFilesFromFolder env execution resourcedir true disk).1.run =
        copyFiles disk.run (Tree.child disk.test resourcedir) true ∧
      (copyResources env execution disk).1.run =
        copyFiles (copyFiles disk.run (Tree.child disk.test resourcedir) true)
          (Tree.child disk.test templateDir) false ∧
      (copyResources env execution disk).1.test = disk.test := by
  unfold copyResources copyFilesFromFolder at hok ⊢
  cases h1 : env.Abs execution.RunDir with
  | error e => simp [h1] at hok
  | ok a =>
    cases h2 : env.Abs (env.Join [execution.TestDir, resourcedir]) with
    | error e => simp [h1, h2] at hok
    | ok b =>
      cases h3 : env.Abs (env.Join [execution.TestDir, templateDir]) with
      | error e => simp [h1, h2, h3] at hok
      | ok c => simp [h1, h2, h3]

/-- C25, as stated, fails: at the sample disk the test has the resource
`lib/helper.txt` and the user uploaded a regular file `lib`; after
`copyResources` the run directory has nothing at `lib/helper.txt`, and `lib` is
the user's file.  And where `filepath.Abs` fails nothing is copied: the
resource `Main.java` does not replace the user's file. -/
theorem copyResources_blocked_by_user_file :
    Tree.get (Tree.child sampleDisk.test resourcedir) [str "lib", str "helper.txt"] =
        some (.file (str "resource")) ∧
      Tree.get (copyResources sampleIOEnv.toFilepath sampleExecution sampleDisk).1.run
        [str "lib", str "helper.txt"] = none ∧
      Tree.get (copyResources sampleIOEnv.toFilepath sampleExecution sampleDisk).1.run
        [str "lib"] = some (.file (str "user")) ∧
      Tree.get (Tree.child sampleDisk.test resourcedir) [str "Main.java"] =
        some (.file (str "resource")) ∧
      Tree.get (copyResources noWorkingDirectory sampleExecution sampleDisk).1.run
        [str "Main.java"] = some (.file (str "user")) :=
  ⟨rfl, rfl, rfl, rfl, rfl⟩

/-- C25, amended: when `copyResources` returns no error (and no directory of
the two folders lists a name twice), then (1) for every regular file path of
`resources/` at which a file can be written in the run directory, the run
directory holds the resource's content there, also when the user uploaded a
file at the path; (2) every regular file that the run directory holds before
the template copy keeps its content; (3) for every regular file path of
`template/` at which the run directory holds nothing before the template copy
and a file can be written, it holds the template's content; (4) a regular file
of the run directory at a path that is not a regular file of `resources/` is
unchanged; and the test directory is unchanged. -/
theorem copyResources_overlay (env : Filepath) (execution : Execution) (disk : Disk)
    (hok : (copyResources env execution disk).2 = none)
    (hres : ∀ t, Tree.child disk.test resourcedir = some t → t.wellFormed = true)
    (htmpl : ∀ t, Tree.child disk.test templateDir = some t → t.wellFormed = true) :
    (∀ path c, Tree.get (Tree.child disk.test resourcedir) path = some (.file c) →
        Tree.writable disk.run path = true →
        Tree.get (copyResources env execution disk).1.run path = some (.file c)) ∧
      (∀ path c0,
        Tree.get (copyFilesFromFolder env execution resourcedir true disk).1.run path =
          some (.file c0) →
        Tree.get (copyResources env execution disk).1.run path = some (.file c0)) ∧
      (∀ path c, Tree.get (Tree.child disk.test templateDir) path = some (.file c) →
        Tree.get (copyFilesFromFolder env execution resourcedir true disk).1.run path = none →
        Tree.writable (copyFilesFromFolder env execution resourcedir true disk).1.run path = true →
        Tree.get (copyResources env execution disk).1.run path = some (.file c)) ∧
      (∀ path c0, Tree.get disk.run path = some (.file c0) →
        (∀ c, Tree.get (Tree.child disk.test resourcedir) path ≠ some (.file c)) →
        Tree.get (copyResources env execution disk).1.run path = some (.file c0)) ∧
      (copyResources env execution disk).1.test = disk.test := by
  obtain ⟨hmid, hafter, htest⟩ := copyResources_of_ok env execution disk hok
  rw [hmid, hafter]
  refine ⟨?_, ?_, ?_, ?_, htest⟩
  · intro path c hget hw
    exact copyFiles_keeps _ _ false path c htmpl
      (copyFiles_writes _ _ true path c hres hget hw (Or.inl rfl)) (fun h => absurd h (by simp))
  · intro path c0 hget
    exact copyFiles_keeps _ _ false path c0 htmpl hget (fun h => absurd h (by simp))
  · intro path c hget hnone hw
    exact copyFiles_writes _ _ false path c htmpl hget hw (Or.inr hnone)
  · intro path c0 hget hno
    exact copyFiles_keeps _ _ false path c0 htmpl
      (copyFiles_keeps _ _ true path c0 hres hget (fun _ => hno)) (fun h => absurd h (by simp))

/-- C25, amended, at the sample disk: the resource `Main.java` replaces the
user's file, and the template `Util.java` is added. -/
theorem copyResources_overlay_witness :
    Tree.get (copyResources sampleIOEnv.toFilepath sampleExecution sampleDisk).1.run
        [str "Main.java"] = some (.file (str "resource")) ∧
      Tree.get (copyResources sampleIOEnv.toFilepath sampleExecution sampleDisk).1.run
        [str "Util.java"] = some (.file (str "template")) :=
  have h := copyResources_overlay sampleIOEnv.toFilepath sampleExecution sampleDisk rfl
    (fun t ht => by cases ht; decide) (fun t ht => by cases ht; decide)
  ⟨h.1 [str "Main.java"] (str "resource") rfl rfl,
    h.2.2.1 [str "Util.java"] (str "template") rfl rfl rfl⟩

/-! ## Panics in the stages -/

/-- C26 at a failing input: the metric worker takes a job whose
`AllowedFiles` is empty and then a job of the sample policy.  The panic of
`clocMetric` is in the goroutine that `metric` started, the program exits, and
nothing is sent for the second job, which the worker alone would have served.
The test worker, whose panic is in its own goroutine, serves the job after a
Matlab run that panics. -/
theorem metricService_exits_on_panic :
    (metricService sampleMetricEnv (caseFiles [] []) [openPolicyJob, samplePolicyJob]).exited =
        true ∧
      (metricService sampleMetricEnv (caseFiles [] [])
        [openPolicyJob, samplePolicyJob]).events.countP PipelineEvent.isSendCloc = 0 ∧
      (metricService sampleMetricEnv (caseFiles [] []) [samplePolicyJob]).exited = false ∧
      (metricService sampleMetricEnv (caseFiles [] [])
        [samplePolicyJob]).events.countP PipelineEvent.isSendCloc = 1 ∧
      (handleTestRequest silentMatlabEnv (sampleJob Matlab) (caseFiles [] [])).2.countP
        PipelineEvent.isSendRes = 0 ∧
      (testService silentMatlabEnv (caseFiles [] [])
        [sampleJob Matlab, sampleJob IOTest]).countP PipelineEvent.isSendRes = 1 := by
  decide

/-- C27 at a failing input: the coordinator accepts an upload for a
test whose configuration has no `AllowedFiles` and publishes the job with a
`ClocChan`; the compile stage publishes the job on the metric queue; and
`clocMetric` panics at `AllowedFiles[0]`, in a goroutine without `recover`. -/
theorem clocMetric_indexes_empty_AllowedFiles :
    handleTest openPolicyEnv (sampleUpload [str "Main.java"]) =
        [.MkdirAll (str "runs/42"), .MkdirAll (str "runs/42/uploads"),
          .WriteFile (str "runs/42/uploads/Main.java") (str "class A {}"),
          .publishCompile openPolicyJob] ∧
      openPolicyJob.Config.AllowedFiles = [] ∧
      (compileService samplePipelineEnv openPolicyJob (caseFiles [] [])).2.countP
        PipelineEvent.isPublishMetric = 2 ∧
      clocMetric sampleMetricEnv 20 (str "42-analysis-cloc") (str "/srv/rte/runs/42") 100
          (str "runs/42") (str "t") openPolicyJob.Config (caseFiles [] []) =
        .panic (str "runtime error: index out of range [0] with length 0") ∧
      metric sampleMetricEnv openPolicyJob.toExecution (caseFiles [] []) =
        .exit (str "runtime error: index out of range [0] with length 0") :=
  ⟨rfl, rfl, by decide, rfl, rfl⟩

/-! ## The in-process comparison beyond the display cap -/

theorem readFile_of_le (fs : FileSystem) (filename res : Bytes) (h : fs filename = .ok res)
    (hlen : res.length ≤ maxFileSize) : readFile fs filename = .ok res := by
  unfold readFile
  rw [h]
  simp only [not_lt.mpr hlen, if_false]

theorem readFile_of_gt (fs : FileSystem) (filename res : Bytes) (h : fs filename = .ok res)
    (hlen : res.length > maxFileSize) : readFile fs filename = .ok (elided res) := by
  unfold readFile elided
  rw [h]
  simp only [hlen, if_true]

/-- The length of what `readFile` returns for a content of one byte more than
`maxFileSize`: two quarters of a MiB and the 51 bytes of the marker. -/
theorem elided_length (res : Bytes) (h : res.length = 1048577) :
    (elided res).length = 524339 := by
  have hm : (str "\n... [Output too long, skipping " ++
      Itoa (((1048577 : Nat) : Int) - ((maxFileSize / 2 : Nat) : Int)) ++
      str " bytes] ... \n").length = 51 := by decide
  unfold elided
  rw [h]
  rw [List.length_append, List.length_append, hm, List.length_take, List.length_drop, h]
  simp only [maxFileSize]
  decide

theorem stripTrailingEOL_append_singleton (l : Bytes) (c : UInt8) (hc : ¬ (c = 10 ∨ c = 13)) :
    stripTrailingEOL (l ++ [c]) = l ++ [c] := by
  unfold stripTrailingEOL
  have hp : (c == 10 || c == 13) = false := by
    simp only [not_or] at hc
    simp [hc.1, hc.2]
  simp [List.reverse_append, List.dropWhile_cons, hp]

theorem fullOutput_length : fullOutput.length = 1048576 := by
  simp only [fullOutput, List.length_replicate]

theorem longExpected_length : longExpected.length = 1048577 := by
  simp only [longExpected, List.length_replicate]
theorem newline_mem_elided (res : Bytes) : (10 : UInt8) ∈ elided res := by
  unfold elided
  refine List.mem_append_right _ (List.mem_append_left _ (List.mem_append_left _
    (List.mem_append_left _ ?_)))
  decide

theorem newline_not_mem_fullOutput : (10 : UInt8) ∉ fullOutput := by
  intro h
  simp only [fullOutput, List.mem_replicate] at h
  exact absurd h.2 (by decide)

theorem fullOutput_newline_length : (fullOutput ++ [10]).length = 1048577 := by
  rw [List.length_append, fullOutput_length]
  rfl

theorem readFile_fullOutput_newline (other : Bytes) :
    readFile (twoFiles (fullOutput ++ [10]) other) (str "t1.exp") =
        .ok (elided (fullOutput ++ [10])) ∧
      readFile (twoFiles other (fullOutput ++ [10])) (str "t1.out") =
        .ok (elided (fullOutput ++ [10])) :=
  ⟨readFile_of_gt _ _ _ rfl (by rw [fullOutput_newline_length]; decide),
    readFile_of_gt _ _ _ rfl (by rw [fullOutput_newline_length]; decide)⟩

theorem readFile_fullOutput (other : Bytes) :
    readFile (twoFiles fullOutput other) (str "t1.exp") = .ok fullOutput ∧
      readFile (twoFiles other fullOutput) (str "t1.out") = .ok fullOutput :=
  ⟨readFile_of_le _ _ _ rfl (by rw [fullOutput_length]; decide),
    readFile_of_le _ _ _ rfl (by rw [fullOutput_length]; decide)⟩

/-- C4, as stated, fails: the expected file holds `maxFileSize` bytes `a` and a
newline, and the output file the same bytes without the newline.  `readFile`
returns the expected file as its first quarter MiB, the marker and its last
quarter MiB, which is shorter than the output and no initial part of it, and
the comparison fails. -/
theorem compareFileContentExactMatch_fails_beyond_cap :
    twoFiles (fullOutput ++ [10]) fullOutput (str "t1.exp") = .ok (fullOutput ++ [10]) ∧
      twoFiles (fullOutput ++ [10]) fullOutput (str "t1.out") = .ok fullOutput ∧
      (compareFileContentExactMatch (twoFiles (fullOutput ++ [10]) fullOutput) (str "t1.exp")
        (str "t1.out")).testOk = false := by
  refine ⟨rfl, rfl, ?_⟩
  rcases compareFileContentExactMatch_cases (twoFiles (fullOutput ++ [10]) fullOutput)
    (str "t1.exp") (str "t1.out") _ _ (readFile_fullOutput_newline fullOutput).1
    (readFile_fullOutput (fullOutput ++ [10])).2 with ⟨⟨t, -, hc | hc⟩, -⟩ | ⟨-, hfail⟩
  · exfalso
    apply newline_not_mem_fullOutput
    rw [hc]
    exact List.mem_append_left _ (newline_mem_elided _)
  · exfalso
    have h := congrArg List.length hc
    rw [elided_length _ fullOutput_newline_length, List.length_append, fullOutput_length] at h
    omega
  · rw [hfail]

/-- C5, as stated, fails: the expected file holds one byte `a` more than
`maxFileSize`, and the output file holds its first quarter MiB, the marker and
its last quarter MiB.  `readFile` returns the same content for both and the
comparison passes, although the two files are not equal after removing the
trailing line-end bytes. -/
theorem compareFileContentExactMatch_passes_beyond_cap :
    twoFiles longExpected (elided longExpected) (str "t1.exp") = .ok longExpected ∧
      twoFiles longExpected (elided longExpected) (str "t1.out") = .ok (elided longExpected) ∧
      (compareFileContentExactMatch (twoFiles longExpected (elided longExpected)) (str "t1.exp")
        (str "t1.out")).testOk = true ∧
      stripTrailingEOL longExpected ≠ stripTrailingEOL (elided longExpected) := by
  have he : readFile (twoFiles longExpected (elided longExpected)) (str "t1.exp") =
      .ok (elided longExpected) :=
    readFile_of_gt _ _ _ rfl (by rw [longExpected_length]; decide)
  have ho : readFile (twoFiles longExpected (elided longExpected)) (str "t1.out") =
      .ok (elided longExpected) :=
    readFile_of_le _ _ _ rfl (by rw [elided_length _ longExpected_length]; decide)
  refine ⟨rfl, rfl, ?_, ?_⟩
  · rcases compareFileContentExactMatch_cases _ _ _ _ _ he ho with h | h
    · rw [h.2]
    · exact absurd ⟨[], by simp, Or.inl (List.append_nil _).symm⟩ h.1
  · intro heq
    have hlong : longExpected = List.replicate 1048576 97 ++ [97] := by
      rw [← List.replicate_succ']
      rfl
    have hkeep : stripTrailingEOL longExpected = longExpected := by
      rw [hlong]
      exact stripTrailingEOL_append_singleton _ _ (by decide)
    have h1 := stripTrailingEOL_length_le (elided longExpected)
    rw [← heq, hkeep, longExpected_length, elided_length _ longExpected_length] at h1
    omega

/-- C6, as stated, fails: `"a\n"` and `"a\r"` are equal once their trailing
line-end bytes are removed, yet the comparison fails.  And an expected file of
`maxFileSize` bytes `a` against an output file of the same bytes and a newline
fails, although the first is an initial part of the second and the two are
equal after removing the trailing line-end bytes: `readFile` returns the output
file as its first quarter MiB, the marker and its last quarter MiB. -/
theorem compareFileContentExactMatch_rejects_distinct_eol_runs :
    stripTrailingEOL (str "a\n") = stripTrailingEOL (str "a\r") ∧
      compareFileContentExactMatch (twoFiles (str "a\n") (str "a\r")) (str "t1.exp")
        (str "t1.out") = ⟨str "a\n", false, none⟩ ∧
      twoFiles fullOutput (fullOutput ++ [10]) (str "t1.exp") = .ok fullOutput ∧
      twoFiles fullOutput (fullOutput ++ [10]) (str "t1.out") = .ok (fullOutput ++ [10]) ∧
      stripTrailingEOL fullOutput = stripTrailingEOL (fullOutput ++ [10]) ∧
      compareFileContentExactMatch (twoFiles fullOutput (fullOutput ++ [10])) (str "t1.exp")
        (str "t1.out") = ⟨fullOutput, false, none⟩ := by
  refine ⟨by decide, by decide, rfl, rfl, ?_, ?_⟩
  · exact (stripTrailingEOL_append_eol fullOutput [10] (by simp)).symm
  · rcases compareFileContentExactMatch_cases (twoFiles fullOutput (fullOutput ++ [10]))
      (str "t1.exp") (str "t1.out") _ _ (readFile_fullOutput (fullOutput ++ [10])).1
      (readFile_fullOutput_newline fullOutput).2 with ⟨⟨t, -, hc | hc⟩, -⟩ | ⟨-, hfail⟩
    · exfalso
      have h := congrArg List.length hc
      rw [elided_length _ fullOutput_newline_length, List.length_append, fullOutput_length] at h
      omega
    · exfalso
      apply newline_not_mem_fullOutput
      rw [hc]
      exact List.mem_append_left _ (newline_mem_elided _)
    · exact hfail

end RTE
